import Mathlib

/-!
# Session token lifecycle of the auth service

A shallow embedding of the Go packages `pkg/jwt`, `internal/repo` and
`internal/service`, together with the parts of their collaborators that the
code relies on (the clock, `github.com/google/uuid`, `github.com/dgrijalva/jwt-go`,
the PostgreSQL tables), followed by theorems about the session token lifecycle.

Conventions of the embedding:

* every function that reads the clock takes the instant `now` as an argument;
  one call of a handler runs at one instant;
* a Go function that may panic returns an `Outcome`;
* a Go pair `(value, error)` is a Lean pair whose second component is an
  `Option`; `none` is the nil error;
* an interface (`JWTClient`, `Repository`) is a structure of functions, and the
  concrete `jwtClient` and `repository` are turned into such structures.
-/

/-! ## Go runtime -/

/-- Result of running a Go function: it returns a value or it panics. -/
inductive Outcome (α : Type) where
  | returns (a : α)
  | panics (reason : String)
deriving DecidableEq, Repr

/-- The panic raised by dereferencing a nil pointer. -/
def nilDereference : String := "invalid memory address or nil pointer dereference"

/-! ## Package time -/

namespace time

/-- A `time.Time`: nanoseconds since the Unix epoch. -/
abbrev Time := Int

/-- A `time.Duration`: a signed number of nanoseconds. -/
abbrev Duration := Int

def Nanosecond : Duration := 1
def Second : Duration := 1000000000
def Minute : Duration := 60 * Second
def Hour : Duration := 60 * Minute

/-- Go `t.Add(d)`. -/
def Add (t : Time) (d : Duration) : Time := t + d

/-- Go `t.Unix()`: whole seconds since the epoch, rounded towards minus infinity. -/
def Unix (t : Time) : Int := t / 1000000000

/-- The zero value of `time.Time`, the first instant of year one. -/
def zero : Time := -62135596800 * Second

end time

/-! ## Package github.com/google/uuid -/

namespace uuid

/-- A `uuid.UUID` is an array of sixteen bytes. -/
structure UUID where
  bytes : List (Fin 256)
  size : bytes.length = 16
deriving DecidableEq

/-- Lower-case hexadecimal digit of a value below sixteen. -/
def hexdigit (n : Nat) : Char :=
  match n with
  | 0 => '0' | 1 => '1' | 2 => '2' | 3 => '3' | 4 => '4' | 5 => '5' | 6 => '6' | 7 => '7'
  | 8 => '8' | 9 => '9' | 10 => 'a' | 11 => 'b' | 12 => 'c' | 13 => 'd' | 14 => 'e' | _ => 'f'

/-- Two hexadecimal digits per byte (`hex.Encode`). -/
def encodeHex : List (Fin 256) → List Char
  | [] => []
  | b :: rest => hexdigit (b.val / 16) :: hexdigit (b.val % 16) :: encodeHex rest

/-- Go `UUID.String()`: the form xxxxxxxx-xxxx-xxxx-xxxx-xxxxxxxxxxxx. -/
def UUID.String (u : UUID) : String :=
  String.mk (encodeHex (u.bytes.take 4) ++ '-' :: encodeHex ((u.bytes.drop 4).take 2)
    ++ '-' :: encodeHex ((u.bytes.drop 6).take 2) ++ '-' :: encodeHex ((u.bytes.drop 8).take 2)
    ++ '-' :: encodeHex (u.bytes.drop 10))

/-- Entry of the table `xvalues`: the value of a hexadecimal digit, if it is one. -/
def xvalue (c : Char) : Option Nat :=
  if '0' ≤ c ∧ c ≤ '9' then some (c.toNat - 48)
  else if 'a' ≤ c ∧ c ≤ 'f' then some (c.toNat - 87)
  else if 'A' ≤ c ∧ c ≤ 'F' then some (c.toNat - 55)
  else none

/-- Go `xtob`: the byte written by two hexadecimal digits. -/
def xtob (x1 x2 : Char) : Option (Fin 256) :=
  match xvalue x1, xvalue x2 with
  | some b1, some b2 => some (Fin.ofNat (b1 * 16 + b2))
  | _, _ => none

/-- Decodes a run of hexadecimal digit pairs. -/
def decodeHex : List Char → Option (List (Fin 256))
  | [] => some []
  | [_] => none
  | x1 :: x2 :: rest =>
    match xtob x1 x2, decodeHex rest with
    | some b, some bs => some (b :: bs)
    | _, _ => none

/-- Builds a UUID from decoded bytes when there are sixteen of them. -/
def ofBytes (bs : Option (List (Fin 256))) : Option UUID :=
  match bs with
  | some l => if h : l.length = 16 then some ⟨l, h⟩ else none
  | none => none

/-- Parses the thirty-six character form xxxxxxxx-xxxx-xxxx-xxxx-xxxxxxxxxxxx. -/
def parseDashed (s : List Char) : Option UUID :=
  if s.length = 36 ∧ s.get? 8 = some '-' ∧ s.get? 13 = some '-' ∧ s.get? 18 = some '-'
      ∧ s.get? 23 = some '-' then
    ofBytes (decodeHex (s.take 8 ++ (s.drop 9).take 4 ++ (s.drop 14).take 4
      ++ (s.drop 19).take 4 ++ s.drop 24))
  else none

/-- Go `uuid.Parse`: decodes the form xxxxxxxx-xxxx-xxxx-xxxx-xxxxxxxxxxxx, the same
after `urn:uuid:`, the 38 byte form of which only the middle 36 bytes are examined,
and the raw form of 32 hexadecimal digits; `none` stands for the returned error.
Parse works on the bytes of the string. A string with a character outside ASCII is
rejected by Parse, because its length in bytes is none of 32, 36, 38, 45 or a byte
above 127 stands in a place that is examined; such strings are rejected first here,
and in the others every character is one byte. -/
def Parse (s : String) : Option UUID :=
  let cs := s.data
  if cs.any (fun c => 128 ≤ c.toNat) then none
  else if cs.length = 36 then parseDashed cs
  else if cs.length = 36 + 9 then
    if (cs.take 9).map Char.toLower = "urn:uuid:".data then parseDashed (cs.drop 9) else none
  else if cs.length = 36 + 2 then parseDashed ((cs.drop 1).take 36)
  else if cs.length = 32 then ofBytes (decodeHex cs)
  else none

end uuid

/-! ## Package crypto/rsa -/

namespace rsa

/-- An RSA private key: `id` names the key pair, `size` is the modulus length in bytes. -/
structure PrivateKey where
  id : Nat
  size : Nat
deriving DecidableEq, Repr

/-- An RSA public key: `id` names the key pair it belongs to. -/
structure PublicKey where
  id : Nat
deriving DecidableEq, Repr

end rsa

/-! ## Package github.com/dgrijalva/jwt-go

The library (version 3) and the RSA primitives are not part of the sources. The
parsing and validation steps of the library are followed one by one; the
serialisation and the signature are symbolic: a token string is identified with its
signing method, its claims and its signature segment, and a signature verifies under
a public key exactly when it was produced, over the same two segments, with the
private key of the same pair. -/

namespace jwtgo

/-- A JSON value held in a `MapClaims`. A number is kept as what `int64(f)` gives
for the decoded `float64`, the only way the library and the client look at it;
arrays and objects are never inspected and are kept as text. -/
inductive JsonValue where
  | null
  | bool (b : Bool)
  | number (n : Int)
  | string (s : String)
  | composite (raw : String)
deriving DecidableEq, Repr

/-- The members of the claims object, in the order in which they are written in the
token. -/
abbrev MapClaims := List (String × JsonValue)

/-- The map lookup `m[key]`; when a key is written twice the later member wins, as
in `encoding/json`. -/
def MapClaims.index : MapClaims → String → Option JsonValue
  | [], _ => none
  | (k, v) :: rest, key =>
    match MapClaims.index rest key with
    | some w => some w
    | none => if k = key then some v else none

/-- The registered signing methods. -/
inductive SigningMethod where
  | RS256 | RS384 | RS512 | PS256 | PS384 | PS512
  | HS256 | HS384 | HS512 | ES256 | ES384 | ES512 | NONE
deriving DecidableEq, Repr

/-- The third segment of a token: either the signature that the header's RSA method
produces over the first two segments with the private key `key`, or anything else. -/
inductive Signature where
  | signed (key : Nat)
  | other (raw : String)
deriving DecidableEq, Repr

/-- A token string. A string that splits into three segments with a decodable
header naming a registered method and a decodable claims object is identified with
those parts; every other string is `malformed`. -/
inductive TokenString where
  | malformed (raw : String)
  | compact (alg : SigningMethod) (claims : MapClaims) (sig : Signature)
deriving DecidableEq, Repr

def ValidationErrorMalformed : Nat := 1
def ValidationErrorUnverifiable : Nat := 2
def ValidationErrorSignatureInvalid : Nat := 4
def ValidationErrorExpired : Nat := 16
def ValidationErrorIssuedAtInvalid : Nat := 32
def ValidationErrorNotValidYet : Nat := 128

/-- The library's error value. -/
structure ValidationError where
  Inner : Option String
  Errors : Nat
  text : String
deriving DecidableEq, Repr

/-- Go `ValidationError.Error()`. -/
def ValidationError.Error (e : ValidationError) : String :=
  match e.Inner with
  | some m => m
  | none => if e.text ≠ "" then e.text else "token is invalid"

/-- Go `ValidationError.valid()`: no error bit is set. -/
def ValidationError.valid (e : ValidationError) : Bool := e.Errors == 0

def verifyExp (exp now : Int) (required : Bool) : Bool :=
  if exp = 0 then !required else decide (now ≤ exp)

def verifyIat (iat now : Int) (required : Bool) : Bool :=
  if iat = 0 then !required else decide (now ≥ iat)

def verifyNbf (nbf now : Int) (required : Bool) : Bool :=
  if nbf = 0 then !required else decide (now ≥ nbf)

def MapClaims.VerifyExpiresAt (m : MapClaims) (cmp : Int) (req : Bool) : Bool :=
  match m.index "exp" with
  | some (.number exp) => verifyExp exp cmp req
  | _ => req == false

def MapClaims.VerifyIssuedAt (m : MapClaims) (cmp : Int) (req : Bool) : Bool :=
  match m.index "iat" with
  | some (.number iat) => verifyIat iat cmp req
  | _ => req == false

def MapClaims.VerifyNotBefore (m : MapClaims) (cmp : Int) (req : Bool) : Bool :=
  match m.index "nbf" with
  | some (.number nbf) => verifyNbf nbf cmp req
  | _ => req == false

/-- Go `MapClaims.Valid()`: the time-based claims, checked at the Unix second `now`. -/
def MapClaims.Valid (m : MapClaims) (now : Int) : Option ValidationError :=
  let vErr : ValidationError := ⟨none, 0, ""⟩
  let vErr := if m.VerifyExpiresAt now false = false then
    { vErr with Inner := some "Token is expired", Errors := vErr.Errors ||| ValidationErrorExpired }
    else vErr
  let vErr := if m.VerifyIssuedAt now false = false then
    { vErr with Inner := some "Token used before issued",
                Errors := vErr.Errors ||| ValidationErrorIssuedAtInvalid }
    else vErr
  let vErr := if m.VerifyNotBefore now false = false then
    { vErr with Inner := some "Token is not valid yet",
                Errors := vErr.Errors ||| ValidationErrorNotValidYet }
    else vErr
  if vErr.valid then none else some vErr

/-- Go `SigningMethod.Verify` with an `*rsa.PublicKey` as key: `none` when the
signature verifies, otherwise the error. Only the RSA methods accept such a key. -/
def SigningMethod.Verify (m : SigningMethod) (sig : Signature) (key : rsa.PublicKey) :
    Option String :=
  match m with
  | .RS256 | .RS384 | .RS512 | .PS256 | .PS384 | .PS512 =>
    if sig = .signed key.id then Option.none else some "crypto/rsa: verification error"
  | .HS256 | .HS384 | .HS512 | .ES256 | .ES384 | .ES512 => some "key is of invalid type"
  | .NONE => some "(none) signature type is not allowed"

/-- Go `SigningMethodRS256.Sign`, that is `rsa.SignPKCS1v15` with SHA-256: it fails
when the modulus is shorter than the 62 bytes of the padded digest, otherwise it
gives the one signature of the signing string under the key. -/
def signRS256 (key : rsa.PrivateKey) : Signature × Option String :=
  if key.size < 62 then (.other "", some "crypto/rsa: message too long for RSA key size")
  else (.signed key.id, none)

/-- The parts of a `*jwt.Token` that the client reads. -/
structure Token where
  Claims : MapClaims
  Valid : Bool
deriving DecidableEq, Repr

/-- Go `jwt.Parse(tokenString, keyFunc)` for a key function that always returns
`key`, run at the instant `now`. -/
def Parse (tokenString : TokenString) (key : rsa.PublicKey) (now : time.Time) :
    Option Token × Option ValidationError :=
  match tokenString with
  | .malformed _ =>
    (none, some ⟨none, ValidationErrorMalformed, "token contains an invalid number of segments"⟩)
  | .compact alg claims sig =>
    let vErr : ValidationError :=
      match claims.Valid (time.Unix now) with
      | some e => e
      | none => ⟨none, 0, ""⟩
    let vErr : ValidationError :=
      match alg.Verify sig key with
      | some err =>
        { vErr with Inner := some err, Errors := vErr.Errors ||| ValidationErrorSignatureInvalid }
      | none => vErr
    if vErr.valid then (some ⟨claims, true⟩, none) else (some ⟨claims, false⟩, some vErr)

/-- Go `jwt.New(SigningMethodRS256)` with the given claims, then `SignedString(key)`:
the empty string and an error when signing fails. -/
def SignedString (claims : MapClaims) (key : rsa.PrivateKey) : TokenString × Option String :=
  match signRS256 key with
  | (_, some err) => (.malformed "", some err)
  | (sig, none) => (.compact .RS256 claims sig, none)

end jwtgo

/-! ## Package pkg/jwt -/

namespace jwt

open jwtgo

structure GetDataFromTokenParams where
  Token : TokenString
deriving DecidableEq

structure GetDataFromTokenResponse where
  UserId : uuid.UUID
deriving DecidableEq

structure CreateTokenParams where
  UserId : uuid.UUID
deriving DecidableEq

structure CreateTokenResponse where
  AccessToken : TokenString
  RefreshToken : TokenString
deriving DecidableEq

structure ValidateTokenParams where
  Token : TokenString
deriving DecidableEq

/-- The interface `JWTClient`; every method runs at an instant and may panic. An
error is represented by its message. -/
structure JWTClient where
  CreateToken : time.Time → CreateTokenParams →
    Outcome (Option CreateTokenResponse × Option String)
  ValidateToken : time.Time → ValidateTokenParams → Outcome (Bool × Option String)
  GetDataFromToken : time.Time → GetDataFromTokenParams →
    Outcome (Option GetDataFromTokenResponse × Option String)

/-- The struct `jwtClient`. -/
structure jwtClient where
  privateKey : rsa.PrivateKey
  publicKey : rsa.PublicKey
  accessTokenTime : time.Duration
  refreshTokenTime : time.Duration
deriving DecidableEq

def NewJWTClient (privateKey : rsa.PrivateKey) (publicKey : rsa.PublicKey)
    (accessTokenTime refreshTokenTime : time.Duration) : jwtClient :=
  { privateKey := privateKey, publicKey := publicKey,
    accessTokenTime := accessTokenTime, refreshTokenTime := refreshTokenTime }

/-- The claims that `newToken` writes; `encoding/json` writes the keys of a map in
sorted order. -/
def newTokenClaims (now : time.Time) (params : CreateTokenParams) (lt : time.Duration) :
    MapClaims :=
  [("exp", .number (time.Unix (time.Add now lt))), ("userId", .string params.UserId.String)]

def jwtClient.newToken (a : jwtClient) (now : time.Time) (params : CreateTokenParams)
    (lt : time.Duration) : TokenString × Option String :=
  match SignedString (newTokenClaims now params lt) a.privateKey with
  | (_, some err) =>
    (.malformed "", some ("failed to create signed string from token: " ++ err))
  | (tokenString, none) => (tokenString, none)

def jwtClient.CreateToken (a : jwtClient) (now : time.Time) (params : CreateTokenParams) :
    Option CreateTokenResponse × Option String :=
  match a.newToken now params a.accessTokenTime with
  | (_, some err) => (none, some ("failed to create access token: " ++ err))
  | (accessToken, none) =>
    match a.newToken now params a.refreshTokenTime with
    | (_, some err) => (none, some ("failed to create refresh token: " ++ err))
    | (refreshToken, none) =>
      (some { AccessToken := accessToken, RefreshToken := refreshToken }, none)

def jwtClient.ValidateToken (a : jwtClient) (now : time.Time) (params : ValidateTokenParams) :
    Outcome (Bool × Option String) :=
  match Parse params.Token a.publicKey now with
  | (_, some err) => .returns (false, some err.Error)
  | (none, none) => .panics nilDereference
  | (some token, none) =>
    if token.Valid then
      match token.Claims.index "exp" with
      | some (.number expirationTime) =>
        if expirationTime > time.Unix now then .returns (true, none)
        else .returns (false, none)
      | _ => .panics "interface conversion: interface is not float64"
    else .returns (false, none)

/-- Go `GetDataFromToken`; the text of the uuid error wrapped into the last message is
left out. -/
def jwtClient.GetDataFromToken (a : jwtClient) (now : time.Time)
    (params : GetDataFromTokenParams) :
    Outcome (Option GetDataFromTokenResponse × Option String) :=
  let parsed := Parse params.Token a.publicKey now
  let rest : Outcome (Option GetDataFromTokenResponse × Option String) :=
    match parsed.1 with
    | none => .panics nilDereference
    | some token =>
      match token.Claims.index "userId" with
      | some (.string userIdStr) =>
        match uuid.Parse userIdStr with
        | none => .returns (none, some "invalid userId format in token")
        | some userId => .returns (some { UserId := userId }, none)
      | _ => .returns (none, some "invalid token claims")
  match parsed.2 with
  | some err => if err.Error ≠ "Token is expired" then .returns (none, some err.Error) else rest
  | none => rest

/-- The client `jwtClient` seen through the interface `JWTClient`. -/
def jwtClient.asJWTClient (a : jwtClient) : JWTClient :=
  { CreateToken := fun now params => .returns (a.CreateToken now params),
    ValidateToken := a.ValidateToken,
    GetDataFromToken := a.GetDataFromToken }

end jwt

/-! ## Package internal/repo

The pool and the PostgreSQL server are not part of the sources. The database is a
value holding the two tables; a query either reaches the server and runs as a whole
or does not reach it and changes nothing. A SELECT returns the rows in table order,
and rows stay in the order of their insertion. -/

namespace repo

open jwtgo

/-- A Go error returned by the repository, as far as the service inspects it:
whether `errors.Is(err, sql.ErrNoRows)` holds, or `errors.As` finds a
`*pgconn.PgError` and which code it carries. Wrapping keeps the class. -/
inductive Error where
  | ErrNoRows
  | PgError (Code : String)
  | other (message : String)
deriving DecidableEq, Repr

/-- The code `pgerrcode.UniqueViolation`. -/
def UniqueViolation : String := "23505"

/-- The code `pgerrcode.ForeignKeyViolation`. -/
def ForeignKeyViolation : String := "23503"

structure User where
  ID : uuid.UUID
  Username : String
  HashedPassword : String
  Email : String
  CreatedAt : time.Time
  UpdatedAt : time.Time
deriving DecidableEq

structure NewAuthTokenParams where
  UserID : uuid.UUID
  Tokens : jwt.CreateTokenResponse
  RefreshExpiresAt : time.Time
deriving DecidableEq

structure NewRefreshTokenParams where
  UserID : uuid.UUID
  Token : TokenString
deriving DecidableEq

structure DeleteRefreshTokenParams where
  UserID : uuid.UUID
deriving DecidableEq

structure GetRefreshTokenParams where
  UserID : uuid.UUID
deriving DecidableEq

/-- The field `UpdatedAt` is a `sql.NullTime`. -/
structure UpdateRefreshTokenParams where
  UserID : uuid.UUID
  Token : TokenString
  UpdatedAt : Option time.Time
deriving DecidableEq

/-- The interface `Repository` over a store of type `σ`: each method takes the
store and gives its Go results and the store afterwards. The methods whose query
calls `NOW()` take the instant first. -/
structure Repository (σ : Type) where
  CreateUser : time.Time → σ → User → (uuid.UUID × Option Error) × σ
  GetUserByUsername : σ → String → (Option User × Option Error) × σ
  GetPassword : σ → uuid.UUID → (String × Option Error) × σ
  NewRefreshToken : time.Time → σ → NewRefreshTokenParams → (Int × Option Error) × σ
  DeleteRefreshToken : σ → DeleteRefreshTokenParams → Option Error × σ
  GetRefreshToken : σ → GetRefreshTokenParams → (List TokenString × Option Error) × σ
  UpdateRefreshToken : time.Time → σ → UpdateRefreshTokenParams → Option Error × σ
  NewAuthToken : time.Time → σ → NewAuthTokenParams → Option Error × σ

/-- A row of the table `auth_tokens`, with the columns the queries name. -/
structure AuthToken where
  id : Int
  user_id : uuid.UUID
  access_token : Option TokenString
  refresh_token : TokenString
  created_at : time.Time
  updated_at : time.Time
  access_expires_at : Option time.Time
  refresh_expires_at : Option time.Time
deriving DecidableEq

/-- The constraints of the tables. The table definitions are not part of the
sources, so every combination is considered. -/
structure Schema where
  users_username_unique : Bool
  auth_tokens_user_id_unique : Bool
  auth_tokens_user_id_references_users : Bool
deriving DecidableEq, Repr

/-- The PostgreSQL database behind the pool: the two tables in row order, the
sequence of `auth_tokens.id`, the identifiers that `users.id` will default to,
and whether the pool can reach the server. -/
structure Database where
  schema : Schema
  users : List User
  auth_tokens : List AuthToken
  auth_tokens_id_seq : Int
  users_id_default : List uuid.UUID
  reachable : Bool
deriving DecidableEq

/-- The error of a pool call that cannot reach the server. -/
def poolError : Error := .other "failed to connect"

/-- The zero value `uuid.Nil`. -/
def uuidNil : uuid.UUID := ⟨List.replicate 16 0, rfl⟩

/-- The query `createUserQuery`. -/
def createUser (now : time.Time) (db : Database) (username password_hash email : String) :
    Except Error uuid.UUID × Database :=
  if !db.reachable then (.error poolError, db)
  else
    match db.users_id_default with
    | [] => (.error (.other "null value in column id"), db)
    | id :: ids =>
      let db := { db with users_id_default := ids }
      if db.schema.users_username_unique ∧ db.users.any (fun u => u.Username = username) then
        (.error (.PgError UniqueViolation), db)
      else
        (.ok id, { db with users := db.users ++
          [{ ID := id, Username := username, HashedPassword := password_hash, Email := email,
             CreatedAt := now, UpdatedAt := now }] })

/-- An `INSERT INTO auth_tokens`: the sequence advances, then the constraints are
checked, then the row is appended. -/
def insertAuthToken (db : Database) (row : Int → AuthToken) : Except Error Int × Database :=
  if !db.reachable then (.error poolError, db)
  else
    let id := db.auth_tokens_id_seq
    let db := { db with auth_tokens_id_seq := id + 1 }
    if db.schema.auth_tokens_user_id_unique
        ∧ db.auth_tokens.any (fun r => r.user_id = (row id).user_id) then
      (.error (.PgError UniqueViolation), db)
    else if db.schema.auth_tokens_user_id_references_users
        ∧ ¬ db.users.any (fun u => u.ID = (row id).user_id) then
      (.error (.PgError ForeignKeyViolation), db)
    else (.ok id, { db with auth_tokens := db.auth_tokens ++ [row id] })

/-- The query `deleteRefreshTokenQuery`. -/
def deleteRefreshTokenQuery (db : Database) (user_id : uuid.UUID) : Option Error × Database :=
  if !db.reachable then (some poolError, db)
  else (none, { db with auth_tokens := db.auth_tokens.filter (fun r => r.user_id ≠ user_id) })

/-- The query `getRefreshTokenQuery`. The query has no ORDER BY, so the server may
return the rows of the identity in any order; here they come in table order, which is
one of these orders. What depends on the order is stated for every repository whose
fetch returns the same tokens in some order. -/
def getRefreshTokenQuery (db : Database) (user_id : uuid.UUID) : Except Error (List TokenString) :=
  if !db.reachable then .error poolError
  else .ok ((db.auth_tokens.filter (fun r => r.user_id = user_id)).map (fun r => r.refresh_token))

/-- The query `updateRefreshTokenQuery`. -/
def updateRefreshTokenQuery (now : time.Time) (db : Database) (refresh_token : TokenString)
    (user_id : uuid.UUID) : Option Error × Database :=
  if !db.reachable then (some poolError, db)
  else (none, { db with auth_tokens := db.auth_tokens.map (fun r =>
    if r.user_id = user_id then { r with refresh_token := refresh_token, updated_at := now }
    else r) })

/-- The struct `repository`; its pool is the database it is connected to, which
the methods receive as the store. -/
structure repository where
deriving DecidableEq

def repository.CreateUser (_ : repository) (now : time.Time) (db : Database) (user : User) :
    (uuid.UUID × Option Error) × Database :=
  match createUser now db user.Username user.HashedPassword user.Email with
  | (.error err, db) => ((uuidNil, some err), db)
  | (.ok id, db) => ((id, none), db)

def repository.GetUserByUsername (_ : repository) (db : Database) (username : String) :
    (Option User × Option Error) × Database :=
  if !db.reachable then ((none, some poolError), db)
  else
    match db.users.find? (fun u => u.Username = username) with
    | none => ((none, some (.other "no rows in result set")), db)
    | some user => ((some user, none), db)

def repository.GetPassword (_ : repository) (db : Database) (userID : uuid.UUID) :
    (String × Option Error) × Database :=
  if !db.reachable then (("", some poolError), db)
  else
    match db.users.find? (fun u => u.ID = userID) with
    | none => (("", some (.other "no rows in result set")), db)
    | some user => ((user.HashedPassword, none), db)

def repository.NewRefreshToken (_ : repository) (now : time.Time) (db : Database)
    (params : NewRefreshTokenParams) : (Int × Option Error) × Database :=
  match insertAuthToken db (fun id =>
    { id := id, user_id := params.UserID, access_token := none, refresh_token := params.Token,
      created_at := now, updated_at := now,
      access_expires_at := none, refresh_expires_at := none }) with
  | (.error err, db) => ((0, some err), db)
  | (.ok id, db) => ((id, none), db)

def repository.DeleteRefreshToken (_ : repository) (db : Database)
    (params : DeleteRefreshTokenParams) : Option Error × Database :=
  deleteRefreshTokenQuery db params.UserID

def repository.GetRefreshToken (_ : repository) (db : Database)
    (params : GetRefreshTokenParams) : (List TokenString × Option Error) × Database :=
  match getRefreshTokenQuery db params.UserID with
  | .error err => (([], some err), db)
  | .ok tokens => ((tokens, none), db)

def repository.UpdateRefreshToken (_ : repository) (now : time.Time) (db : Database)
    (params : UpdateRefreshTokenParams) : Option Error × Database :=
  updateRefreshTokenQuery now db params.Token params.UserID

def repository.NewAuthToken (_ : repository) (now : time.Time) (db : Database)
    (params : NewAuthTokenParams) : Option Error × Database :=
  match insertAuthToken db (fun id =>
    { id := id, user_id := params.UserID, access_token := some params.Tokens.AccessToken,
      refresh_token := params.Tokens.RefreshToken, created_at := now, updated_at := now,
      access_expires_at := some (time.Add now time.Hour),
      refresh_expires_at := some params.RefreshExpiresAt }) with
  | (.error err, db) => (some err, db)
  | (.ok _, db) => (none, db)

/-- The struct `repository` seen through the interface `Repository`. -/
def repository.asRepository (r : repository) : Repository Database :=
  { CreateUser := r.CreateUser,
    GetUserByUsername := r.GetUserByUsername,
    GetPassword := r.GetPassword,
    NewRefreshToken := r.NewRefreshToken,
    DeleteRefreshToken := r.DeleteRefreshToken,
    GetRefreshToken := r.GetRefreshToken,
    UpdateRefreshToken := r.UpdateRefreshToken,
    NewAuthToken := r.NewAuthToken }

/-- The session records of an identity. -/
def Database.sessions (db : Database) (userID : uuid.UUID) : List AuthToken :=
  db.auth_tokens.filter (fun r => r.user_id = userID)

/-- A method call on a `Repository`, as noted by a recording wrapper. -/
inductive Call where
  | CreateUser (user : User)
  | GetUserByUsername (username : String)
  | GetPassword (userID : uuid.UUID)
  | NewRefreshToken (params : NewRefreshTokenParams)
  | DeleteRefreshToken (params : DeleteRefreshTokenParams)
  | GetRefreshToken (params : GetRefreshTokenParams)
  | UpdateRefreshToken (params : UpdateRefreshTokenParams)
  | NewAuthToken (params : NewAuthTokenParams)
deriving DecidableEq

/-- Whether a call is one of the methods that write to the store. -/
def Call.mutates : Call → Bool
  | .CreateUser _ | .NewRefreshToken _ | .DeleteRefreshToken _ | .UpdateRefreshToken _
  | .NewAuthToken _ => true
  | .GetUserByUsername _ | .GetPassword _ | .GetRefreshToken _ => false

/-- A repository that behaves as `r` and appends every call it receives to a log
kept next to the store. -/
def Repository.recorded {σ : Type} (r : Repository σ) : Repository (σ × List Call) :=
  { CreateUser := fun now s user =>
      ((r.CreateUser now s.1 user).1, (r.CreateUser now s.1 user).2, s.2 ++ [.CreateUser user]),
    GetUserByUsername := fun s username =>
      ((r.GetUserByUsername s.1 username).1, (r.GetUserByUsername s.1 username).2,
        s.2 ++ [.GetUserByUsername username]),
    GetPassword := fun s userID =>
      ((r.GetPassword s.1 userID).1, (r.GetPassword s.1 userID).2, s.2 ++ [.GetPassword userID]),
    NewRefreshToken := fun now s params =>
      ((r.NewRefreshToken now s.1 params).1, (r.NewRefreshToken now s.1 params).2,
        s.2 ++ [.NewRefreshToken params]),
    DeleteRefreshToken := fun s params =>
      ((r.DeleteRefreshToken s.1 params).1, (r.DeleteRefreshToken s.1 params).2,
        s.2 ++ [.DeleteRefreshToken params]),
    GetRefreshToken := fun s params =>
      ((r.GetRefreshToken s.1 params).1, (r.GetRefreshToken s.1 params).2,
        s.2 ++ [.GetRefreshToken params]),
    UpdateRefreshToken := fun now s params =>
      ((r.UpdateRefreshToken now s.1 params).1, (r.UpdateRefreshToken now s.1 params).2,
        s.2 ++ [.UpdateRefreshToken params]),
    NewAuthToken := fun now s params =>
      ((r.NewAuthToken now s.1 params).1, (r.NewAuthToken now s.1 params).2,
        s.2 ++ [.NewAuthToken params]) }

end repo

/-! ## Package internal/service -/

namespace service

open jwtgo

/-- The gRPC status codes of `google.golang.org/grpc/codes`. -/
inductive Code where
  | OK | Canceled | Unknown | InvalidArgument | DeadlineExceeded | NotFound | AlreadyExists
  | PermissionDenied | ResourceExhausted | FailedPrecondition | Aborted | OutOfRange
  | Unimplemented | Internal | Unavailable | DataLoss | Unauthenticated
deriving DecidableEq, Repr

/-- A Go error returned by a handler: a gRPC status, or a repository error wrapped
with a message. -/
inductive Error where
  | status (code : Code) (message : String)
  | wrapped (message : String) (cause : repo.Error)
deriving DecidableEq, Repr

/-- The constructor `status.Error(c, msg)`: it is the nil error when the code is `OK`. -/
def statusError (c : Code) (msg : String) : Option Error :=
  if c = .OK then none else some (.status c msg)

def ErrUnknown : String := "try it a little later or check the data you entered"
def ErrUserAuthAlreadyExist : String := "user auth already exist"
def ErrUserNotFound : String := "User not found"
def ErrValidateJwt : String := "not authorized"
def ErrTokenNotFound : String := "refresh token not found"

structure RegisterRequest where
  Username : String
  Password : String
  Email : String
deriving DecidableEq

structure RegisterResponse where
deriving DecidableEq

structure LoginRequest where
  Username : String
  Password : String
deriving DecidableEq

structure LoginResponse where
  AccessToken : TokenString
  RefreshToken : TokenString
deriving DecidableEq

structure ValidateRequest where
  AccessToken : TokenString
deriving DecidableEq

structure ValidateResponse where
  UserId : String
deriving DecidableEq

structure NewJwtRequest where
  UserId : String
deriving DecidableEq

structure NewJwtResponse where
  AccessToken : TokenString
  RefreshToken : TokenString
deriving DecidableEq

structure RevokeJwtRequest where
  UserId : String
deriving DecidableEq

structure RevokeJwtResponse where
deriving DecidableEq

structure RefreshRequest where
  AccessToken : TokenString
  RefreshToken : TokenString
deriving DecidableEq

structure RefreshResponse where
  AccessToken : TokenString
  RefreshToken : TokenString
deriving DecidableEq

/-- The struct `authServer` over a store of type `σ`. Besides the two interfaces it
lists the package-level functions the handlers call whose code is outside the
sources: `validator.Validate` applied to each request type (the rules are tags of
the generated request types), and `secure.IsValidPassword`, `secure.HashPassword`
and `secure.CheckPassword`; an error is represented by its message. -/
structure authServer (σ : Type) where
  repo : repo.Repository σ
  jwt : jwt.JWTClient
  validateRegister : RegisterRequest → Option String
  validateLogin : LoginRequest → Option String
  validateNewJwt : NewJwtRequest → Option String
  IsValidPassword : String → Bool × Option String
  HashPassword : String → String × Option String
  CheckPassword : String → String → Option String

/-- What a handler does: it returns a response and an error, or panics. -/
abbrev Reply (R : Type) := Outcome (Option R × Option Error)

/-- A handler that returns the given status error and no response. -/
def fail {R : Type} (c : Code) (msg : String) : Reply R := .returns (none, statusError c msg)

def authServer.Register {σ : Type} (a : authServer σ) (now : time.Time) (req : RegisterRequest)
    (s : σ) : Reply RegisterResponse × σ :=
  match a.validateRegister req with
  | some err => (fail .OK err, s)
  | none =>
    match a.IsValidPassword req.Password with
    | (false, err) =>
      (fail .InvalidArgument (match err with | some m => m | none => "invalid password"), s)
    | (true, _) =>
      let req := { req with Password := (a.HashPassword req.Password).1 }
      match a.repo.CreateUser now s
        { ID := repo.uuidNil, Username := req.Username, HashedPassword := req.Password,
          Email := req.Email, CreatedAt := time.zero, UpdatedAt := time.zero } with
      | ((_, some err), s) =>
        match err with
        | .PgError code =>
          if code = repo.UniqueViolation then (fail .AlreadyExists ErrUserAuthAlreadyExist, s)
          else (.returns (none, some (.wrapped "failed to create user" err)), s)
        | _ => (.returns (none, some (.wrapped "failed to create user" err)), s)
      | ((_, none), s) => (.returns (some {}, none), s)

def authServer.Login {σ : Type} (a : authServer σ) (now : time.Time) (req : LoginRequest)
    (s : σ) : Reply LoginResponse × σ :=
  match a.validateLogin req with
  | some err => (fail .InvalidArgument err, s)
  | none =>
    match a.repo.GetUserByUsername s req.Username with
    | ((_, some _), s) => (fail .NotFound "user not found", s)
    | ((none, none), s) => (.panics nilDereference, s)
    | ((some user, none), s) =>
      match a.CheckPassword user.HashedPassword req.Password with
      | some _ => (fail .Unauthenticated "invalid username or password", s)
      | none =>
        match a.jwt.CreateToken now { UserId := user.ID } with
        | .panics reason => (.panics reason, s)
        | .returns (none, _) => (.panics nilDereference, s)
        | .returns (some tokens, _) =>
          match a.repo.NewAuthToken now s
            { UserID := user.ID, Tokens := tokens,
              RefreshExpiresAt := time.Add now (30 * 24 * time.Hour) } with
          | (some _, s) => (fail .Internal ErrUnknown, s)
          | (none, s) =>
            (.returns (some { AccessToken := tokens.AccessToken,
                              RefreshToken := tokens.RefreshToken }, none), s)

def authServer.Validate {σ : Type} (a : authServer σ) (now : time.Time) (req : ValidateRequest)
    (s : σ) : Reply ValidateResponse × σ :=
  match a.jwt.ValidateToken now { Token := req.AccessToken } with
  | .panics reason => (.panics reason, s)
  | .returns (check, err) =>
    if err ≠ none ∨ check = false then (fail .Unauthenticated "JWT validation failed", s)
    else
      match a.jwt.GetDataFromToken now { Token := req.AccessToken } with
      | .panics reason => (.panics reason, s)
      | .returns (_, some _) => (fail .Unauthenticated ErrValidateJwt, s)
      | .returns (none, none) => (.panics nilDereference, s)
      | .returns (some accessData, none) =>
        match a.repo.GetRefreshToken s { UserID := accessData.UserId } with
        | ((_, some err), s) =>
          if err = .ErrNoRows then (fail .Unauthenticated ErrValidateJwt, s)
          else (fail .Internal ErrUnknown, s)
        | ((_, none), s) => (.returns (some { UserId := accessData.UserId.String }, none), s)

def authServer.NewJwt {σ : Type} (a : authServer σ) (now : time.Time) (req : NewJwtRequest)
    (s : σ) : Reply NewJwtResponse × σ :=
  match uuid.Parse req.UserId with
  | none => (fail .InvalidArgument "invalid user id format", s)
  | some userID =>
    match a.validateNewJwt req with
    | some err => (fail .InvalidArgument err, s)
    | none =>
      match a.jwt.CreateToken now { UserId := userID } with
      | .panics reason => (.panics reason, s)
      | .returns (_, some _) => (fail .Internal ErrUnknown, s)
      | .returns (none, none) => (.panics nilDereference, s)
      | .returns (some tokens, none) =>
        match a.repo.NewRefreshToken now s { UserID := userID, Token := tokens.RefreshToken } with
        | ((_, some err), s) =>
          if err = .PgError repo.ForeignKeyViolation then (fail .NotFound ErrUserNotFound, s)
          else (fail .Internal ErrUnknown, s)
        | ((_, none), s) =>
          (.returns (some { AccessToken := tokens.AccessToken,
                            RefreshToken := tokens.RefreshToken }, none), s)

def authServer.RevokeJwt {σ : Type} (a : authServer σ) (req : RevokeJwtRequest) (s : σ) :
    Reply RevokeJwtResponse × σ :=
  match uuid.Parse req.UserId with
  | none => (fail .InvalidArgument "invalid user id format", s)
  | some userID =>
    match a.repo.DeleteRefreshToken s { UserID := userID } with
    | (some _, s) => (fail .Internal ErrUnknown, s)
    | (none, s) => (.returns (some {}, none), s)

def authServer.Refresh {σ : Type} (a : authServer σ) (now : time.Time) (req : RefreshRequest)
    (s : σ) : Reply RefreshResponse × σ :=
  match a.jwt.ValidateToken now { Token := req.RefreshToken } with
  | .panics reason => (.panics reason, s)
  | .returns (check, err) =>
    if err ≠ none ∨ check = false then (fail .Unauthenticated ErrValidateJwt, s)
    else
      match a.jwt.GetDataFromToken now { Token := req.AccessToken } with
      | .panics reason => (.panics reason, s)
      | .returns (_, some _) => (fail .Unauthenticated ErrValidateJwt, s)
      | .returns (accessData, none) =>
        match a.jwt.GetDataFromToken now { Token := req.RefreshToken } with
        | .panics reason => (.panics reason, s)
        | .returns (_, some _) => (fail .Unauthenticated ErrValidateJwt, s)
        | .returns (refreshData, none) =>
          match accessData, refreshData with
          | none, _ => (.panics nilDereference, s)
          | some _, none => (.panics nilDereference, s)
          | some accessData, some refreshData =>
            if accessData.UserId ≠ refreshData.UserId then
              (fail .Unauthenticated ErrValidateJwt, s)
            else
              match a.repo.GetRefreshToken s { UserID := refreshData.UserId } with
              | ((_, some err), s) =>
                if err = .ErrNoRows then (fail .NotFound ErrTokenNotFound, s)
                else (fail .Internal ErrUnknown, s)
              | (([], none), s) => (fail .NotFound ErrTokenNotFound, s)
              | ((rtToken0 :: _, none), s) =>
                if rtToken0 ≠ req.RefreshToken then (fail .Unauthenticated ErrValidateJwt, s)
                else
                  match a.jwt.CreateToken now { UserId := refreshData.UserId } with
                  | .panics reason => (.panics reason, s)
                  | .returns (_, some _) => (fail .Internal ErrUnknown, s)
                  | .returns (none, none) => (.panics nilDereference, s)
                  | .returns (some tokens, none) =>
                    match a.repo.UpdateRefreshToken now s
                      { Token := tokens.RefreshToken, UpdatedAt := some now,
                        UserID := refreshData.UserId } with
                    | (some _, s) => (fail .Internal ErrUnknown, s)
                    | (none, s) =>
                      (.returns (some { AccessToken := tokens.AccessToken,
                                        RefreshToken := tokens.RefreshToken }, none), s)

/-- The constructor `NewAuthServer` applied to the concrete client and repository,
with the package-level functions given. -/
def NewAuthServer (r : repo.repository) (c : jwt.jwtClient)
    (validateRegister : RegisterRequest → Option String)
    (validateLogin : LoginRequest → Option String)
    (validateNewJwt : NewJwtRequest → Option String)
    (IsValidPassword : String → Bool × Option String)
    (HashPassword : String → String × Option String)
    (CheckPassword : String → String → Option String) : authServer repo.Database :=
  { repo := r.asRepository, jwt := c.asJWTClient,
    validateRegister := validateRegister, validateLogin := validateLogin,
    validateNewJwt := validateNewJwt, IsValidPassword := IsValidPassword,
    HashPassword := HashPassword, CheckPassword := CheckPassword }

/-- The same server with its repository wrapped in the call recorder. -/
def authServer.recorded {σ : Type} (a : authServer σ) : authServer (σ × List repo.Call) :=
  { a with repo := a.repo.recorded }

end service

/-! ## Package pkg/validator

The library `github.com/go-playground/validator` is not part of the sources; its
method `StructCtx` is a parameter, and its result is kept as far as
`parseValidationErrors` reads it. -/

namespace validator

def ErrInvalidFormat : String := "Invalid format"
def ErrFieldRequired : String := "Field is required"
def ErrFieldExceedsMaxLen : String := "Field exceeds maximum length"
def ErrFieldBelowMinLen : String := "Field is below minimum length"
def ErrFieldExceedsMaxVal : String := "Field exceeds maximum value"
def ErrFieldBelowMinVal : String := "Field is below minimum value"
def ErrUnknownValidation : String := "Unknown validation error"

/-- A field violation `validator.FieldError` of the library: its tag and its namespace. -/
structure FieldError where
  Tag : String
  Namespace : String
deriving DecidableEq, Repr

/-- The non-nil errors that `StructCtx` of the library returns: the list
`validator.ValidationErrors` of field violations, or `*validator.InvalidValidationError`
for a value that is not a structure. -/
inductive Error where
  | ValidationErrors (vErrors : List FieldError)
  | InvalidValidationError (type : String)
deriving DecidableEq, Repr

/-- Go `validateTag`: whether the text matches the pattern of a hash sign followed by
one or more of the lower-case letters, the digits, the underscore and the hyphen. -/
def validateTag (field : String) : Bool :=
  match field.data with
  | [] => false
  | c :: rest =>
    c = '#' && !rest.isEmpty && rest.all (fun x =>
      (decide ('a' ≤ x) && decide (x ≤ 'z')) || (decide ('0' ≤ x) && decide (x ≤ '9'))
        || x = '_' || x = '-')

/-- Go `parseValidationErrors`; an error is represented by its message. -/
def parseValidationErrors (err : Option Error) : Option String :=
  match err with
  | none => none
  | some (.InvalidValidationError _) => none
  | some (.ValidationErrors []) => none
  | some (.ValidationErrors (validationError :: _)) =>
    let validationErrorDescription :=
      if validationError.Tag = "tag" then ErrInvalidFormat
      else if validationError.Tag = "required" then ErrFieldRequired
      else if validationError.Tag = "max" then ErrFieldExceedsMaxLen
      else if validationError.Tag = "min" then ErrFieldBelowMinLen
      else if validationError.Tag = "lt" ∨ validationError.Tag = "lte" then ErrFieldExceedsMaxVal
      else if validationError.Tag = "gt" ∨ validationError.Tag = "gte" then ErrFieldBelowMinVal
      else ErrUnknownValidation
    some (validationErrorDescription ++ ": " ++ validationError.Namespace)

/-- Go `Validate(ctx, structure)`, where `StructCtx` is the method of the global
validator applied to values of the type `α`. -/
def Validate {α : Type} (StructCtx : α → Option Error) (value : α) : Option String :=
  parseValidationErrors (StructCtx value)

end validator

/-! ## Package pkg/secure -/

namespace secure

/-- Modelled from the spec: the function `IsValidPassword` of package `secure`, of
which only the test is part of the sources. The spec: it enforces a length of 8 to 30
inclusive and the presence of at least one uppercase letter, one lowercase letter,
one digit and one symbol from a fixed allowed set, and fails with a single fixed
reason. The allowed set `symbols` and the text `PasswordValidateErr` of the reason
are parameters; letters and digits are the ASCII ones and the length is counted in
characters. -/
def IsValidPassword (symbols : List Char) (PasswordValidateErr : String) (password : String) :
    Bool × Option String :=
  if 8 ≤ password.length ∧ password.length ≤ 30
      ∧ password.data.any Char.isUpper = true ∧ password.data.any Char.isLower = true
      ∧ password.data.any Char.isDigit = true
      ∧ password.data.any (fun c => symbols.contains c) = true then
    (true, none)
  else (false, some PasswordValidateErr)

end secure

/-! ## Tokens without an expiry -/

namespace jwt

open jwtgo

/-- Go `CreateTokenId`. The function `readPrivateKey` reads the file `private.pem`;
what it returns is the parameter `readPrivateKey`. The claims hold the single entry
`userId`, which `encoding/json` writes through `UUID.MarshalText` as the canonical
text of the identifier. -/
def jwtClient.CreateTokenId (_a : jwtClient) (readPrivateKey : rsa.PrivateKey × Option String)
    (params : CreateTokenParams) : TokenString × Option String :=
  match readPrivateKey with
  | (_, some err) => (.malformed "", some err)
  | (privateKey, none) =>
    match SignedString [("userId", .string params.UserId.String)] privateKey with
    | (_, some err) => (.malformed "", some err)
    | (accessTokenString, none) => (accessTokenString, none)

end jwt

/-! ## Concurrent calls of Refresh -/

namespace service

open jwtgo

/-- The first part of `Refresh`, lines 231 to 276: verification of the tokens, fetch
of the stored token and comparison. It gives the reply with which `Refresh` ends
here, or the identity with which it goes on. -/
def authServer.refreshCheck {σ : Type} (a : authServer σ) (now : time.Time)
    (req : RefreshRequest) (s : σ) : (Reply RefreshResponse ⊕ uuid.UUID) × σ :=
  match a.jwt.ValidateToken now { Token := req.RefreshToken } with
  | .panics reason => (.inl (.panics reason), s)
  | .returns (check, err) =>
    if err ≠ none ∨ check = false then (.inl (fail .Unauthenticated ErrValidateJwt), s)
    else
      match a.jwt.GetDataFromToken now { Token := req.AccessToken } with
      | .panics reason => (.inl (.panics reason), s)
      | .returns (_, some _) => (.inl (fail .Unauthenticated ErrValidateJwt), s)
      | .returns (accessData, none) =>
        match a.jwt.GetDataFromToken now { Token := req.RefreshToken } with
        | .panics reason => (.inl (.panics reason), s)
        | .returns (_, some _) => (.inl (fail .Unauthenticated ErrValidateJwt), s)
        | .returns (refreshData, none) =>
          match accessData, refreshData with
          | none, _ => (.inl (.panics nilDereference), s)
          | some _, none => (.inl (.panics nilDereference), s)
          | some accessData, some refreshData =>
            if accessData.UserId ≠ refreshData.UserId then
              (.inl (fail .Unauthenticated ErrValidateJwt), s)
            else
              match a.repo.GetRefreshToken s { UserID := refreshData.UserId } with
              | ((_, some err), s) =>
                if err = .ErrNoRows then (.inl (fail .NotFound ErrTokenNotFound), s)
                else (.inl (fail .Internal ErrUnknown), s)
              | (([], none), s) => (.inl (fail .NotFound ErrTokenNotFound), s)
              | ((rtToken0 :: _, none), s) =>
                if rtToken0 ≠ req.RefreshToken then
                  (.inl (fail .Unauthenticated ErrValidateJwt), s)
                else (.inr refreshData.UserId, s)

/-- The second part of `Refresh`, lines 278 to 303: issue of the new pair and
overwrite of the stored token, for the identity that the first part has found. -/
def authServer.refreshRotate {σ : Type} (a : authServer σ) (now : time.Time)
    (UserId : uuid.UUID) (s : σ) : Reply RefreshResponse × σ :=
  match a.jwt.CreateToken now { UserId := UserId } with
  | .panics reason => (.panics reason, s)
  | .returns (_, some _) => (fail .Internal ErrUnknown, s)
  | .returns (none, none) => (.panics nilDereference, s)
  | .returns (some tokens, none) =>
    match a.repo.UpdateRefreshToken now s
      { Token := tokens.RefreshToken, UpdatedAt := some now, UserID := UserId } with
    | (some _, s) => (fail .Internal ErrUnknown, s)
    | (none, s) =>
      (.returns (some { AccessToken := tokens.AccessToken,
                        RefreshToken := tokens.RefreshToken }, none), s)

/-- The second part of a call, run after its first part gave `checked`. -/
def authServer.refreshFinish {σ : Type} (a : authServer σ) (now : time.Time)
    (checked : Reply RefreshResponse ⊕ uuid.UUID) (s : σ) : Reply RefreshResponse × σ :=
  match checked with
  | .inl reply => (reply, s)
  | .inr UserId => a.refreshRotate now UserId s

/-- Two calls of `Refresh` handled at the same time, in the interleaving in which
both calls run their first part before either runs its second part; the first call
overwrites first. The replies of the two calls and the store afterwards. -/
def authServer.RefreshInterleaved {σ : Type} (a : authServer σ) (now1 : time.Time)
    (req1 : RefreshRequest) (now2 : time.Time) (req2 : RefreshRequest) (s : σ) :
    (Reply RefreshResponse × Reply RefreshResponse) × σ :=
  let checked1 := a.refreshCheck now1 req1 s
  let checked2 := a.refreshCheck now2 req2 checked1.2
  let finished1 := a.refreshFinish now1 checked1.1 checked2.2
  let finished2 := a.refreshFinish now2 checked2.1 finished1.2
  ((finished1.1, finished2.1), finished2.2)

end service

/-! ## Example data -/

namespace examples

open service jwtgo

/-- The identity 123e4567-e89b-12d3-a456-426614174000. -/
def aliceID : uuid.UUID :=
  ⟨[0x12, 0x3e, 0x45, 0x67, 0xe8, 0x9b, 0x12, 0xd3, 0xa4, 0x56, 0x42, 0x66, 0x14, 0x17, 0x40, 0x00],
    rfl⟩

/-- The identity 00000000-0000-0000-0000-000000000b0b. -/
def bobID : uuid.UUID :=
  ⟨[0, 0, 0, 0, 0, 0, 0, 0, 0, 0, 0, 0, 0, 0, 0x0b, 0x0b], rfl⟩

def alice : repo.User :=
  { ID := aliceID, Username := "alice", HashedPassword := "hash:Abcd123!", Email := "a@x.com",
    CreatedAt := 0, UpdatedAt := 0 }

/-- A client with a matching key pair, access lifetime 15 minutes and refresh
lifetime 60 minutes (the defaults of the configuration). -/
def client : jwt.jwtClient :=
  jwt.NewJWTClient { id := 1, size := 256 } { id := 1 } (15 * time.Minute) (60 * time.Minute)

/-- The server built from the SQL repository and `client`; request validation
passes, and a password hash is the password after the text `hash:`. -/
def server : authServer repo.Database :=
  NewAuthServer {} client (fun _ => none) (fun _ => none) (fun _ => none)
    (fun _ => (true, none)) (fun p => ("hash:" ++ p, none))
    (fun h p => if h = "hash:" ++ p then none else some "mismatch")

/-- A reachable database with the user alice and no session record, whose table
`auth_tokens` has no uniqueness constraint on `user_id`. -/
def db0 : repo.Database :=
  { schema := { users_username_unique := true, auth_tokens_user_id_unique := false,
                auth_tokens_user_id_references_users := true },
    users := [alice], auth_tokens := [], auth_tokens_id_seq := 1, users_id_default := [],
    reachable := true }

/-- The instant 1700000000 seconds after the epoch. -/
def t0 : time.Time := 1700000000 * time.Second

def loginReq : LoginRequest := { Username := "alice", Password := "Abcd123!" }

/-- The token that `client` signs for alice with expiry second `exp`. -/
def tokenFor (exp : Int) : TokenString :=
  .compact .RS256 [("exp", .number exp), ("userId", .string "123e4567-e89b-12d3-a456-426614174000")]
    (.signed 1)

/-- The access token issued for alice at `t0`. -/
def access0 : TokenString := tokenFor 1700000900

/-- The refresh token issued for alice at `t0`. -/
def refresh0 : TokenString := tokenFor 1700003600

/-- The session record that Login writes at instant `now` with refresh token `rt`. -/
def sessionRow (id : Int) (now : time.Time) (acc rt : TokenString) : repo.AuthToken :=
  { id := id, user_id := aliceID, access_token := some acc, refresh_token := rt,
    created_at := now, updated_at := now, access_expires_at := some (now + time.Hour),
    refresh_expires_at := some (now + 30 * 24 * time.Hour) }

/-- The database after alice logged in at `t0`. -/
def db1 : repo.Database :=
  { db0 with auth_tokens := [sessionRow 1 t0 access0 refresh0], auth_tokens_id_seq := 2 }

/-- The database after alice's session was rotated one second after `t0`. -/
def db1Rotated : repo.Database :=
  { db1 with auth_tokens :=
      [{ sessionRow 1 t0 access0 refresh0 with
          refresh_token := tokenFor 1700003601, updated_at := t0 + time.Second }] }

/-- The database after alice logged in at `t0` and again five seconds later. -/
def db1Twice : repo.Database :=
  { db0 with
    auth_tokens := [sessionRow 1 t0 access0 refresh0,
      sessionRow 2 (t0 + 5 * time.Second) (tokenFor 1700000905) (tokenFor 1700003605)],
    auth_tokens_id_seq := 3 }

/-- The database after that session was revoked. -/
def db2 : repo.Database := { db0 with auth_tokens_id_seq := 2 }

/-- An access token that `client` signs for bob. -/
def bobAccess : TokenString :=
  .compact .RS256 [("exp", .number 1700000900), ("userId", .string "00000000-0000-0000-0000-000000000b0b")]
    (.signed 1)

/-- A client like `client` with an access lifetime of half a second. -/
def shortClient : jwt.jwtClient :=
  jwt.NewJWTClient { id := 1, size := 256 } { id := 1 } 500000000 (60 * time.Minute)

/-- A token that the holder of the private key of `client` signs for alice with a
`nbf` claim in the year 2027. -/
def notYetValid : TokenString :=
  .compact .RS256
    [("exp", .number 1900000000), ("nbf", .number 1800000000),
     ("userId", .string "123e4567-e89b-12d3-a456-426614174000")]
    (.signed 1)

/-- The SQL repository on a connection that breaks while the UPDATE is under way:
the server executes the statement and the pool reports an error. -/
def lostReplyRepository : repo.Repository repo.Database :=
  { (repo.repository.mk).asRepository with
    UpdateRefreshToken := fun now db params =>
      (some repo.poolError, ((repo.repository.mk).UpdateRefreshToken now db params).2) }

/-- The server `server` on that connection. -/
def lostReplyServer : authServer repo.Database := { server with repo := lostReplyRepository }

/-- A client whose private key has a modulus of 32 bytes, too short to sign. -/
def weakClient : jwt.jwtClient :=
  jwt.NewJWTClient { id := 1, size := 32 } { id := 1 } (15 * time.Minute) (60 * time.Minute)

/-- The server `server` with the client `weakClient`. -/
def weakKeyServer : authServer repo.Database := { server with jwt := weakClient.asJWTClient }

/-- A set of allowed symbols for the password policy. -/
def symbols : List Char := ['!', '@', '#', '$', '%', '^', '&', '*']

/-- A text for the reason `PasswordValidateErr`. -/
def PasswordValidateErr : String := "password does not satisfy the policy"

/-- The server `server` with the password policy in force. -/
def policyServer : authServer repo.Database :=
  { server with IsValidPassword := secure.IsValidPassword symbols PasswordValidateErr }

/-- The structure `TestStruct` of the validator test. -/
structure TestStruct where
  RequiredField : String
  TagField : String
  MaxField : String
  MinField : String
  LtField : Int
  GteField : Int
deriving DecidableEq

/-- The violations the library reports for one field rule. -/
def violation (ok : Bool) (tag field : String) : List validator.FieldError :=
  if ok then [] else [{ Tag := tag, Namespace := "TestStruct." ++ field }]

/-- The method `StructCtx` on a `TestStruct`, by the tags of its fields: required,
tag, max=5, min=3, lt=10, gte=5; the violations come in the order of the fields. -/
def testStructCtx (v : TestStruct) : Option validator.Error :=
  let vErrors :=
    violation (v.RequiredField != "") "required" "RequiredField"
    ++ violation (validator.validateTag v.TagField) "tag" "TagField"
    ++ violation (decide (v.MaxField.length ≤ 5)) "max" "MaxField"
    ++ violation (decide (3 ≤ v.MinField.length)) "min" "MinField"
    ++ violation (decide (v.LtField < 10)) "lt" "LtField"
    ++ violation (decide (5 ≤ v.GteField)) "gte" "GteField"
  if vErrors.isEmpty then none else some (.ValidationErrors vErrors)

/-- The valid structure of the validator test. -/
def validStruct : TestStruct :=
  { RequiredField := "value", TagField := "#tag", MaxField := "value", MinField := "val",
    LtField := 5, GteField := 5 }

/-- The token that `CreateTokenId` builds for alice with the private key of `client`:
correctly signed, with the claim `userId` and no claim `exp`. -/
def idToken : TokenString :=
  .compact .RS256 [("userId", .string "123e4567-e89b-12d3-a456-426614174000")] (.signed 1)

/-- A token signed with the private key of `client` whose claim `exp` is a text. -/
def textExpToken : TokenString :=
  .compact .RS256 [("exp", .string "1700000900"),
    ("userId", .string "123e4567-e89b-12d3-a456-426614174000")] (.signed 1)

/-- The method `StructCtx` on a `RegisterRequest` with a required `Username`. -/
def registerStructCtx (req : RegisterRequest) : Option validator.Error :=
  if req.Username = "" then
    some (.ValidationErrors [{ Tag := "required", Namespace := "RegisterRequest.Username" }])
  else none

/-- The method `StructCtx` on a `LoginRequest` with a required `Username`. -/
def loginStructCtx (req : LoginRequest) : Option validator.Error :=
  if req.Username = "" then
    some (.ValidationErrors [{ Tag := "required", Namespace := "LoginRequest.Username" }])
  else none

/-- The server `server` with the validation of `Register` and `Login` requests in
force. -/
def validatingServer : authServer repo.Database :=
  { server with validateRegister := validator.Validate registerStructCtx,
                validateLogin := validator.Validate loginStructCtx }

/-- A repository that differs from the SQL repository in the order of the fetched
tokens only: the newest row comes first. -/
def newestFirst : repo.Repository repo.Database :=
  { CreateUser := repo.repository.CreateUser {},
    GetUserByUsername := repo.repository.GetUserByUsername {},
    GetPassword := repo.repository.GetPassword {},
    NewRefreshToken := repo.repository.NewRefreshToken {},
    DeleteRefreshToken := repo.repository.DeleteRefreshToken {},
    GetRefreshToken := fun db params =>
      (((repo.repository.GetRefreshToken {} db params).1.1.reverse,
        (repo.repository.GetRefreshToken {} db params).1.2), db),
    UpdateRefreshToken := repo.repository.UpdateRefreshToken {},
    NewAuthToken := repo.repository.NewAuthToken {} }

/-- The server `server` on the repository `newestFirst`. -/
def newestFirstServer : authServer repo.Database := { server with repo := newestFirst }

end examples

/-! ## Lemmas on the collaborators -/

namespace uuid

theorem xvalue_hexdigit (n : Nat) (h : n < 16) : xvalue (hexdigit n) = some n := by
  interval_cases n <;> decide

theorem xtob_hexdigit (b : Fin 256) :
    xtob (hexdigit (b.val / 16)) (hexdigit (b.val % 16)) = some b := by
  have h1 : b.val / 16 < 16 := by omega
  have h2 : b.val % 16 < 16 := by omega
  simp only [xtob, xvalue_hexdigit _ h1, xvalue_hexdigit _ h2]
  congr 1
  apply Fin.ext
  simp [Fin.ofNat]
  omega

theorem decodeHex_encodeHex (bs : List (Fin 256)) : decodeHex (encodeHex bs) = some bs := by
  induction bs with
  | nil => rfl
  | cons b rest ih => simp [encodeHex, decodeHex, xtob_hexdigit, ih]

theorem hexdigit_ascii (n : Nat) : (hexdigit n).toNat < 128 := by
  unfold hexdigit
  split <;> decide

/-- Parsing the text of an identifier gives the identifier back. -/
theorem Parse_String (u : UUID) : Parse u.String = some u := by
  obtain ⟨bs, hbs⟩ := u
  match bs, hbs with
  | [b0, b1, b2, b3, b4, b5, b6, b7, b8, b9, b10, b11, b12, b13, b14, b15], _ =>
    simp [Parse, UUID.String, parseDashed, encodeHex, decodeHex, xtob_hexdigit, ofBytes,
      hexdigit_ascii]

end uuid

/-! ## Theorems on the token client -/

namespace jwt

open jwtgo examples

theorem index_exp (t : time.Time) (p : CreateTokenParams) (L : time.Duration) :
    MapClaims.index (newTokenClaims t p L) "exp" = some (.number (time.Unix (time.Add t L))) := by
  simp [newTokenClaims, MapClaims.index]

theorem index_userId (t : time.Time) (p : CreateTokenParams) (L : time.Duration) :
    MapClaims.index (newTokenClaims t p L) "userId" = some (.string p.UserId.String) := by
  simp [newTokenClaims, MapClaims.index]

theorem index_iat (t : time.Time) (p : CreateTokenParams) (L : time.Duration) :
    MapClaims.index (newTokenClaims t p L) "iat" = none := by
  simp [newTokenClaims, MapClaims.index]

theorem index_nbf (t : time.Time) (p : CreateTokenParams) (L : time.Duration) :
    MapClaims.index (newTokenClaims t p L) "nbf" = none := by
  simp [newTokenClaims, MapClaims.index]

/-- With a key long enough to sign, `newToken` returns the RS256 token of its claims. -/
theorem newToken_eq (c : jwtClient) (h : 62 ≤ c.privateKey.size) (t : time.Time)
    (p : CreateTokenParams) (L : time.Duration) :
    c.newToken t p L
      = (.compact .RS256 (newTokenClaims t p L) (.signed c.privateKey.id), none) := by
  have : ¬ c.privateKey.size < 62 := by omega
  simp [jwtClient.newToken, SignedString, signRS256, this]

/-- What `ValidateToken` returns, at any instant, for a token made by `newToken`. -/
theorem ValidateToken_newToken (c : jwtClient) (h : 62 ≤ c.privateKey.size)
    (hk : c.publicKey.id = c.privateKey.id) (t : time.Time)
    (p : CreateTokenParams) (L : time.Duration) (now : time.Time) :
    c.ValidateToken now { Token := (c.newToken t p L).1 } =
      if time.Unix now < time.Unix (time.Add t L) then .returns (true, none)
      else if time.Unix (time.Add t L) = 0 ∨ time.Unix now = time.Unix (time.Add t L) then
        .returns (false, none)
      else .returns (false, some "Token is expired") := by
  rw [newToken_eq c h]
  have hexp := index_exp t p L
  have hiat := index_iat t p L
  have hnbf := index_nbf t p L
  generalize time.Unix (time.Add t L) = e at hexp ⊢
  simp only [jwtClient.ValidateToken, Parse, MapClaims.Valid, MapClaims.VerifyExpiresAt,
    MapClaims.VerifyIssuedAt, MapClaims.VerifyNotBefore, hexp, hiat, hnbf,
    SigningMethod.Verify, hk, verifyExp]
  generalize time.Unix now = n
  by_cases h0 : e = 0
  · subst h0
    by_cases hn : n < 0
    · simp [ValidationError.valid, hn, hexp]
    · simp [ValidationError.valid, hn, hexp]
  · by_cases hn : n < e
    · have : n ≤ e := by omega
      simp [ValidationError.valid, hn, h0, this, hexp]
    · by_cases he : n = e
      · subst he
        simp [ValidationError.valid, h0, hexp]
      · have h1 : ¬ n ≤ e := by omega
        simp [ValidationError.valid, hn, h0, h1, he, ValidationError.Error,
          ValidationErrorExpired, hexp]

/-- C8 (as stated, refuted): `CreateToken` for alice at the instant `t0` returns the
pair `access0`, `refresh0` whenever it is called, and still the same pair when
called 999999999 nanoseconds later: the token strings of two calls at the same
instant are equal. -/
theorem CreateToken_same_instant_same_strings :
    client.CreateToken t0 ⟨aliceID⟩ = (some ⟨access0, refresh0⟩, none)
    ∧ client.CreateToken (t0 + 999999999) ⟨aliceID⟩ = (some ⟨access0, refresh0⟩, none) := by
  decide

/-- C8 (amended): for a client whose key can sign, two calls of `CreateToken` for the
same identity at the instants `t1` and `t2` return the same access token string
exactly when `t1` and `t2` plus the access lifetime fall into the same Unix second,
and the same refresh token string exactly when `t1` and `t2` plus the refresh
lifetime do; so two calls at the same instant return equal strings. -/
theorem CreateToken_strings_differ_iff (c : jwtClient) (h : 62 ≤ c.privateKey.size)
    (p : CreateTokenParams) (t1 t2 : time.Time) :
    ∃ r1 r2, c.CreateToken t1 p = (some r1, none) ∧ c.CreateToken t2 p = (some r2, none)
      ∧ (r1.AccessToken = r2.AccessToken ↔
          time.Unix (time.Add t1 c.accessTokenTime) = time.Unix (time.Add t2 c.accessTokenTime))
      ∧ (r1.RefreshToken = r2.RefreshToken ↔
          time.Unix (time.Add t1 c.refreshTokenTime)
            = time.Unix (time.Add t2 c.refreshTokenTime))
      ∧ (t1 = t2 → r1 = r2) := by
  refine ⟨⟨(c.newToken t1 p c.accessTokenTime).1, (c.newToken t1 p c.refreshTokenTime).1⟩,
    ⟨(c.newToken t2 p c.accessTokenTime).1, (c.newToken t2 p c.refreshTokenTime).1⟩,
    ?_, ?_, ?_, ?_, ?_⟩
  · simp [jwtClient.CreateToken, newToken_eq c h]
  · simp [jwtClient.CreateToken, newToken_eq c h]
  · simp [newToken_eq c h, newTokenClaims]
  · simp [newToken_eq c h, newTokenClaims]
  · rintro rfl
    rfl

/-- Witness of C8: two calls for alice one second apart. -/
theorem CreateToken_strings_differ_iff_witness :
    62 ≤ client.privateKey.size
    ∧ ∃ r1 r2, client.CreateToken t0 ⟨aliceID⟩ = (some r1, none)
      ∧ client.CreateToken (t0 + time.Second) ⟨aliceID⟩ = (some r2, none)
      ∧ (r1.AccessToken = r2.AccessToken ↔
          time.Unix (time.Add t0 client.accessTokenTime)
            = time.Unix (time.Add (t0 + time.Second) client.accessTokenTime))
      ∧ (r1.RefreshToken = r2.RefreshToken ↔
          time.Unix (time.Add t0 client.refreshTokenTime)
            = time.Unix (time.Add (t0 + time.Second) client.refreshTokenTime))
      ∧ (t0 = t0 + time.Second → r1 = r2) :=
  ⟨by decide, CreateToken_strings_differ_iff client (by decide) ⟨aliceID⟩ t0 (t0 + time.Second)⟩

/-- C9 (as stated, refuted): a token made at `t0` with a lifetime of 1.5 seconds is
rejected 1.2 seconds after `t0`, an instant before `t0` plus the lifetime. -/
theorem ValidateToken_false_before_expiry_instant :
    t0 + 1200000000 < time.Add t0 1500000000
    ∧ client.ValidateToken (t0 + 1200000000) ⟨(client.newToken t0 ⟨aliceID⟩ 1500000000).1⟩
        = .returns (false, none) := by
  decide

/-- C9 (amended): for a client with a matching key pair that can sign, a token made
by `newToken` at the instant `t` with lifetime `L` makes `ValidateToken` return
`true` exactly at the instants whose Unix second is before the Unix second of
`t + L`, hence at every instant at least one second before `t + L`, and `false` at
every instant from `t + L` on. -/
theorem ValidateToken_newToken_window (c : jwtClient) (h : 62 ≤ c.privateKey.size)
    (hk : c.publicKey.id = c.privateKey.id) (t : time.Time) (p : CreateTokenParams)
    (L : time.Duration) (now : time.Time) :
    (∃ check err, c.ValidateToken now ⟨(c.newToken t p L).1⟩ = .returns (check, err)
      ∧ (check = true ↔ time.Unix now < time.Unix (time.Add t L))
      ∧ (check = true → err = none))
    ∧ (time.Add now time.Second ≤ time.Add t L →
        c.ValidateToken now ⟨(c.newToken t p L).1⟩ = .returns (true, none))
    ∧ (time.Add t L ≤ now →
        ∃ err, c.ValidateToken now ⟨(c.newToken t p L).1⟩ = .returns (false, err)) := by
  have hv := ValidateToken_newToken c h hk t p L now
  refine ⟨?_, ?_, ?_⟩
  · by_cases h1 : time.Unix now < time.Unix (time.Add t L)
    · exact ⟨true, none, by simp [hv, h1], by simp [h1], fun _ => rfl⟩
    · by_cases h2 : time.Unix (time.Add t L) = 0 ∨ time.Unix now = time.Unix (time.Add t L)
      · exact ⟨false, none, by simp [hv, h1, h2], by simp [h1], by simp⟩
      · exact ⟨false, some "Token is expired", by simp [hv, h1, h2], by simp [h1], by simp⟩
  · intro hle
    have hle' : @LE.le Int _ (now + 1000000000) (t + L) := hle
    have h1 : time.Unix now < time.Unix (time.Add t L) := by
      simp only [time.Unix, time.Add]
      omega
    simp [hv, h1]
  · intro hle
    have hle' : @LE.le Int _ (t + L) now := hle
    have h1 : ¬ time.Unix now < time.Unix (time.Add t L) := by
      simp only [time.Unix, time.Add]
      omega
    by_cases h2 : time.Unix (time.Add t L) = 0 ∨ time.Unix now = time.Unix (time.Add t L)
    · exact ⟨none, by simp [hv, h1, h2]⟩
    · exact ⟨some "Token is expired", by simp [hv, h1, h2]⟩

/-- Witness of C9: an access token of fifteen minutes, checked 899 seconds after it
was made. -/
theorem ValidateToken_newToken_window_witness :
    62 ≤ client.privateKey.size ∧ client.publicKey.id = client.privateKey.id
    ∧ client.ValidateToken (t0 + 899 * time.Second) ⟨(client.newToken t0 ⟨aliceID⟩
        (15 * time.Minute)).1⟩ = .returns (true, none) :=
  ⟨by decide, by decide,
    (ValidateToken_newToken_window client (by decide) (by decide) t0 ⟨aliceID⟩
      (15 * time.Minute) (t0 + 899 * time.Second)).2.1 (by decide)⟩

/-- C10 (code defect): alice's access token, correctly signed and with expiry second
1700000900, is presented in that very second; its `exp` is not strictly greater
than the current Unix time, and `ValidateToken` returns `false` together with a
nil error. -/
theorem ValidateToken_false_with_nil_error :
    ¬ (1700000900 : Int) > time.Unix (1700000900 * time.Second)
    ∧ client.ValidateToken (1700000900 * time.Second) ⟨access0⟩ = .returns (false, none) := by
  decide

/-! ### Further facts on the client -/

/-- Parsing a three-segment token always gives a token value carrying its claims. -/
theorem Parse_compact (alg : SigningMethod) (claims : MapClaims) (sig : Signature)
    (key : rsa.PublicKey) (now : time.Time) :
    ∃ valid err, Parse (.compact alg claims sig) key now = (some ⟨claims, valid⟩, err) := by
  simp only [Parse]
  split
  · exact ⟨_, _, rfl⟩
  · exact ⟨_, _, rfl⟩

/-- The client's `GetDataFromToken` never panics: it returns claims and no error, or
an error and no claims. -/
theorem GetDataFromToken_returns (c : jwtClient) (now : time.Time) (tok : TokenString) :
    (∃ d, c.GetDataFromToken now ⟨tok⟩ = .returns (some d, none))
    ∨ (∃ e, c.GetDataFromToken now ⟨tok⟩ = .returns (none, some e)) := by
  cases tok with
  | malformed raw =>
    right
    simp [jwtClient.GetDataFromToken, Parse, ValidationError.Error]
  | compact alg claims sig =>
    obtain ⟨valid, err, hP⟩ := Parse_compact alg claims sig c.publicKey now
    simp only [jwtClient.GetDataFromToken, hP]
    have hrest : (∃ d, (match claims.index "userId" with
        | some (.string userIdStr) =>
          match uuid.Parse userIdStr with
          | none => (Outcome.returns (none, some "invalid userId format in token") :
              Outcome (Option GetDataFromTokenResponse × Option String))
          | some userId => .returns (some { UserId := userId }, none)
        | _ => .returns (none, some "invalid token claims")) = .returns (some d, none))
        ∨ (∃ e, (match claims.index "userId" with
        | some (.string userIdStr) =>
          match uuid.Parse userIdStr with
          | none => (Outcome.returns (none, some "invalid userId format in token") :
              Outcome (Option GetDataFromTokenResponse × Option String))
          | some userId => .returns (some { UserId := userId }, none)
        | _ => .returns (none, some "invalid token claims")) = .returns (none, some e)) := by
      split
      · split
        · exact Or.inr ⟨_, rfl⟩
        · exact Or.inl ⟨_, rfl⟩
      · exact Or.inr ⟨_, rfl⟩
    cases err with
    | none => exact hrest
    | some e =>
      by_cases he : e.Error ≠ "Token is expired"
      · simp [he]
      · simp only [he, if_false]
        exact hrest

/-- The identity that `GetDataFromToken` reads from a token does not depend on the
instant: at another instant the call returns the same identity or an error. -/
theorem GetDataFromToken_later (c : jwtClient) (now now' : time.Time) (tok : TokenString)
    (d : GetDataFromTokenResponse)
    (h : c.GetDataFromToken now ⟨tok⟩ = .returns (some d, none)) :
    c.GetDataFromToken now' ⟨tok⟩ = .returns (some d, none)
    ∨ ∃ e, c.GetDataFromToken now' ⟨tok⟩ = .returns (none, some e) := by
  cases tok with
  | malformed raw => simp [jwtClient.GetDataFromToken, Parse, ValidationError.Error] at h
  | compact alg claims sig =>
    obtain ⟨valid, err, hP⟩ := Parse_compact alg claims sig c.publicKey now
    obtain ⟨valid', err', hP'⟩ := Parse_compact alg claims sig c.publicKey now'
    simp only [jwtClient.GetDataFromToken, hP] at h
    simp only [jwtClient.GetDataFromToken, hP']
    generalize (match claims.index "userId" with
        | some (.string userIdStr) =>
          match uuid.Parse userIdStr with
          | none => (Outcome.returns (none, some "invalid userId format in token") :
              Outcome (Option GetDataFromTokenResponse × Option String))
          | some userId => .returns (some { UserId := userId }, none)
        | _ => .returns (none, some "invalid token claims")) = rest at h ⊢
    have hrest : rest = .returns (some d, none) := by
      cases err with
      | none => exact h
      | some e =>
        by_cases he : e.Error ≠ "Token is expired"
        · simp [he] at h
        · simpa [he] using h
    cases err' with
    | none => exact Or.inl hrest
    | some e =>
      by_cases he : e.Error ≠ "Token is expired"
      · simp [he]
      · simp only [he, if_false]
        exact Or.inl hrest

/-- A token that the client's `ValidateToken` accepts at one instant makes it return,
not panic, at every instant. -/
theorem ValidateToken_later (c : jwtClient) (now now' : time.Time) (tok : TokenString)
    (h : c.ValidateToken now ⟨tok⟩ = .returns (true, none)) :
    ∃ check err, c.ValidateToken now' ⟨tok⟩ = .returns (check, err) := by
  cases tok with
  | malformed raw => simp [jwtClient.ValidateToken, Parse] at h
  | compact alg claims sig =>
    obtain ⟨valid, err, hP⟩ := Parse_compact alg claims sig c.publicKey now
    obtain ⟨valid', err', hP'⟩ := Parse_compact alg claims sig c.publicKey now'
    simp only [jwtClient.ValidateToken, hP] at h
    simp only [jwtClient.ValidateToken, hP']
    cases err' with
    | some e => exact ⟨_, _, rfl⟩
    | none =>
      cases valid' with
      | false => exact ⟨_, _, rfl⟩
      | true =>
        cases err with
        | some e => simp at h
        | none =>
          cases valid with
          | false => simp at h
          | true =>
            simp only [if_true] at h ⊢
            split at h
            · split <;> exact ⟨_, _, rfl⟩
            · simp at h

/-- For a client with a matching key pair that can sign, `GetDataFromToken` reads the
identity back from a token made by `newToken`, whether or not the token has
expired. -/
theorem GetDataFromToken_newToken (c : jwtClient) (h : 62 ≤ c.privateKey.size)
    (hk : c.publicKey.id = c.privateKey.id) (t : time.Time) (p : CreateTokenParams)
    (L : time.Duration) (now : time.Time) :
    c.GetDataFromToken now ⟨(c.newToken t p L).1⟩ = .returns (some ⟨p.UserId⟩, none) := by
  rw [newToken_eq c h]
  have hexp := index_exp t p L
  have hiat := index_iat t p L
  have hnbf := index_nbf t p L
  have huid := index_userId t p L
  generalize time.Unix (time.Add t L) = e at hexp
  simp only [jwtClient.GetDataFromToken, Parse, MapClaims.Valid, MapClaims.VerifyExpiresAt,
    MapClaims.VerifyIssuedAt, MapClaims.VerifyNotBefore, hexp, hiat, hnbf, huid,
    SigningMethod.Verify, hk, verifyExp, uuid.Parse_String]
  generalize time.Unix now = n
  by_cases h0 : e = 0
  · simp [h0, ValidationError.valid, huid, uuid.Parse_String]
  · by_cases hn : n ≤ e
    · simp [h0, hn, ValidationError.valid, huid, uuid.Parse_String]
    · simp [h0, hn, ValidationError.valid, ValidationError.Error, ValidationErrorExpired, huid,
        uuid.Parse_String]

/-- With a key long enough to sign, `CreateToken` returns the two tokens of `newToken`. -/
theorem CreateToken_eq (c : jwtClient) (h : 62 ≤ c.privateKey.size) (now : time.Time)
    (p : CreateTokenParams) :
    c.CreateToken now p
      = (some ⟨(c.newToken now p c.accessTokenTime).1, (c.newToken now p c.refreshTokenTime).1⟩,
          none) := by
  simp [jwtClient.CreateToken, newToken_eq c h]

/-- When `CreateToken` returns a pair, the key is long enough to sign. -/
theorem CreateToken_some (c : jwtClient) (now : time.Time) (p : CreateTokenParams)
    (r : CreateTokenResponse) (e : Option String) (h : c.CreateToken now p = (some r, e)) :
    62 ≤ c.privateKey.size := by
  by_contra hlt
  have hlt' : c.privateKey.size < 62 := by omega
  simp [jwtClient.CreateToken, jwtClient.newToken, SignedString, signRS256, hlt'] at h

theorem lor_signature_invalid_ne_zero (x : Nat) : x ||| ValidationErrorSignatureInvalid ≠ 0 := by
  intro h
  have h2 := congrArg (fun n => n.testBit 2) h
  simp only [ValidationErrorSignatureInvalid, Nat.testBit_or, Nat.zero_testBit,
    Bool.or_eq_false_iff] at h2
  exact absurd h2.2 (by decide)

/-- A token whose signature does not verify under the client's public key, and a
malformed string, make `ValidateToken` return `false` together with an error. -/
theorem ValidateToken_unverified (c : jwtClient) (now : time.Time) (tok : TokenString)
    (h : ∀ alg claims sig, tok = .compact alg claims sig → alg.Verify sig c.publicKey ≠ none) :
    ∃ e, c.ValidateToken now ⟨tok⟩ = .returns (false, some e) := by
  cases tok with
  | malformed raw => exact ⟨_, rfl⟩
  | compact alg claims sig =>
    have hver := h alg claims sig rfl
    cases hv : alg.Verify sig c.publicKey with
    | none => exact absurd hv hver
    | some err =>
      simp only [jwtClient.ValidateToken, Parse, hv, ValidationError.valid]
      have hne := lor_signature_invalid_ne_zero
        (match claims.Valid (time.Unix now) with
          | some e => e
          | none => ⟨none, 0, ""⟩).Errors
      simp [hne]

/-- When `ValidateToken` returns `true`, the error is nil, the signature verifies and
`exp` is a number strictly greater than the current Unix time. -/
theorem ValidateToken_true (c : jwtClient) (now : time.Time) (tok : TokenString)
    (e : Option String) (h : c.ValidateToken now ⟨tok⟩ = .returns (true, e)) :
    e = none ∧ ∃ alg claims sig exp, tok = .compact alg claims sig
      ∧ alg.Verify sig c.publicKey = none
      ∧ claims.index "exp" = some (.number exp) ∧ exp > time.Unix now := by
  cases tok with
  | malformed raw => simp [jwtClient.ValidateToken, Parse] at h
  | compact alg claims sig =>
    cases hv : alg.Verify sig c.publicKey with
    | some err =>
      obtain ⟨e', he'⟩ := ValidateToken_unverified c now (.compact alg claims sig)
        (fun alg' claims' sig' heq => by
          cases heq
          simp [hv])
      rw [he'] at h
      simp at h
    | none =>
      obtain ⟨valid, err, hP⟩ := Parse_compact alg claims sig c.publicKey now
      simp only [jwtClient.ValidateToken, hP] at h
      cases err with
      | some x => simp at h
      | none =>
        cases valid with
        | false => simp at h
        | true =>
          simp only [if_true] at h
          split at h
          · rename_i exp hexp
            split at h
            · rename_i hgt
              simp only [Outcome.returns.injEq, Prod.mk.injEq, true_and] at h
              exact ⟨h.symm, alg, claims, sig, exp, rfl, hv, hexp, hgt⟩
            · simp at h
          · simp at h

end jwt

/-! ### Claim extraction and the round trip -/

namespace jwt

open jwtgo examples

theorem Verify_error_ne_expired (alg : SigningMethod) (sig : Signature) (key : rsa.PublicKey)
    (err : String) (h : alg.Verify sig key = some err) : err ≠ "Token is expired" := by
  cases alg <;> simp only [SigningMethod.Verify] at h <;>
    first
    | (split at h
       · simp at h
       · simp only [Option.some.injEq] at h
         subst h
         decide)
    | (simp only [Option.some.injEq] at h
       subst h
       decide)

/-- What the library reports for a three-segment token whose signature does not verify:
the error of the verification, and no valid token. -/
theorem Parse_unverified (alg : SigningMethod) (claims : MapClaims) (sig : Signature)
    (key : rsa.PublicKey) (now : time.Time) (err : String) (h : alg.Verify sig key = some err) :
    ∃ e, Parse (.compact alg claims sig) key now = (some ⟨claims, false⟩, some e)
      ∧ e.Error = err := by
  simp only [Parse, h, ValidationError.valid]
  have hne := lor_signature_invalid_ne_zero
    (match claims.Valid (time.Unix now) with
      | some e => e
      | none => ⟨none, 0, ""⟩).Errors
  simp [hne, ValidationError.Error]

/-- What the library reports for a three-segment token whose signature verifies and
whose `iat` and `nbf` claims pass: no error, or the expiry error alone. -/
theorem Parse_verified (alg : SigningMethod) (claims : MapClaims) (sig : Signature)
    (key : rsa.PublicKey) (now : time.Time) (h : alg.Verify sig key = none)
    (hiat : claims.VerifyIssuedAt (time.Unix now) false = true)
    (hnbf : claims.VerifyNotBefore (time.Unix now) false = true) :
    Parse (.compact alg claims sig) key now = (some ⟨claims, true⟩, none)
    ∨ ∃ e, Parse (.compact alg claims sig) key now = (some ⟨claims, false⟩, some e)
        ∧ e.Error = "Token is expired" := by
  by_cases hexp : claims.VerifyExpiresAt (time.Unix now) false = true
  · left
    simp [Parse, MapClaims.Valid, h, hiat, hnbf, hexp, ValidationError.valid]
  · right
    simp [Parse, MapClaims.Valid, h, hiat, hnbf, hexp, ValidationError.valid,
      ValidationError.Error, ValidationErrorExpired]

/-- What the library reports for a three-segment token whose signature verifies and
whose `iat` or `nbf` claim lies after the current Unix second: no valid token, and an
error whose text is not the text of the expiry error. -/
theorem Parse_not_yet_valid (alg : SigningMethod) (claims : MapClaims) (sig : Signature)
    (key : rsa.PublicKey) (now : time.Time) (h : alg.Verify sig key = none)
    (hfuture : claims.VerifyIssuedAt (time.Unix now) false = false
      ∨ claims.VerifyNotBefore (time.Unix now) false = false) :
    ∃ e, Parse (.compact alg claims sig) key now = (some ⟨claims, false⟩, some e)
      ∧ e.Error ≠ "Token is expired" := by
  cases hexp : claims.VerifyExpiresAt (time.Unix now) false <;>
    cases hiat : claims.VerifyIssuedAt (time.Unix now) false <;>
    cases hnbf : claims.VerifyNotBefore (time.Unix now) false <;>
    first
    | (exfalso
       rcases hfuture with hf | hf
       · rw [hiat] at hf
         exact Bool.noConfusion hf
       · rw [hnbf] at hf
         exact Bool.noConfusion hf)
    | simp [Parse, MapClaims.Valid, h, hexp, hiat, hnbf, ValidationError.valid,
        ValidationError.Error, ValidationErrorExpired, ValidationErrorIssuedAtInvalid,
        ValidationErrorNotValidYet]

/-- C11 (as stated, refuted): the token `notYetValid` is correctly signed with the key
of `client` and carries alice's identifier as a string `userId` claim, and
`GetDataFromToken` returns an error and no claims for it, because its `nbf` claim
lies in the future. -/
theorem GetDataFromToken_rejects_signed_token :
    SigningMethod.Verify .RS256 (.signed 1) client.publicKey = none
    ∧ uuid.Parse "123e4567-e89b-12d3-a456-426614174000" = some aliceID
    ∧ client.GetDataFromToken t0 ⟨notYetValid⟩
        = .returns (none, some "Token is not valid yet") := by
  decide

/-- C11 (amended): for a token whose signature verifies under the client's public
key, whose `userId` claim is a string that parses as the identifier `I`, and whose
`iat` and `nbf` claims, if any, do not lie after the current Unix second,
`GetDataFromToken` returns `I`, also when the token has expired. For a malformed
string, a token whose signature does not verify, and a token whose `userId` claim is
missing, is not a string or does not parse as an identifier, it returns an error and
no claims. For every token whose signature verifies and whose `iat` or `nbf` claim
is a number other than zero that lies after the current Unix second, it returns an
error and no claims as well. -/
theorem GetDataFromToken_spec (c : jwtClient) (now : time.Time) :
    (∀ alg claims sig s I, alg.Verify sig c.publicKey = none →
        claims.index "userId" = some (.string s) → uuid.Parse s = some I →
        claims.VerifyIssuedAt (time.Unix now) false = true →
        claims.VerifyNotBefore (time.Unix now) false = true →
        c.GetDataFromToken now ⟨.compact alg claims sig⟩ = .returns (some ⟨I⟩, none))
    ∧ (∀ tok, ((∃ raw, tok = .malformed raw)
          ∨ ∃ alg claims sig, tok = .compact alg claims sig
            ∧ (alg.Verify sig c.publicKey ≠ none
              ∨ (∀ s, claims.index "userId" ≠ some (.string s))
              ∨ ∃ s, claims.index "userId" = some (.string s) ∧ uuid.Parse s = none)) →
        ∃ e, c.GetDataFromToken now ⟨tok⟩ = .returns (none, some e))
    ∧ (∀ alg claims sig n, alg.Verify sig c.publicKey = none →
        claims.index "iat" = some (.number n) ∨ claims.index "nbf" = some (.number n) →
        n ≠ 0 → time.Unix now < n →
        ∃ e, c.GetDataFromToken now ⟨.compact alg claims sig⟩ = .returns (none, some e)) := by
  refine ⟨?_, ?_, ?_⟩
  · intro alg claims sig s I hver huid hparse hiat hnbf
    rcases Parse_verified alg claims sig c.publicKey now hver hiat hnbf with hP | ⟨e, hP, he⟩
    · simp [jwtClient.GetDataFromToken, hP, huid, hparse]
    · simp [jwtClient.GetDataFromToken, hP, he, huid, hparse]
  · rintro tok (⟨raw, rfl⟩ | ⟨alg, claims, sig, rfl, hcase⟩)
    · exact ⟨"token contains an invalid number of segments",
        by simp [jwtClient.GetDataFromToken, Parse, ValidationError.Error]⟩
    · cases hver : alg.Verify sig c.publicKey with
      | some err =>
        obtain ⟨e, hP, he⟩ := Parse_unverified alg claims sig c.publicKey now err hver
        have hne := Verify_error_ne_expired alg sig c.publicKey err hver
        exact ⟨err, by simp [jwtClient.GetDataFromToken, hP, he, hne]⟩
      | none =>
        rcases GetDataFromToken_returns c now (.compact alg claims sig) with ⟨d, hd⟩ | ⟨e, he⟩
        swap
        · exact ⟨e, he⟩
        exfalso
        obtain ⟨valid, err, hP⟩ := Parse_compact alg claims sig c.publicKey now
        simp only [jwtClient.GetDataFromToken, hP] at hd
        rcases hcase with hbad | hmiss | ⟨s, hs, hparse⟩
        · exact hbad hver
        · cases hidx : claims.index "userId" with
          | none =>
            cases err with
            | none => simp [hidx] at hd
            | some e =>
              simp only [hidx] at hd
              split at hd <;> simp at hd
          | some v =>
            cases v with
            | string s => exact hmiss s hidx
            | _ =>
              cases err with
              | none => simp [hidx] at hd
              | some e =>
                simp only [hidx] at hd
                split at hd <;> simp at hd
        · cases err with
          | none => simp [hs, hparse] at hd
          | some e =>
            simp only [hs, hparse] at hd
            split at hd <;> simp at hd
  · intro alg claims sig n hver hclaim hn0 hlt
    have hfuture : claims.VerifyIssuedAt (time.Unix now) false = false
        ∨ claims.VerifyNotBefore (time.Unix now) false = false := by
      rcases hclaim with h | h
      · left
        simp [MapClaims.VerifyIssuedAt, h, verifyIat, hn0, hlt]
      · right
        simp [MapClaims.VerifyNotBefore, h, verifyNbf, hn0, hlt]
    obtain ⟨e, hP, he⟩ := Parse_not_yet_valid alg claims sig c.publicKey now hver hfuture
    exact ⟨e.Error, by simp [jwtClient.GetDataFromToken, hP, he]⟩

/-- Witness of C11: alice's access token, one hour after it expired. -/
theorem GetDataFromToken_spec_witness :
    SigningMethod.Verify .RS256 (.signed 1) client.publicKey = none
    ∧ client.GetDataFromToken (t0 + 2 * time.Hour) ⟨access0⟩ = .returns (some ⟨aliceID⟩, none) :=
  ⟨by decide,
    (GetDataFromToken_spec client (t0 + 2 * time.Hour)).1 .RS256 _ (.signed 1)
      "123e4567-e89b-12d3-a456-426614174000" aliceID (by decide) (by decide) (by decide)
      (by decide) (by decide)⟩

/-- C12 (as stated, refuted): with the positive access lifetime of half a second,
the access token that `CreateToken` issues at `t0` is rejected by `ValidateToken` at
`t0` itself, before the lifetime has elapsed. -/
theorem ValidateToken_rejects_fresh_token :
    0 < shortClient.accessTokenTime
    ∧ shortClient.CreateToken t0 ⟨aliceID⟩ = (some ⟨tokenFor 1700000000, refresh0⟩, none)
    ∧ t0 < time.Add t0 shortClient.accessTokenTime
    ∧ shortClient.ValidateToken t0 ⟨tokenFor 1700000000⟩ = .returns (false, none) := by
  decide

/-- C12 (amended): for a client with a matching key pair that can sign, every
identity and every access lifetime, `CreateToken` returns a pair of non-empty
tokens; `ValidateToken` accepts the access token with no error at every instant
whose Unix second is before the Unix second of issue plus lifetime, hence at every
instant at least one second before issue plus lifetime; and `GetDataFromToken` on
the access token returns exactly the identity, at every instant. -/
theorem CreateToken_round_trip (c : jwtClient) (hsize : 62 ≤ c.privateKey.size)
    (hk : c.publicKey.id = c.privateKey.id) (id : uuid.UUID) (t now : time.Time) :
    ∃ r, c.CreateToken t ⟨id⟩ = (some r, none)
      ∧ r.AccessToken ≠ .malformed "" ∧ r.RefreshToken ≠ .malformed ""
      ∧ (time.Unix now < time.Unix (time.Add t c.accessTokenTime) →
          c.ValidateToken now ⟨r.AccessToken⟩ = .returns (true, none))
      ∧ (time.Add now time.Second ≤ time.Add t c.accessTokenTime →
          c.ValidateToken now ⟨r.AccessToken⟩ = .returns (true, none))
      ∧ c.GetDataFromToken now ⟨r.AccessToken⟩ = .returns (some ⟨id⟩, none) := by
  have hv := ValidateToken_newToken c hsize hk t ⟨id⟩ c.accessTokenTime now
  refine ⟨_, CreateToken_eq c hsize t ⟨id⟩, ?_, ?_, ?_, ?_, ?_⟩
  · simp [newToken_eq c hsize]
  · simp [newToken_eq c hsize]
  · intro h
    simp [hv, h]
  · intro hle
    have hle' : @LE.le Int _ (now + 1000000000) (t + c.accessTokenTime) := hle
    have h : time.Unix now < time.Unix (time.Add t c.accessTokenTime) := by
      simp only [time.Unix, time.Add]
      omega
    simp [hv, h]
  · exact GetDataFromToken_newToken c hsize hk t ⟨id⟩ c.accessTokenTime now

/-- Witness of C12: the client of the examples, at the instant of issue. -/
theorem CreateToken_round_trip_witness :
    62 ≤ client.privateKey.size ∧ client.publicKey.id = client.privateKey.id
    ∧ time.Unix t0 < time.Unix (time.Add t0 client.accessTokenTime)
    ∧ ∃ r, client.CreateToken t0 ⟨aliceID⟩ = (some r, none)
      ∧ client.ValidateToken t0 ⟨r.AccessToken⟩ = .returns (true, none)
      ∧ client.GetDataFromToken t0 ⟨r.AccessToken⟩ = .returns (some ⟨aliceID⟩, none) :=
  ⟨by decide, by decide, by decide,
    match CreateToken_round_trip client (by decide) (by decide) aliceID t0 t0 with
    | ⟨r, h1, _, _, h2, _, h3⟩ => ⟨r, h1, h2 (by decide), h3⟩⟩

end jwt

/-! ### Tokens without a numeric expiry -/

namespace jwt

open jwtgo examples

/-- For a token whose signature verifies, whose `iat` and `nbf` claims pass and whose
`exp` claim is missing or not a number, the library reports a valid token, and
`ValidateToken` panics on the conversion of `exp`. -/
theorem ValidateToken_panics_without_numeric_exp (c : jwtClient) (now : time.Time)
    (alg : SigningMethod) (claims : MapClaims) (sig : Signature)
    (hver : alg.Verify sig c.publicKey = none)
    (hiat : claims.VerifyIssuedAt (time.Unix now) false = true)
    (hnbf : claims.VerifyNotBefore (time.Unix now) false = true)
    (hexp : ∀ e, claims.index "exp" ≠ some (.number e)) :
    c.ValidateToken now ⟨.compact alg claims sig⟩
      = .panics "interface conversion: interface is not float64" := by
  have hve : claims.VerifyExpiresAt (time.Unix now) false = true := by
    unfold MapClaims.VerifyExpiresAt
    split
    · rename_i e he
      exact absurd he (hexp e)
    · rfl
  have hP : Parse (.compact alg claims sig) c.publicKey now = (some ⟨claims, true⟩, none) := by
    simp [Parse, MapClaims.Valid, hver, hiat, hnbf, hve, ValidationError.valid]
  simp only [jwtClient.ValidateToken, hP]
  cases hidx : claims.index "exp" with
  | none => simp
  | some v =>
    cases v with
    | number e => exact absurd hidx (hexp e)
    | _ => simp

/-- C22 (code defect): the token that `CreateTokenId` builds for alice is correctly
signed and has no `exp` claim; `ValidateToken` panics on it, and so it does on a
signed token whose `exp` is a text, while `GetDataFromToken`, which tests its
conversion, returns alice for the same token. `Validate` and `Refresh` of the server
panic with it. -/
theorem ValidateToken_panics_on_token_without_exp :
    client.CreateTokenId (client.privateKey, none) ⟨aliceID⟩ = (idToken, none)
    ∧ SigningMethod.Verify .RS256 (.signed 1) client.publicKey = none
    ∧ client.ValidateToken t0 ⟨idToken⟩
        = .panics "interface conversion: interface is not float64"
    ∧ client.ValidateToken t0 ⟨textExpToken⟩
        = .panics "interface conversion: interface is not float64"
    ∧ client.GetDataFromToken t0 ⟨idToken⟩ = .returns (some ⟨aliceID⟩, none)
    ∧ service.authServer.Validate server t0 ⟨idToken⟩ db1
        = (.panics "interface conversion: interface is not float64", db1)
    ∧ service.authServer.Refresh server t0 ⟨access0, idToken⟩ db1
        = (.panics "interface conversion: interface is not float64", db1) := by
  decide

end jwt

/-! ## Lemmas on the SQL repository -/

namespace repo

open jwtgo

theorem GetRefreshToken_reachable (r : repository) (db : Database) (I : uuid.UUID)
    (h : db.reachable = true) :
    r.asRepository.GetRefreshToken db ⟨I⟩
      = (((db.sessions I).map (fun x => x.refresh_token), none), db) := by
  simp [repository.asRepository, repository.GetRefreshToken, getRefreshTokenQuery, h,
    Database.sessions]

theorem GetRefreshToken_unreachable (r : repository) (db : Database) (I : uuid.UUID)
    (h : db.reachable = false) :
    r.asRepository.GetRefreshToken db ⟨I⟩ = (([], some poolError), db) := by
  simp [repository.asRepository, repository.GetRefreshToken, getRefreshTokenQuery, h]

theorem UpdateRefreshToken_reachable (r : repository) (now : time.Time) (db : Database)
    (q : UpdateRefreshTokenParams) (h : db.reachable = true) :
    r.asRepository.UpdateRefreshToken now db q
      = (none, { db with auth_tokens := db.auth_tokens.map (fun x =>
          if x.user_id = q.UserID then { x with refresh_token := q.Token, updated_at := now }
          else x) }) := by
  simp [repository.asRepository, repository.UpdateRefreshToken, updateRefreshTokenQuery, h]

theorem UpdateRefreshToken_unreachable (r : repository) (now : time.Time) (db : Database)
    (q : UpdateRefreshTokenParams) (h : db.reachable = false) :
    r.asRepository.UpdateRefreshToken now db q = (some poolError, db) := by
  simp [repository.asRepository, repository.UpdateRefreshToken, updateRefreshTokenQuery, h]

/-- After the UPDATE every session record of the identity holds the new token, and
there are as many records as before. -/
theorem sessions_after_update (now : time.Time) (rows : List AuthToken) (I : uuid.UUID)
    (tok : TokenString) :
    ((rows.map (fun x =>
        if x.user_id = I then { x with refresh_token := tok, updated_at := now } else x)).filter
      (fun x => x.user_id = I)).map (fun x => x.refresh_token)
      = (rows.filter (fun x => x.user_id = I)).map (fun _ => tok) := by
  induction rows with
  | nil => rfl
  | cons x rest ih =>
    by_cases hx : x.user_id = I
    · simp only [List.map_cons, hx, if_true, List.filter_cons, decide_True, ih]
    · simpa only [List.map_cons, hx, if_false, List.filter_cons, decide_False,
        Bool.false_eq_true] using ih

/-- The UPDATE leaves the session records of every other identity as they were. -/
theorem sessions_after_update_other (now : time.Time) (rows : List AuthToken) (I J : uuid.UUID)
    (tok : TokenString) (hJ : J ≠ I) :
    (rows.map (fun x =>
        if x.user_id = I then { x with refresh_token := tok, updated_at := now } else x)).filter
      (fun x => x.user_id = J)
      = rows.filter (fun x => x.user_id = J) := by
  induction rows with
  | nil => rfl
  | cons x rest ih =>
    by_cases hx : x.user_id = I
    · have hIJ : ¬ I = J := fun h => hJ h.symm
      simp [hx, hIJ, ih, List.filter_cons]
    · simp [hx, ih, List.filter_cons]

/-- After the INSERT of a row of the identity, its session records are the former
ones and the new one. -/
theorem sessions_after_insert (rows : List AuthToken) (row : AuthToken) (I : uuid.UUID)
    (toks : List TokenString)
    (h : (rows.filter (fun x => x.user_id = I)).map (fun x => x.refresh_token) = toks)
    (hrow : row.user_id = I) :
    ((rows ++ [row]).filter (fun x => x.user_id = I)).map (fun x => x.refresh_token)
      = toks ++ [row.refresh_token] := by
  simp [List.filter_append, h, hrow]

theorem GetUserByUsername_some (r : repository) (db s1 : Database) (username : String)
    (user : User)
    (h : r.asRepository.GetUserByUsername db username = ((some user, none), s1)) :
    s1 = db ∧ db.reachable = true
    ∧ db.users.find? (fun u => u.Username = username) = some user := by
  simp only [repository.asRepository, repository.GetUserByUsername] at h
  split at h
  · simp at h
  · rename_i hreach
    split at h
    · simp at h
    · rename_i u hu
      simp only [Prod.mk.injEq, Option.some.injEq, and_true] at h
      obtain ⟨rfl, rfl⟩ := h
      exact ⟨rfl, by simpa using hreach, hu⟩

theorem GetUserByUsername_reachable (r : repository) (db : Database) (username : String)
    (user : User) (hreach : db.reachable = true)
    (hu : db.users.find? (fun u => u.Username = username) = some user) :
    r.asRepository.GetUserByUsername db username = ((some user, none), db) := by
  simp [repository.asRepository, repository.GetUserByUsername, hreach, hu]

/-- The row that `NewAuthToken` inserts. -/
theorem NewAuthToken_reachable (r : repository) (now : time.Time) (db : Database)
    (params : NewAuthTokenParams) (hreach : db.reachable = true) :
    r.asRepository.NewAuthToken now db params
      = if db.schema.auth_tokens_user_id_unique
            ∧ db.auth_tokens.any (fun x => x.user_id = params.UserID) then
          (some (.PgError UniqueViolation),
            { db with auth_tokens_id_seq := db.auth_tokens_id_seq + 1 })
        else if db.schema.auth_tokens_user_id_references_users
            ∧ ¬ db.users.any (fun u => u.ID = params.UserID) then
          (some (.PgError ForeignKeyViolation),
            { db with auth_tokens_id_seq := db.auth_tokens_id_seq + 1 })
        else
          (none, { db with
            auth_tokens_id_seq := db.auth_tokens_id_seq + 1,
            auth_tokens := db.auth_tokens ++
              [{ id := db.auth_tokens_id_seq, user_id := params.UserID,
                 access_token := some params.Tokens.AccessToken,
                 refresh_token := params.Tokens.RefreshToken, created_at := now,
                 updated_at := now, access_expires_at := some (time.Add now time.Hour),
                 refresh_expires_at := some params.RefreshExpiresAt }] }) := by
  simp only [repository.asRepository, repository.NewAuthToken, insertAuthToken, hreach]
  split_ifs <;> simp_all

theorem NewAuthToken_unreachable (r : repository) (now : time.Time) (db : Database)
    (params : NewAuthTokenParams) (hreach : db.reachable = false) :
    r.asRepository.NewAuthToken now db params = (some poolError, db) := by
  simp [repository.asRepository, repository.NewAuthToken, insertAuthToken, hreach]

end repo

namespace secure

/-- The table of `TestIsValidPassword`, with an allowed set that has the percent
sign: the policy gives the verdict that the test expects for each of its passwords,
with the fixed reason on every rejection. -/
theorem IsValidPassword_test_table :
    [("Ab1%", false), ("Averylongpasswordwithmorethanthirtycharacters1%", false),
      ("Password%", false), ("password1%", false), ("PASSWORD1%", false),
      ("Password1", false), ("ValidPass1%", true), ("Aa1%aaaA", true),
      ("Aa1%aaaaaaaaaaaaaaaaaaaaaaAAA", true)].all
      (fun tc => IsValidPassword examples.symbols examples.PasswordValidateErr tc.1
        == (tc.2, if tc.2 then none else some examples.PasswordValidateErr)) = true := by
  decide

/-- C18: for every password, `IsValidPassword` returns true and a nil error when the
length is between 8 and 30 inclusive and the password has an uppercase letter, a
lowercase letter, a digit and a symbol of the allowed set; when the password is too
short, too long or lacks one of these classes, it returns false and the error with
the text `PasswordValidateErr`, the same for every violated rule. One of the two
cases holds for every password. -/
theorem IsValidPassword_policy (symbols : List Char) (PasswordValidateErr password : String) :
    (8 ≤ password.length ∧ password.length ≤ 30
        ∧ (∃ ch ∈ password.data, ch.isUpper = true) ∧ (∃ ch ∈ password.data, ch.isLower = true)
        ∧ (∃ ch ∈ password.data, ch.isDigit = true) ∧ (∃ ch ∈ password.data, ch ∈ symbols) →
      IsValidPassword symbols PasswordValidateErr password = (true, none))
    ∧ (password.length < 8 ∨ 30 < password.length
        ∨ (∀ ch ∈ password.data, ch.isUpper = false) ∨ (∀ ch ∈ password.data, ch.isLower = false)
        ∨ (∀ ch ∈ password.data, ch.isDigit = false) ∨ (∀ ch ∈ password.data, ch ∉ symbols) →
      IsValidPassword symbols PasswordValidateErr password = (false, some PasswordValidateErr))
    ∧ (IsValidPassword symbols PasswordValidateErr password = (true, none)
      ∨ IsValidPassword symbols PasswordValidateErr password
          = (false, some PasswordValidateErr)) := by
  refine ⟨?_, ?_, ?_⟩
  · rintro ⟨h1, h2, ⟨u, hu, hu'⟩, ⟨l, hl, hl'⟩, ⟨d, hd, hd'⟩, ⟨y, hy, hy'⟩⟩
    have h : 8 ≤ password.length ∧ password.length ≤ 30
        ∧ password.data.any Char.isUpper = true ∧ password.data.any Char.isLower = true
        ∧ password.data.any Char.isDigit = true
        ∧ password.data.any (fun c => symbols.contains c) = true := by
      refine ⟨h1, h2, ?_, ?_, ?_, ?_⟩
      · exact List.any_eq_true.mpr ⟨u, hu, hu'⟩
      · exact List.any_eq_true.mpr ⟨l, hl, hl'⟩
      · exact List.any_eq_true.mpr ⟨d, hd, hd'⟩
      · exact List.any_eq_true.mpr ⟨y, hy, by simpa using hy'⟩
    simp only [IsValidPassword, if_pos h]
  · intro hbad
    have h : ¬ (8 ≤ password.length ∧ password.length ≤ 30
        ∧ password.data.any Char.isUpper = true ∧ password.data.any Char.isLower = true
        ∧ password.data.any Char.isDigit = true
        ∧ password.data.any (fun c => symbols.contains c) = true) := by
      rintro ⟨h1, h2, h3, h4, h5, h6⟩
      obtain ⟨u, hu, hu'⟩ := List.any_eq_true.mp h3
      obtain ⟨l, hl, hl'⟩ := List.any_eq_true.mp h4
      obtain ⟨d, hd, hd'⟩ := List.any_eq_true.mp h5
      obtain ⟨y, hy, hy'⟩ := List.any_eq_true.mp h6
      rcases hbad with hb | hb | hb | hb | hb | hb
      · omega
      · omega
      · simp [hb u hu] at hu'
      · simp [hb l hl] at hl'
      · simp [hb d hd] at hd'
      · exact hb y hy (by simpa using hy')
    simp only [IsValidPassword, if_neg h]
  · unfold IsValidPassword
    split_ifs
    · exact Or.inl rfl
    · exact Or.inr rfl

/-- Witness of C18: the valid password of the test. -/
theorem IsValidPassword_policy_witness :
    IsValidPassword examples.symbols examples.PasswordValidateErr "ValidPass1%" = (true, none) :=
  (IsValidPassword_policy examples.symbols examples.PasswordValidateErr "ValidPass1%").1
    ⟨by decide, by decide, ⟨'V', by decide, by decide⟩, ⟨'a', by decide, by decide⟩,
      ⟨'1', by decide, by decide⟩, ⟨'%', by decide, by decide⟩⟩

end secure

namespace validator

/-- The cases of `TestValidate` and `TestValidateTag`: the valid structure passes, a
missing required field is reported, and the tags are judged as the test expects. -/
theorem Validate_test_table :
    Validate examples.testStructCtx examples.validStruct = none
    ∧ Validate examples.testStructCtx { examples.validStruct with RequiredField := "" }
      = some "Field is required: TestStruct.RequiredField"
    ∧ validateTag "#validtag" = true ∧ validateTag "invalidtag" = false := by
  decide

/-- C19: `Validate` returns nil when the validator of the library reports no
violation. When the validator reports a list of violations that starts with `first`,
`Validate` returns a non-nil error whose message is the description of the tag of
`first`, then ": ", then the namespace of `first`; the description is fixed by the
tag as the table says, and it is "Unknown validation error" for every other tag. -/
theorem Validate_first_violation {α : Type} (StructCtx : α → Option Error) (value : α) :
    (StructCtx value = none → Validate StructCtx value = none)
    ∧ (∀ first rest, StructCtx value = some (.ValidationErrors (first :: rest)) →
        Validate StructCtx value ≠ none
        ∧ (first.Tag = "tag" →
            Validate StructCtx value = some ("Invalid format" ++ ": " ++ first.Namespace))
        ∧ (first.Tag = "required" →
            Validate StructCtx value = some ("Field is required" ++ ": " ++ first.Namespace))
        ∧ (first.Tag = "max" →
            Validate StructCtx value
              = some ("Field exceeds maximum length" ++ ": " ++ first.Namespace))
        ∧ (first.Tag = "min" →
            Validate StructCtx value
              = some ("Field is below minimum length" ++ ": " ++ first.Namespace))
        ∧ (first.Tag = "lt" ∨ first.Tag = "lte" →
            Validate StructCtx value
              = some ("Field exceeds maximum value" ++ ": " ++ first.Namespace))
        ∧ (first.Tag = "gt" ∨ first.Tag = "gte" →
            Validate StructCtx value
              = some ("Field is below minimum value" ++ ": " ++ first.Namespace))
        ∧ (first.Tag ∉ ["tag", "required", "max", "min", "lt", "lte", "gt", "gte"] →
            Validate StructCtx value
              = some ("Unknown validation error" ++ ": " ++ first.Namespace))) := by
  constructor
  · intro h
    simp [Validate, parseValidationErrors, h]
  · intro first rest h
    refine ⟨?_, ?_, ?_, ?_, ?_, ?_, ?_, ?_⟩
    · simp [Validate, parseValidationErrors, h]
    · intro ht
      simp [Validate, parseValidationErrors, h, ht, ErrInvalidFormat]
    · intro ht
      simp [Validate, parseValidationErrors, h, ht, ErrFieldRequired]
    · intro ht
      simp [Validate, parseValidationErrors, h, ht, ErrFieldExceedsMaxLen]
    · intro ht
      simp [Validate, parseValidationErrors, h, ht, ErrFieldBelowMinLen]
    · intro ht
      rcases ht with ht | ht <;>
        simp [Validate, parseValidationErrors, h, ht, ErrFieldExceedsMaxVal]
    · intro ht
      rcases ht with ht | ht <;>
        simp [Validate, parseValidationErrors, h, ht, ErrFieldBelowMinVal]
    · intro ht
      simp only [List.mem_cons, List.mem_singleton, List.not_mem_nil, or_false, not_or] at ht
      obtain ⟨h1, h2, h3, h4, h5, h6, h7, h8⟩ := ht
      simp [Validate, parseValidationErrors, h, h1, h2, h3, h4, h5, h6, h7, h8,
        ErrUnknownValidation]

/-- Witness of C19: the structure of the test with an empty required field and a
value for `LtField` that is too large; the first violation is reported. -/
theorem Validate_first_violation_witness :
    examples.testStructCtx { examples.validStruct with RequiredField := "", LtField := 12 }
      = some (.ValidationErrors [⟨"required", "TestStruct.RequiredField"⟩,
          ⟨"lt", "TestStruct.LtField"⟩])
    ∧ Validate examples.testStructCtx
        { examples.validStruct with RequiredField := "", LtField := 12 }
      = some ("Field is required" ++ ": " ++ "TestStruct.RequiredField") :=
  ⟨by decide,
    ((Validate_first_violation examples.testStructCtx
      { examples.validStruct with RequiredField := "", LtField := 12 }).2
      ⟨"required", "TestStruct.RequiredField"⟩ [⟨"lt", "TestStruct.LtField"⟩]
      (by decide)).2.2.1 (by decide)⟩

end validator

/-! ## Theorems on the handlers -/

namespace service

open jwtgo examples

/-- C1 (code defect): alice logs in at `t0` and her session is revoked, so the store
holds no session record for her and `GetRefreshToken` returns an empty list with a nil
error; `Validate`, given her still unexpired access token one second later, returns
her identity instead of failing with `Unauthenticated`. -/
theorem Validate_succeeds_after_revoke :
    server.Login t0 loginReq db0 = (.returns (some ⟨access0, refresh0⟩, none), db1)
    ∧ server.RevokeJwt ⟨"123e4567-e89b-12d3-a456-426614174000"⟩ db1
        = (.returns (some {}, none), db2)
    ∧ db2.sessions aliceID = []
    ∧ server.repo.GetRefreshToken db2 ⟨aliceID⟩ = (([], none), db2)
    ∧ server.jwt.ValidateToken (t0 + time.Second) ⟨access0⟩ = .returns (true, none)
    ∧ server.Validate (t0 + time.Second) ⟨access0⟩ db2
        = (.returns (some ⟨"123e4567-e89b-12d3-a456-426614174000"⟩, none), db2) := by
  decide

/-- Whatever list of tokens the fetch returns with a nil error, even the empty one,
`Validate` returns the identity of an accepted access token. -/
theorem Validate_ignores_fetched_tokens {σ : Type} (a : authServer σ) (now : time.Time)
    (req : ValidateRequest) (s s' : σ) (I : uuid.UUID) (tokens : List TokenString)
    (hv : a.jwt.ValidateToken now ⟨req.AccessToken⟩ = .returns (true, none))
    (ha : a.jwt.GetDataFromToken now ⟨req.AccessToken⟩ = .returns (some ⟨I⟩, none))
    (hg : a.repo.GetRefreshToken s ⟨I⟩ = ((tokens, none), s')) :
    a.Validate now req s = (.returns (some ⟨I.String⟩, none), s') := by
  simp [authServer.Validate, hv, ha, hg]

/-- C2: when the refresh token verifies, both tokens carry the identity `I`, and the
first token the store returns for `I` differs from the presented refresh token,
`Refresh` fails with `Unauthenticated` and the only repository method it has called
is the fetch `GetRefreshToken`: nothing is written, the store is the one the fetch
left. -/
theorem Refresh_rejects_token_other_than_stored {σ : Type} (a : authServer σ)
    (now : time.Time) (req : RefreshRequest) (s s' : σ) (log : List repo.Call) (I : uuid.UUID)
    (stored : TokenString) (rest : List TokenString)
    (hv : a.jwt.ValidateToken now ⟨req.RefreshToken⟩ = .returns (true, none))
    (ha : a.jwt.GetDataFromToken now ⟨req.AccessToken⟩ = .returns (some ⟨I⟩, none))
    (hr : a.jwt.GetDataFromToken now ⟨req.RefreshToken⟩ = .returns (some ⟨I⟩, none))
    (hg : a.repo.GetRefreshToken s ⟨I⟩ = ((stored :: rest, none), s'))
    (hne : req.RefreshToken ≠ stored) :
    a.Refresh now req s = (.returns (none, some (.status .Unauthenticated "not authorized")), s')
    ∧ a.recorded.Refresh now req (s, log)
        = (.returns (none, some (.status .Unauthenticated "not authorized")),
            (s', log ++ [.GetRefreshToken ⟨I⟩])) := by
  have hne' : ¬ stored = req.RefreshToken := fun h => hne h.symm
  constructor
  · simp [authServer.Refresh, hv, ha, hr, hg, hne', fail, statusError, ErrValidateJwt]
  · simp [authServer.Refresh, authServer.recorded, repo.Repository.recorded, hv, ha, hr, hg,
      hne', fail, statusError, ErrValidateJwt]

/-- Witness of C2: alice's stored token is `refresh0`, the presented one was made a
second later. -/
theorem Refresh_rejects_token_other_than_stored_witness :
    server.jwt.ValidateToken (t0 + time.Second) ⟨tokenFor 1700003601⟩ = .returns (true, none)
    ∧ server.repo.GetRefreshToken db1 ⟨aliceID⟩ = (([refresh0], none), db1)
    ∧ tokenFor 1700003601 ≠ refresh0
    ∧ server.Refresh (t0 + time.Second) ⟨access0, tokenFor 1700003601⟩ db1
        = (.returns (none, some (.status .Unauthenticated "not authorized")), db1) :=
  ⟨by decide, by decide, by decide,
    (Refresh_rejects_token_other_than_stored server (t0 + time.Second)
      ⟨access0, tokenFor 1700003601⟩ db1 db1 [] aliceID refresh0 []
      (by decide) (by decide) (by decide) (by decide) (by decide)).1⟩

/-- C6: when `ValidateToken` rejects the refresh token (an error or `false`), or it
accepts it and `GetDataFromToken` fails on the access token, or on the refresh
token, or the two identities differ, `Refresh` fails with `Unauthenticated` and the
message "not authorized", the store is untouched and the call recorder of the
repository notes no call: the store is neither read nor written. -/
theorem Refresh_unauthenticated_before_store {σ : Type} (a : authServer σ) (now : time.Time)
    (req : RefreshRequest) (s : σ) (log : List repo.Call)
    (h : (∃ check err, a.jwt.ValidateToken now ⟨req.RefreshToken⟩ = .returns (check, err)
            ∧ (err ≠ none ∨ check = false))
      ∨ (a.jwt.ValidateToken now ⟨req.RefreshToken⟩ = .returns (true, none)
          ∧ ∃ d e, a.jwt.GetDataFromToken now ⟨req.AccessToken⟩ = .returns (d, some e))
      ∨ (a.jwt.ValidateToken now ⟨req.RefreshToken⟩ = .returns (true, none)
          ∧ (∃ d, a.jwt.GetDataFromToken now ⟨req.AccessToken⟩ = .returns (d, none))
          ∧ ∃ d e, a.jwt.GetDataFromToken now ⟨req.RefreshToken⟩ = .returns (d, some e))
      ∨ (a.jwt.ValidateToken now ⟨req.RefreshToken⟩ = .returns (true, none)
          ∧ ∃ x y, a.jwt.GetDataFromToken now ⟨req.AccessToken⟩ = .returns (some x, none)
            ∧ a.jwt.GetDataFromToken now ⟨req.RefreshToken⟩ = .returns (some y, none)
            ∧ x.UserId ≠ y.UserId)) :
    a.Refresh now req s = (.returns (none, some (.status .Unauthenticated "not authorized")), s)
    ∧ a.recorded.Refresh now req (s, log)
        = (.returns (none, some (.status .Unauthenticated "not authorized")), (s, log)) := by
  have key : ∀ {τ : Type} (b : authServer τ) (u : τ), b.jwt = a.jwt →
      b.Refresh now req u
        = (.returns (none, some (.status .Unauthenticated "not authorized")), u) := by
    intro τ b u hb
    rcases h with ⟨check, err, hv, hc⟩ | ⟨hv, d, e, ha⟩ | ⟨hv, ⟨d, ha⟩, d', e, hr⟩
      | ⟨hv, x, y, ha, hr, hxy⟩
    · simp [authServer.Refresh, hb, hv, hc, fail, statusError, ErrValidateJwt]
    · simp [authServer.Refresh, hb, hv, ha, fail, statusError, ErrValidateJwt]
    · simp [authServer.Refresh, hb, hv, ha, hr, fail, statusError, ErrValidateJwt]
    · simp [authServer.Refresh, hb, hv, ha, hr, hxy, fail, statusError, ErrValidateJwt]
  exact ⟨key a s rfl, key a.recorded (s, log) rfl⟩

/-- Witness of C6: an access token of bob with a refresh token of alice. -/
theorem Refresh_unauthenticated_before_store_witness :
    server.jwt.ValidateToken t0 ⟨refresh0⟩ = .returns (true, none)
    ∧ server.jwt.GetDataFromToken t0 ⟨bobAccess⟩ = .returns (some ⟨bobID⟩, none)
    ∧ server.jwt.GetDataFromToken t0 ⟨refresh0⟩ = .returns (some ⟨aliceID⟩, none)
    ∧ bobID ≠ aliceID
    ∧ server.recorded.Refresh t0 ⟨bobAccess, refresh0⟩ (db1, [])
        = (.returns (none, some (.status .Unauthenticated "not authorized")), (db1, [])) :=
  ⟨by decide, by decide, by decide, by decide,
    (Refresh_unauthenticated_before_store server t0 ⟨bobAccess, refresh0⟩ db1 []
      (Or.inr (Or.inr (Or.inr ⟨by decide, ⟨bobID⟩, ⟨aliceID⟩, by decide, by decide,
        by decide⟩)))).2⟩

/-- C7: when the refresh token verifies and both tokens carry the identity `I`,
`Refresh` fails with `NotFound` exactly when the fetch reports `sql.ErrNoRows` or
returns an empty list with a nil error, and fails with `Internal` on every other
fetch error; in these cases the store is the one the fetch left and the outcome
is the same whatever `CreateToken` would do, so no token is issued. -/
theorem Refresh_store_fetch_failure {σ : Type} (a : authServer σ) (now : time.Time)
    (req : RefreshRequest) (s s' : σ) (I : uuid.UUID) (tokens : List TokenString)
    (e : Option repo.Error)
    (hv : a.jwt.ValidateToken now ⟨req.RefreshToken⟩ = .returns (true, none))
    (ha : a.jwt.GetDataFromToken now ⟨req.AccessToken⟩ = .returns (some ⟨I⟩, none))
    (hr : a.jwt.GetDataFromToken now ⟨req.RefreshToken⟩ = .returns (some ⟨I⟩, none))
    (hg : a.repo.GetRefreshToken s ⟨I⟩ = ((tokens, e), s')) :
    ((a.Refresh now req s).1 = .returns (none, some (.status .NotFound "refresh token not found"))
        ↔ (e = some .ErrNoRows ∨ (e = none ∧ tokens = [])))
    ∧ (∀ err, e = some err → err ≠ .ErrNoRows →
        (a.Refresh now req s).1
          = .returns (none, some (.status .Internal
              "try it a little later or check the data you entered")))
    ∧ ((e ≠ none ∨ tokens = []) →
        (a.Refresh now req s).2 = s'
        ∧ ∀ createToken, ({ a with jwt := { a.jwt with CreateToken := createToken } } :
            authServer σ).Refresh now req s = a.Refresh now req s) := by
  refine ⟨?_, ?_, ?_⟩
  · cases e with
    | some err =>
      by_cases herr : err = .ErrNoRows
      · simp [authServer.Refresh, hv, ha, hr, hg, herr, fail, statusError, ErrTokenNotFound]
      · simp [authServer.Refresh, hv, ha, hr, hg, herr, fail, statusError, ErrUnknown]
    | none =>
      cases tokens with
      | nil => simp [authServer.Refresh, hv, ha, hr, hg, fail, statusError, ErrTokenNotFound]
      | cons t rest =>
        have hne : ¬ ((none : Option repo.Error) = some repo.Error.ErrNoRows
            ∨ (none : Option repo.Error) = none ∧ t :: rest = []) := by simp
        simp only [authServer.Refresh, hv, ha, hr, hg, fail, statusError, ErrValidateJwt,
          ErrUnknown, hne, iff_false]
        repeat' split
        all_goals simp_all
  · intro err he herr
    subst he
    simp [authServer.Refresh, hv, ha, hr, hg, herr, fail, statusError, ErrUnknown]
  · intro h
    have hcase : (∃ err, e = some err) ∨ (e = none ∧ tokens = []) := by
      cases e with
      | some err => exact Or.inl ⟨err, rfl⟩
      | none => exact Or.inr ⟨rfl, by simpa using h⟩
    rcases hcase with ⟨err, rfl⟩ | ⟨rfl, rfl⟩
    · by_cases herr : err = .ErrNoRows <;>
        simp [authServer.Refresh, hv, ha, hr, hg, herr]
    · simp [authServer.Refresh, hv, ha, hr, hg]

/-- Witness of C7: alice's tokens after her session record was deleted. -/
theorem Refresh_store_fetch_failure_witness :
    server.jwt.ValidateToken t0 ⟨refresh0⟩ = .returns (true, none)
    ∧ server.repo.GetRefreshToken db2 ⟨aliceID⟩ = (([], none), db2)
    ∧ (server.Refresh t0 ⟨access0, refresh0⟩ db2).1
        = .returns (none, some (.status .NotFound "refresh token not found")) :=
  ⟨by decide, by decide,
    (Refresh_store_fetch_failure server t0 ⟨access0, refresh0⟩ db2 db2 aliceID [] none
      (by decide) (by decide) (by decide) (by decide)).1.mpr (Or.inr ⟨rfl, rfl⟩)⟩

/-- What the call recorder shows of one `Refresh`: the reply and the store are those
of the server without the recorder, and `Refresh` calls no repository method, or
only the fetch, or the fetch and then the overwrite. In the last case the reply is
the new pair when the overwrite reports no error and `Internal` when it reports
one. -/
theorem recorded_Refresh {σ : Type} (a : authServer σ) (now : time.Time) (req : RefreshRequest)
    (s : σ) (log : List repo.Call) :
    (a.recorded.Refresh now req (s, log)).1 = (a.Refresh now req s).1
    ∧ (a.recorded.Refresh now req (s, log)).2.1 = (a.Refresh now req s).2
    ∧ (((a.recorded.Refresh now req (s, log)).2.2 = log ∧ (a.Refresh now req s).2 = s)
      ∨ (∃ p, (a.recorded.Refresh now req (s, log)).2.2 = log ++ [.GetRefreshToken p]
          ∧ (a.Refresh now req s).2 = (a.repo.GetRefreshToken s p).2)
      ∨ (∃ p q, (a.recorded.Refresh now req (s, log)).2.2
            = log ++ [.GetRefreshToken p, .UpdateRefreshToken q]
          ∧ (a.Refresh now req s).2
              = (a.repo.UpdateRefreshToken now (a.repo.GetRefreshToken s p).2 q).2
          ∧ ((a.repo.UpdateRefreshToken now (a.repo.GetRefreshToken s p).2 q).1 = none →
              ∃ r, (a.Refresh now req s).1 = .returns (some r, none))
          ∧ ((a.repo.UpdateRefreshToken now (a.repo.GetRefreshToken s p).2 q).1 ≠ none →
              (a.Refresh now req s).1
                = .returns (none, some (.status .Internal
                    "try it a little later or check the data you entered"))))) := by
  rcases hv : a.jwt.ValidateToken now ⟨req.RefreshToken⟩ with ⟨check, err⟩ | r
  swap
  · simp [authServer.Refresh, authServer.recorded, hv]
  by_cases hc : err ≠ none ∨ check = false
  · simp [authServer.Refresh, authServer.recorded, hv, hc]
  rcases ha : a.jwt.GetDataFromToken now ⟨req.AccessToken⟩ with ⟨da, ea⟩ | r
  swap
  · simp [authServer.Refresh, authServer.recorded, hv, hc, ha]
  cases ea with
  | some e => simp [authServer.Refresh, authServer.recorded, hv, hc, ha]
  | none =>
  rcases hr : a.jwt.GetDataFromToken now ⟨req.RefreshToken⟩ with ⟨dr, er⟩ | r
  swap
  · simp [authServer.Refresh, authServer.recorded, hv, hc, ha, hr]
  cases er with
  | some e => simp [authServer.Refresh, authServer.recorded, hv, hc, ha, hr]
  | none =>
  cases da with
  | none => simp [authServer.Refresh, authServer.recorded, hv, hc, ha, hr]
  | some x =>
  cases dr with
  | none => simp [authServer.Refresh, authServer.recorded, hv, hc, ha, hr]
  | some y =>
  by_cases hxy : x.UserId ≠ y.UserId
  · simp [authServer.Refresh, authServer.recorded, hv, hc, ha, hr, hxy]
  rcases hg : a.repo.GetRefreshToken s ⟨y.UserId⟩ with ⟨⟨toks, e⟩, s'⟩
  have hs' : s' = (a.repo.GetRefreshToken s ⟨y.UserId⟩).2 := by rw [hg]
  cases e with
  | some err =>
    refine ⟨?_, ?_, Or.inr (Or.inl ⟨⟨y.UserId⟩, ?_, ?_⟩)⟩ <;>
      by_cases herr : err = .ErrNoRows <;>
      simp [authServer.Refresh, authServer.recorded, repo.Repository.recorded, hv, hc, ha, hr,
        hxy, hg, herr]
  | none =>
  cases toks with
  | nil =>
    refine ⟨?_, ?_, Or.inr (Or.inl ⟨⟨y.UserId⟩, ?_, ?_⟩)⟩ <;>
      simp [authServer.Refresh, authServer.recorded, repo.Repository.recorded, hv, hc, ha, hr,
        hxy, hg]
  | cons t rest =>
  by_cases ht : t ≠ req.RefreshToken
  · refine ⟨?_, ?_, Or.inr (Or.inl ⟨⟨y.UserId⟩, ?_, ?_⟩)⟩ <;>
      simp [authServer.Refresh, authServer.recorded, repo.Repository.recorded, hv, hc, ha, hr,
        hxy, hg, ht]
  rcases hct : a.jwt.CreateToken now ⟨y.UserId⟩ with ⟨dt, et⟩ | r
  swap
  · refine ⟨?_, ?_, Or.inr (Or.inl ⟨⟨y.UserId⟩, ?_, ?_⟩)⟩ <;>
      simp [authServer.Refresh, authServer.recorded, repo.Repository.recorded, hv, hc, ha, hr,
        hxy, hg, ht, hct]
  cases et with
  | some e =>
    refine ⟨?_, ?_, Or.inr (Or.inl ⟨⟨y.UserId⟩, ?_, ?_⟩)⟩ <;>
      simp [authServer.Refresh, authServer.recorded, repo.Repository.recorded, hv, hc, ha, hr,
        hxy, hg, ht, hct]
  | none =>
  cases dt with
  | none =>
    refine ⟨?_, ?_, Or.inr (Or.inl ⟨⟨y.UserId⟩, ?_, ?_⟩)⟩ <;>
      simp [authServer.Refresh, authServer.recorded, repo.Repository.recorded, hv, hc, ha, hr,
        hxy, hg, ht, hct]
  | some tokens =>
  rcases hu : a.repo.UpdateRefreshToken now s'
    ⟨y.UserId, tokens.RefreshToken, some now⟩ with ⟨eu, s''⟩
  refine ⟨?_, ?_, Or.inr (Or.inr ⟨⟨y.UserId⟩, ⟨y.UserId, tokens.RefreshToken, some now⟩,
    ?_, ?_, ?_, ?_⟩)⟩ <;>
    cases eu <;>
    simp [authServer.Refresh, authServer.recorded, repo.Repository.recorded, hv, hc, ha, hr,
      hxy, hg, ht, hct, hu, fail, statusError, ErrUnknown]

/-- The fetch of the SQL repository leaves the database as it is. -/
theorem repository_GetRefreshToken_store (r : repo.repository) (db : repo.Database)
    (p : repo.GetRefreshTokenParams) : (r.asRepository.GetRefreshToken db p).2 = db := by
  simp only [repo.repository.asRepository, repo.repository.GetRefreshToken]
  split <;> rfl

/-- An overwrite of the SQL repository that reports an error has changed nothing. -/
theorem repository_UpdateRefreshToken_error_store (r : repo.repository) (now : time.Time)
    (db : repo.Database) (q : repo.UpdateRefreshTokenParams)
    (h : (r.asRepository.UpdateRefreshToken now db q).1 ≠ none) :
    (r.asRepository.UpdateRefreshToken now db q).2 = db := by
  simp only [repo.repository.asRepository, repo.repository.UpdateRefreshToken,
    repo.updateRefreshTokenQuery] at h ⊢
  split at h
  · simp_all
  · simp at h

/-- C5 (as stated, refuted): on a connection that breaks while the UPDATE is under
way, `Refresh` of alice's stored token runs the overwrite `UpdateRefreshToken` and
then returns the error `Internal`, and the store no longer holds the token it held
before the call. -/
theorem Refresh_error_after_overwrite :
    lostReplyServer.recorded.Refresh (t0 + time.Second) ⟨access0, refresh0⟩ (db1, [])
      = (.returns (none, some (.status .Internal
            "try it a little later or check the data you entered")),
          ({ db1 with auth_tokens :=
              [{ sessionRow 1 t0 access0 refresh0 with
                  refresh_token := tokenFor 1700003601, updated_at := t0 + time.Second }] },
           [.GetRefreshToken ⟨aliceID⟩,
            .UpdateRefreshToken ⟨aliceID, tokenFor 1700003601, some (t0 + time.Second)⟩]))
    ∧ repo.Call.mutates
        (.UpdateRefreshToken ⟨aliceID, tokenFor 1700003601, some (t0 + time.Second)⟩) = true
    ∧ (lostReplyServer.Refresh (t0 + time.Second) ⟨access0, refresh0⟩ db1).2 ≠ db1 := by
  decide

/-- C5 (amended): `Refresh` calls no repository method, or only the fetch
`GetRefreshToken`, or the fetch and then, as its last call, the overwrite
`UpdateRefreshToken`; when it returns an error after the overwrite, it is the
overwrite that reported an error. Hence, for a repository whose fetch and whose
failed overwrite leave the store as it was, the store after a `Refresh` that
returns an error is exactly the store before it. -/
theorem Refresh_error_leaves_store {σ : Type} (a : authServer σ) (now : time.Time)
    (req : RefreshRequest) (s : σ) (log : List repo.Call)
    (hget : ∀ p, (a.repo.GetRefreshToken s p).2 = s)
    (hupd : ∀ q, (a.repo.UpdateRefreshToken now s q).1 ≠ none →
      (a.repo.UpdateRefreshToken now s q).2 = s) :
    (∀ resp err, (a.Refresh now req s).1 = .returns (resp, some err) →
        (a.Refresh now req s).2 = s)
    ∧ ((a.recorded.Refresh now req (s, log)).2.2 = log
      ∨ (∃ p, (a.recorded.Refresh now req (s, log)).2.2 = log ++ [.GetRefreshToken p])
      ∨ (∃ p q, (a.recorded.Refresh now req (s, log)).2.2
            = log ++ [.GetRefreshToken p, .UpdateRefreshToken q]
          ∧ ((∃ resp err, (a.Refresh now req s).1 = .returns (resp, some err)) →
              (a.repo.UpdateRefreshToken now s q).1 ≠ none))) := by
  obtain ⟨_, _, h⟩ := recorded_Refresh a now req s log
  rcases h with ⟨hl, hs⟩ | ⟨p, hl, hs⟩ | ⟨p, q, hl, hs, hok, hfail⟩
  · exact ⟨fun _ _ _ => hs, Or.inl hl⟩
  · exact ⟨fun _ _ _ => by rw [hs, hget], Or.inr (Or.inl ⟨p, hl⟩)⟩
  · rw [hget] at hs hok hfail
    have hne : (∃ resp err, (a.Refresh now req s).1 = .returns (resp, some err)) →
        (a.repo.UpdateRefreshToken now s q).1 ≠ none := by
      rintro ⟨resp, err, hret⟩ hnone
      obtain ⟨r, hr⟩ := hok hnone
      rw [hr] at hret
      simp at hret
    refine ⟨fun resp err hret => ?_, Or.inr (Or.inr ⟨p, q, hl, hne⟩)⟩
    rw [hs]
    exact hupd q (hne ⟨resp, err, hret⟩)

/-- Witness of C5: a refresh token other than the stored one, on the SQL repository. -/
theorem Refresh_error_leaves_store_witness :
    (server.Refresh (t0 + time.Second) ⟨access0, tokenFor 1700003601⟩ db1).1
        = .returns (none, some (.status .Unauthenticated "not authorized"))
    ∧ (server.Refresh (t0 + time.Second) ⟨access0, tokenFor 1700003601⟩ db1).2 = db1 :=
  ⟨by decide,
    (Refresh_error_leaves_store server (t0 + time.Second) ⟨access0, tokenFor 1700003601⟩ db1 []
      (fun p => repository_GetRefreshToken_store {} db1 p)
      (fun q h => repository_UpdateRefreshToken_error_store {} (t0 + time.Second) db1 q h)).1
      none (.status .Unauthenticated "not authorized") (by decide)⟩

/-- What a successful `Refresh` has done. -/
theorem Refresh_success {σ : Type} (a : authServer σ) (now : time.Time) (req : RefreshRequest)
    (s s' : σ) (resp : RefreshResponse)
    (h : a.Refresh now req s = (.returns (some resp, none), s')) :
    a.jwt.ValidateToken now ⟨req.RefreshToken⟩ = .returns (true, none)
    ∧ ∃ I rest s1 tokens,
        a.jwt.GetDataFromToken now ⟨req.AccessToken⟩ = .returns (some ⟨I⟩, none)
      ∧ a.jwt.GetDataFromToken now ⟨req.RefreshToken⟩ = .returns (some ⟨I⟩, none)
      ∧ a.repo.GetRefreshToken s ⟨I⟩ = ((req.RefreshToken :: rest, none), s1)
      ∧ a.jwt.CreateToken now ⟨I⟩ = .returns (some tokens, none)
      ∧ a.repo.UpdateRefreshToken now s1 ⟨I, tokens.RefreshToken, some now⟩ = (none, s')
      ∧ resp = ⟨tokens.AccessToken, tokens.RefreshToken⟩ := by
  rcases hv : a.jwt.ValidateToken now ⟨req.RefreshToken⟩ with ⟨check, err⟩ | r
  swap
  · simp [authServer.Refresh, hv] at h
  by_cases hc : err ≠ none ∨ check = false
  · simp [authServer.Refresh, hv, hc, fail, statusError] at h
  have hce : check = true ∧ err = none := by
    cases check <;> cases err <;> simp_all
  obtain ⟨rfl, rfl⟩ := hce
  rcases ha : a.jwt.GetDataFromToken now ⟨req.AccessToken⟩ with ⟨da, ea⟩ | r
  swap
  · simp [authServer.Refresh, hv, ha] at h
  cases ea with
  | some e => simp [authServer.Refresh, hv, ha, fail, statusError] at h
  | none =>
  rcases hr : a.jwt.GetDataFromToken now ⟨req.RefreshToken⟩ with ⟨dr, er⟩ | r
  swap
  · simp [authServer.Refresh, hv, ha, hr] at h
  cases er with
  | some e => simp [authServer.Refresh, hv, ha, hr, fail, statusError] at h
  | none =>
  cases da with
  | none => simp [authServer.Refresh, hv, ha, hr] at h
  | some x =>
  cases dr with
  | none => simp [authServer.Refresh, hv, ha, hr] at h
  | some y =>
  by_cases hxy : x.UserId ≠ y.UserId
  · simp [authServer.Refresh, hv, ha, hr, hxy, fail, statusError] at h
  have hxy' : x.UserId = y.UserId := by simpa using hxy
  obtain ⟨I⟩ := y
  obtain ⟨J⟩ := x
  simp only at hxy'
  subst hxy'
  rcases hg : a.repo.GetRefreshToken s ⟨J⟩ with ⟨⟨toks, e⟩, s1⟩
  cases e with
  | some err =>
    by_cases herr : err = .ErrNoRows <;>
      simp [authServer.Refresh, hv, ha, hr, hg, herr, fail, statusError] at h
  | none =>
  cases toks with
  | nil => simp [authServer.Refresh, hv, ha, hr, hg, fail, statusError] at h
  | cons t rest =>
  by_cases ht : t ≠ req.RefreshToken
  · simp [authServer.Refresh, hv, ha, hr, hg, ht, fail, statusError] at h
  have ht' : t = req.RefreshToken := by simpa using ht
  subst ht'
  rcases hct : a.jwt.CreateToken now ⟨J⟩ with ⟨dt, et⟩ | r
  swap
  · simp [authServer.Refresh, hv, ha, hr, hg, hct] at h
  cases et with
  | some e => simp [authServer.Refresh, hv, ha, hr, hg, hct, fail, statusError] at h
  | none =>
  cases dt with
  | none => simp [authServer.Refresh, hv, ha, hr, hg, hct] at h
  | some tokens =>
  rcases hu : a.repo.UpdateRefreshToken now s1 ⟨J, tokens.RefreshToken, some now⟩ with ⟨eu, s2⟩
  cases eu with
  | some e => simp [authServer.Refresh, hv, ha, hr, hg, hct, hu, fail, statusError] at h
  | none =>
    simp [authServer.Refresh, hv, ha, hr, hg, hct, hu] at h
    obtain ⟨h1, h2⟩ := h
    subst h2
    exact ⟨rfl, J, rest, s1, tokens, rfl, rfl, hg, hct, hu, h1.symm⟩

/-- C3 (as stated, refuted): alice logged in at `t0`; half a second later `Refresh`
with her refresh token `refresh0` succeeds and returns `refresh0` again as the new
refresh token, and a subsequent `Refresh` presenting `refresh0` succeeds as well. -/
theorem Refresh_twice_with_same_token :
    server.Refresh (t0 + 500000000) ⟨access0, refresh0⟩ db1
      = (.returns (some ⟨access0, refresh0⟩, none),
          { db1 with auth_tokens :=
              [{ sessionRow 1 t0 access0 refresh0 with updated_at := t0 + 500000000 }] })
    ∧ server.Refresh (t0 + 700000000) ⟨access0, refresh0⟩
        { db1 with auth_tokens :=
            [{ sessionRow 1 t0 access0 refresh0 with updated_at := t0 + 500000000 }] }
      = (.returns (some ⟨access0, refresh0⟩, none),
          { db1 with auth_tokens :=
              [{ sessionRow 1 t0 access0 refresh0 with updated_at := t0 + 700000000 }] }) := by
  decide

/-- C3 (amended): on the SQL repository and the signing client, when `Refresh` with
the refresh token `R1` succeeds and returns a refresh token different from `R1`, a
subsequent `Refresh` presenting `R1` again, at any instant and with any access
token, fails with `Unauthenticated` and leaves the store as it is. When `R1` is a
token that the client issued at the instant `t1`, the returned refresh token differs
from `R1` exactly when the rotation instant and `t1`, each plus the refresh
lifetime, fall into different Unix seconds. -/
theorem Refresh_rotated_token_rejected (a : authServer repo.Database) (r : repo.repository)
    (c : jwt.jwtClient) (hrepo : a.repo = r.asRepository) (hjwt : a.jwt = c.asJWTClient)
    (now : time.Time) (req : RefreshRequest) (db db' : repo.Database) (resp : RefreshResponse)
    (h : a.Refresh now req db = (.returns (some resp, none), db')) :
    (resp.RefreshToken ≠ req.RefreshToken → ∀ (now' : time.Time) (accessToken : TokenString),
      a.Refresh now' ⟨accessToken, req.RefreshToken⟩ db'
        = (.returns (none, some (.status .Unauthenticated "not authorized")), db'))
    ∧ (∀ (t1 : time.Time) (J : uuid.UUID), c.publicKey.id = c.privateKey.id →
        req.RefreshToken = (c.newToken t1 ⟨J⟩ c.refreshTokenTime).1 →
        (resp.RefreshToken ≠ req.RefreshToken ↔
          time.Unix (time.Add now c.refreshTokenTime)
            ≠ time.Unix (time.Add t1 c.refreshTokenTime))) := by
  obtain ⟨hv, I, rest, s1, tokens, _, hr, hg, hct, hu, hresp⟩ :=
    Refresh_success a now req db db' resp h
  rw [hjwt] at hv hr hct
  rw [hrepo] at hg hu
  simp only [jwt.jwtClient.asJWTClient, Outcome.returns.injEq] at hv hr hct
  have hsize := jwt.CreateToken_some c now ⟨I⟩ tokens none hct
  have htokens : tokens.RefreshToken = (c.newToken now ⟨I⟩ c.refreshTokenTime).1 := by
    rw [jwt.CreateToken_eq c hsize] at hct
    simp only [Prod.mk.injEq, Option.some.injEq, and_true] at hct
    rw [← hct]
  refine ⟨?_, ?_⟩
  · intro hne now' accessToken
    -- the store was reachable, and the overwrite put the new token into every record of `I`
    have hreach : db.reachable = true := by
      by_contra hcon
      have hf : db.reachable = false := by simpa using hcon
      rw [repo.GetRefreshToken_unreachable r db I hf] at hg
      simp at hg
    rw [repo.GetRefreshToken_reachable r db I hreach] at hg
    obtain ⟨hlist, hs1⟩ : (db.sessions I).map (fun x => x.refresh_token)
        = req.RefreshToken :: rest ∧ db = s1 := by simpa using hg
    subst hs1
    rw [repo.UpdateRefreshToken_reachable r now db _ hreach] at hu
    have hdb' : db' = { db with auth_tokens := db.auth_tokens.map (fun x =>
        if x.user_id = I then { x with refresh_token := tokens.RefreshToken, updated_at := now }
        else x) } := by simpa using hu.symm
    have hreach' : db'.reachable = true := by rw [hdb']; exact hreach
    have hstored : ∃ rest', (db'.sessions I).map (fun x => x.refresh_token)
        = tokens.RefreshToken :: rest' := by
      have hupd := repo.sessions_after_update now db.auth_tokens I tokens.RefreshToken
      have hne0 : db.auth_tokens.filter (fun x => x.user_id = I) ≠ [] := by
        intro h0
        simp [repo.Database.sessions, h0] at hlist
      obtain ⟨x, xs, hx⟩ := List.exists_cons_of_ne_nil hne0
      refine ⟨xs.map (fun _ => tokens.RefreshToken), ?_⟩
      rw [hdb']
      simp only [repo.Database.sessions]
      rw [hupd, hx]
      rfl
    obtain ⟨rest', hstored⟩ := hstored
    have hfetch := repo.GetRefreshToken_reachable r db' I hreach'
    rw [hstored] at hfetch
    have hnew : tokens.RefreshToken ≠ req.RefreshToken := by
      rw [hresp] at hne
      exact hne
    -- the second call
    obtain ⟨check, err, hv'⟩ := jwt.ValidateToken_later c now now' req.RefreshToken hv
    by_cases hc : err ≠ none ∨ check = false
    · simp [authServer.Refresh, hjwt, jwt.jwtClient.asJWTClient, hv', hc, fail, statusError,
        ErrValidateJwt]
    have hce : check = true ∧ err = none := by
      cases check <;> cases err <;> simp_all
    obtain ⟨rfl, rfl⟩ := hce
    rcases jwt.GetDataFromToken_returns c now' accessToken with ⟨x, ha'⟩ | ⟨e, ha'⟩
    swap
    · simp [authServer.Refresh, hjwt, jwt.jwtClient.asJWTClient, hv', ha', fail, statusError,
        ErrValidateJwt]
    rcases jwt.GetDataFromToken_later c now now' req.RefreshToken ⟨I⟩ hr with hr' | ⟨e, hr'⟩
    swap
    · simp [authServer.Refresh, hjwt, jwt.jwtClient.asJWTClient, hv', ha', hr', fail,
        statusError, ErrValidateJwt]
    by_cases hxI : x.UserId ≠ I
    · simp [authServer.Refresh, hjwt, jwt.jwtClient.asJWTClient, hv', ha', hr', hxI, fail,
        statusError, ErrValidateJwt]
    · simp [authServer.Refresh, hjwt, hrepo, jwt.jwtClient.asJWTClient, hv', ha', hr', hxI,
        hfetch, hnew, fail, statusError, ErrValidateJwt]
  · intro t1 J hk hR1
    have hJ := jwt.GetDataFromToken_newToken c hsize hk t1 ⟨J⟩ c.refreshTokenTime now
    rw [← hR1, hr] at hJ
    have hIJ : I = J := by simpa using hJ
    subst hIJ
    rw [hresp, hR1]
    simp only [htokens, jwt.newToken_eq c hsize, jwt.newTokenClaims]
    simp

/-- Witness of C3: alice's token is rotated one second after `t0`; the old token is
then rejected. -/
theorem Refresh_rotated_token_rejected_witness :
    server.Refresh (t0 + time.Second) ⟨access0, refresh0⟩ db1
      = (.returns (some ⟨tokenFor 1700000901, tokenFor 1700003601⟩, none), db1Rotated)
    ∧ tokenFor 1700003601 ≠ refresh0
    ∧ server.Refresh (t0 + 2 * time.Second) ⟨access0, refresh0⟩ db1Rotated
      = (.returns (none, some (.status .Unauthenticated "not authorized")), db1Rotated) :=
  ⟨by decide, by decide,
    (Refresh_rotated_token_rejected server {} client rfl rfl (t0 + time.Second)
      ⟨access0, refresh0⟩ db1 db1Rotated ⟨tokenFor 1700000901, tokenFor 1700003601⟩
      (by decide)).1 (by decide) (t0 + 2 * time.Second) access0⟩

/-- What a successful `Login` has done. -/
theorem Login_success {σ : Type} (a : authServer σ) (now : time.Time) (req : LoginRequest)
    (s s' : σ) (resp : LoginResponse)
    (h : a.Login now req s = (.returns (some resp, none), s')) :
    a.validateLogin req = none
    ∧ ∃ user s1 tokens e, a.repo.GetUserByUsername s req.Username = ((some user, none), s1)
      ∧ a.CheckPassword user.HashedPassword req.Password = none
      ∧ a.jwt.CreateToken now ⟨user.ID⟩ = .returns (some tokens, e)
      ∧ a.repo.NewAuthToken now s1 ⟨user.ID, tokens, time.Add now (30 * 24 * time.Hour)⟩
          = (none, s')
      ∧ resp = ⟨tokens.AccessToken, tokens.RefreshToken⟩ := by
  cases hval : a.validateLogin req with
  | some e => simp [authServer.Login, hval, fail, statusError] at h
  | none =>
  rcases hg : a.repo.GetUserByUsername s req.Username with ⟨⟨u, e⟩, s1⟩
  cases e with
  | some e => simp [authServer.Login, hval, hg, fail, statusError] at h
  | none =>
  cases u with
  | none => simp [authServer.Login, hval, hg] at h
  | some user =>
  cases hp : a.CheckPassword user.HashedPassword req.Password with
  | some e => simp [authServer.Login, hval, hg, hp, fail, statusError] at h
  | none =>
  rcases hct : a.jwt.CreateToken now ⟨user.ID⟩ with ⟨dt, et⟩ | r
  swap
  · simp [authServer.Login, hval, hg, hp, hct] at h
  cases dt with
  | none => simp [authServer.Login, hval, hg, hp, hct] at h
  | some tokens =>
  have h720 : time.Add now (30 * 24 * time.Hour) = time.Add now (720 * time.Hour) := by
    norm_num
  rw [h720]
  rcases hn : a.repo.NewAuthToken now s1 ⟨user.ID, tokens, time.Add now (720 * time.Hour)⟩
    with ⟨en, s2⟩
  cases en with
  | some e => simp [authServer.Login, hval, hg, hp, hct, hn, fail, statusError] at h
  | none =>
    simp [authServer.Login, hval, hg, hp, hct, hn] at h
    obtain ⟨h1, h2⟩ := h
    subst h2
    exact ⟨rfl, user, s1, tokens, et, rfl, hp, hct, hn, h1.symm⟩

/-- What `Login` does on the SQL repository with the signing client, for a known user
whose password matches: where `auth_tokens.user_id` is unique and the user already
has a session record it fails with `Internal`, otherwise it appends a session
record holding the new refresh token. -/
theorem Login_known_user (a : authServer repo.Database) (r : repo.repository)
    (c : jwt.jwtClient) (hrepo : a.repo = r.asRepository) (hjwt : a.jwt = c.asJWTClient)
    (now : time.Time) (req : LoginRequest) (db : repo.Database) (user : repo.User)
    (hval : a.validateLogin req = none) (hreach : db.reachable = true)
    (hu : db.users.find? (fun u => u.Username = req.Username) = some user)
    (hp : a.CheckPassword user.HashedPassword req.Password = none)
    (hsize : 62 ≤ c.privateKey.size) :
    a.Login now req db
      = if db.schema.auth_tokens_user_id_unique
            ∧ db.auth_tokens.any (fun x => x.user_id = user.ID) then
          (.returns (none, some (.status .Internal
              "try it a little later or check the data you entered")),
            { db with auth_tokens_id_seq := db.auth_tokens_id_seq + 1 })
        else
          (.returns (some ⟨(c.newToken now ⟨user.ID⟩ c.accessTokenTime).1,
              (c.newToken now ⟨user.ID⟩ c.refreshTokenTime).1⟩, none),
            { db with
              auth_tokens_id_seq := db.auth_tokens_id_seq + 1,
              auth_tokens := db.auth_tokens ++
                [{ id := db.auth_tokens_id_seq, user_id := user.ID,
                   access_token := some (c.newToken now ⟨user.ID⟩ c.accessTokenTime).1,
                   refresh_token := (c.newToken now ⟨user.ID⟩ c.refreshTokenTime).1,
                   created_at := now, updated_at := now,
                   access_expires_at := some (time.Add now time.Hour),
                   refresh_expires_at := some (time.Add now (30 * 24 * time.Hour)) }] }) := by
  have hany : db.users.any (fun u => u.ID = user.ID) = true := by
    have hmem := List.mem_of_find?_eq_some hu
    simp only [List.any_eq_true, decide_eq_true_eq]
    exact ⟨user, hmem, rfl⟩
  have hget := repo.GetUserByUsername_reachable r db req.Username user hreach hu
  simp only [authServer.Login, hval, hrepo, hjwt, hget, hp, jwt.jwtClient.asJWTClient,
    jwt.CreateToken_eq c hsize]
  rw [repo.NewAuthToken_reachable r now db _ hreach]
  split_ifs with h1 h2
  · simp [fail, statusError, ErrUnknown]
  · exact absurd hany h2.2
  · simp

/-- On the SQL repository with the signing client, `Refresh` accepts a pair of tokens
issued for `I` when the refresh token is unexpired and is the token of the first
session record of `I`. -/
theorem Refresh_first_record_accepted (a : authServer repo.Database) (r : repo.repository)
    (c : jwt.jwtClient) (hrepo : a.repo = r.asRepository) (hjwt : a.jwt = c.asJWTClient)
    (hk : c.publicKey.id = c.privateKey.id) (hsize : 62 ≤ c.privateKey.size)
    (I : uuid.UUID) (t1 t2 now : time.Time) (db : repo.Database) (rest : List TokenString)
    (hreach : db.reachable = true)
    (hsess : (db.sessions I).map (fun x => x.refresh_token)
      = (c.newToken t2 ⟨I⟩ c.refreshTokenTime).1 :: rest)
    (hvalid : time.Unix now < time.Unix (time.Add t2 c.refreshTokenTime)) :
    a.Refresh now ⟨(c.newToken t1 ⟨I⟩ c.accessTokenTime).1,
        (c.newToken t2 ⟨I⟩ c.refreshTokenTime).1⟩ db
      = (.returns (some ⟨(c.newToken now ⟨I⟩ c.accessTokenTime).1,
            (c.newToken now ⟨I⟩ c.refreshTokenTime).1⟩, none),
          { db with auth_tokens := db.auth_tokens.map (fun x =>
              if x.user_id = I then
                { x with refresh_token := (c.newToken now ⟨I⟩ c.refreshTokenTime).1,
                         updated_at := now }
              else x) }) := by
  have hv := jwt.ValidateToken_newToken c hsize hk t2 ⟨I⟩ c.refreshTokenTime now
  rw [if_pos hvalid] at hv
  have ha := jwt.GetDataFromToken_newToken c hsize hk t1 ⟨I⟩ c.accessTokenTime now
  have hr := jwt.GetDataFromToken_newToken c hsize hk t2 ⟨I⟩ c.refreshTokenTime now
  have hg := repo.GetRefreshToken_reachable r db I hreach
  rw [hsess] at hg
  simp only [authServer.Refresh, hjwt, hrepo, jwt.jwtClient.asJWTClient, hv, ha, hr, hg,
    jwt.CreateToken_eq c hsize]
  rw [repo.UpdateRefreshToken_reachable r now db _ hreach]
  simp

/-- On the SQL repository with the signing client, `Refresh` rejects with
`Unauthenticated` a refresh token issued for `I` that is not the token of the first
session record of `I`, whatever the instant and the access token. -/
theorem Refresh_other_record_rejected (a : authServer repo.Database) (r : repo.repository)
    (c : jwt.jwtClient) (hrepo : a.repo = r.asRepository) (hjwt : a.jwt = c.asJWTClient)
    (hk : c.publicKey.id = c.privateKey.id) (hsize : 62 ≤ c.privateKey.size)
    (I : uuid.UUID) (t2 now : time.Time) (accessToken first : TokenString) (db : repo.Database)
    (rest : List TokenString) (hreach : db.reachable = true)
    (hsess : (db.sessions I).map (fun x => x.refresh_token) = first :: rest)
    (hne : (c.newToken t2 ⟨I⟩ c.refreshTokenTime).1 ≠ first) :
    a.Refresh now ⟨accessToken, (c.newToken t2 ⟨I⟩ c.refreshTokenTime).1⟩ db
      = (.returns (none, some (.status .Unauthenticated "not authorized")), db) := by
  have hv := jwt.ValidateToken_newToken c hsize hk t2 ⟨I⟩ c.refreshTokenTime now
  have hr := jwt.GetDataFromToken_newToken c hsize hk t2 ⟨I⟩ c.refreshTokenTime now
  have hg := repo.GetRefreshToken_reachable r db I hreach
  rw [hsess] at hg
  have hne' : ¬ first = (c.newToken t2 ⟨I⟩ c.refreshTokenTime).1 := fun h => hne h.symm
  by_cases hvalid : time.Unix now < time.Unix (time.Add t2 c.refreshTokenTime)
  swap
  · rw [if_neg hvalid] at hv
    split_ifs at hv <;>
      simp [authServer.Refresh, hjwt, jwt.jwtClient.asJWTClient, hv, fail, statusError,
        ErrValidateJwt]
  rw [if_pos hvalid] at hv
  rcases jwt.GetDataFromToken_returns c now accessToken with ⟨x, ha⟩ | ⟨e, ha⟩
  swap
  · simp [authServer.Refresh, hjwt, jwt.jwtClient.asJWTClient, hv, ha, fail, statusError,
      ErrValidateJwt]
  by_cases hxI : x.UserId ≠ I
  · simp [authServer.Refresh, hjwt, jwt.jwtClient.asJWTClient, hv, ha, hr, hxI, fail,
      statusError, ErrValidateJwt]
  · simp [authServer.Refresh, hjwt, hrepo, jwt.jwtClient.asJWTClient, hv, ha, hr, hxI, hg,
      hne', fail, statusError, ErrValidateJwt]

/-- For every repository, with the signing client: `Refresh` accepts a pair of tokens
issued for `I` when the refresh token is unexpired and is the token that the fetch
returns first; it then returns a new pair when the overwrite reports no error. -/
theorem Refresh_first_fetched_accepted {σ : Type} (a : authServer σ) (c : jwt.jwtClient)
    (hjwt : a.jwt = c.asJWTClient) (hk : c.publicKey.id = c.privateKey.id)
    (hsize : 62 ≤ c.privateKey.size) (I : uuid.UUID) (t1 t2 now : time.Time) (s s' : σ)
    (rest : List TokenString)
    (hfetch : a.repo.GetRefreshToken s ⟨I⟩
      = (((c.newToken t2 ⟨I⟩ c.refreshTokenTime).1 :: rest, none), s'))
    (hvalid : time.Unix now < time.Unix (time.Add t2 c.refreshTokenTime))
    (hupd : (a.repo.UpdateRefreshToken now s'
      { Token := (c.newToken now ⟨I⟩ c.refreshTokenTime).1, UpdatedAt := some now,
        UserID := I }).1 = none) :
    (a.Refresh now ⟨(c.newToken t1 ⟨I⟩ c.accessTokenTime).1,
        (c.newToken t2 ⟨I⟩ c.refreshTokenTime).1⟩ s).1
      = .returns (some ⟨(c.newToken now ⟨I⟩ c.accessTokenTime).1,
          (c.newToken now ⟨I⟩ c.refreshTokenTime).1⟩, none) := by
  have hv := jwt.ValidateToken_newToken c hsize hk t2 ⟨I⟩ c.refreshTokenTime now
  rw [if_pos hvalid] at hv
  have ha := jwt.GetDataFromToken_newToken c hsize hk t1 ⟨I⟩ c.accessTokenTime now
  have hr := jwt.GetDataFromToken_newToken c hsize hk t2 ⟨I⟩ c.refreshTokenTime now
  rcases hu : a.repo.UpdateRefreshToken now s'
    { Token := (c.newToken now ⟨I⟩ c.refreshTokenTime).1, UpdatedAt := some now,
      UserID := I } with ⟨e, s''⟩
  rw [hu] at hupd
  simp only at hupd
  subst hupd
  simp [authServer.Refresh, hjwt, jwt.jwtClient.asJWTClient, hv, ha, hr, hfetch,
    jwt.CreateToken_eq c hsize, hu]

/-- For every repository, with the signing client: `Refresh` rejects with
`Unauthenticated` a refresh token issued for `I` that is not the token that the
fetch returns first, whatever the instant and the access token. -/
theorem Refresh_not_first_fetched_rejected {σ : Type} (a : authServer σ) (c : jwt.jwtClient)
    (hjwt : a.jwt = c.asJWTClient) (hk : c.publicKey.id = c.privateKey.id)
    (hsize : 62 ≤ c.privateKey.size) (I : uuid.UUID) (t2 now : time.Time)
    (accessToken first : TokenString) (s s' : σ) (rest : List TokenString)
    (hfetch : a.repo.GetRefreshToken s ⟨I⟩ = ((first :: rest, none), s'))
    (hne : (c.newToken t2 ⟨I⟩ c.refreshTokenTime).1 ≠ first) :
    (a.Refresh now ⟨accessToken, (c.newToken t2 ⟨I⟩ c.refreshTokenTime).1⟩ s).1
      = .returns (none, some (.status .Unauthenticated "not authorized")) := by
  have hv := jwt.ValidateToken_newToken c hsize hk t2 ⟨I⟩ c.refreshTokenTime now
  have hr := jwt.GetDataFromToken_newToken c hsize hk t2 ⟨I⟩ c.refreshTokenTime now
  have hne' : ¬ first = (c.newToken t2 ⟨I⟩ c.refreshTokenTime).1 := fun h => hne h.symm
  by_cases hvalid : time.Unix now < time.Unix (time.Add t2 c.refreshTokenTime)
  swap
  · rw [if_neg hvalid] at hv
    split_ifs at hv <;>
      simp [authServer.Refresh, hjwt, jwt.jwtClient.asJWTClient, hv, fail, statusError,
        ErrValidateJwt]
  rw [if_pos hvalid] at hv
  rcases jwt.GetDataFromToken_returns c now accessToken with ⟨x, ha⟩ | ⟨e, ha⟩
  swap
  · simp [authServer.Refresh, hjwt, jwt.jwtClient.asJWTClient, hv, ha, fail, statusError,
      ErrValidateJwt]
  by_cases hxI : x.UserId ≠ I
  · simp [authServer.Refresh, hjwt, jwt.jwtClient.asJWTClient, hv, ha, hr, hxI, fail,
      statusError, ErrValidateJwt]
  · simp [authServer.Refresh, hjwt, jwt.jwtClient.asJWTClient, hv, ha, hr, hxI, hfetch,
      hne', fail, statusError, ErrValidateJwt]

/-- C4 (as stated, refuted): the table `auth_tokens` of `db0` has no uniqueness
constraint on `user_id`. Alice logs in at `t0` and again five seconds later, both
times with success; the store then holds two session records for her, one with the
refresh token of each Login. -/
theorem Login_twice_leaves_two_records :
    db0.schema.auth_tokens_user_id_unique = false
    ∧ (server.Login t0 loginReq db0).1 = .returns (some ⟨access0, refresh0⟩, none)
    ∧ (server.Login (t0 + 5 * time.Second) loginReq (server.Login t0 loginReq db0).2).1
      = .returns (some ⟨tokenFor 1700000905, tokenFor 1700003605⟩, none)
    ∧ ((server.Login (t0 + 5 * time.Second) loginReq
          (server.Login t0 loginReq db0).2).2.sessions aliceID).length = 2
    ∧ refresh0 ∈ ((server.Login (t0 + 5 * time.Second) loginReq
          (server.Login t0 loginReq db0).2).2.sessions aliceID).map (fun x => x.refresh_token)
    ∧ tokenFor 1700003605 ∈ ((server.Login (t0 + 5 * time.Second) loginReq
          (server.Login t0 loginReq db0).2).2.sessions aliceID).map (fun x => x.refresh_token) := by
  decide

/-- C4 (amended): on the SQL repository with the signing client, a successful `Login`
of a user without a session record leaves exactly one record, holding the returned
refresh token. A second `Login` of that user does not replace it: where
`auth_tokens.user_id` is unique it fails with `Internal` and the record stays;
otherwise it succeeds and the store holds two records of the user, one with the
refresh token of each Login. For every server with the same client whose fetch
returns these two tokens in some order, and the two tokens being different strings,
`Refresh` accepts the Login token that the fetch returns first, while it is unexpired
and the overwrite reports no error, and rejects the other Login token with
`Unauthenticated`. -/
theorem Login_twice (a : authServer repo.Database) (r : repo.repository)
    (c : jwt.jwtClient) (hrepo : a.repo = r.asRepository) (hjwt : a.jwt = c.asJWTClient)
    (hk : c.publicKey.id = c.privateKey.id) (now1 now2 : time.Time) (req : LoginRequest)
    (db db1 : repo.Database) (resp1 : LoginResponse) (user : repo.User)
    (h1 : a.Login now1 req db = (.returns (some resp1, none), db1))
    (hu : db.users.find? (fun u => u.Username = req.Username) = some user)
    (h0 : db.sessions user.ID = []) :
    (db1.sessions user.ID).map (fun x => x.refresh_token) = [resp1.RefreshToken]
    ∧ (db.schema.auth_tokens_user_id_unique = true →
        (a.Login now2 req db1).1
          = .returns (none, some (.status .Internal
              "try it a little later or check the data you entered"))
        ∧ ((a.Login now2 req db1).2.sessions user.ID).map (fun x => x.refresh_token)
          = [resp1.RefreshToken])
    ∧ (db.schema.auth_tokens_user_id_unique = false →
        ∃ resp2 db2, a.Login now2 req db1 = (.returns (some resp2, none), db2)
          ∧ (db2.sessions user.ID).length = 2
          ∧ ((db2.sessions user.ID).map (fun x => x.refresh_token)).Perm
              [resp1.RefreshToken, resp2.RefreshToken]
          ∧ ∀ (τ : Type) (b : authServer τ) (s s' : τ) (fetched : List TokenString),
              b.jwt = c.asJWTClient →
              b.repo.GetRefreshToken s ⟨user.ID⟩ = ((fetched, none), s') →
              fetched.Perm ((db2.sessions user.ID).map (fun x => x.refresh_token)) →
              resp2.RefreshToken ≠ resp1.RefreshToken →
              (fetched.head? = some resp1.RefreshToken
                ∧ (∀ now, time.Unix now < time.Unix (time.Add now1 c.refreshTokenTime) →
                    (b.repo.UpdateRefreshToken now s'
                      { Token := (c.newToken now ⟨user.ID⟩ c.refreshTokenTime).1,
                        UpdatedAt := some now, UserID := user.ID }).1 = none →
                    ∃ pair, (b.Refresh now ⟨resp1.AccessToken, resp1.RefreshToken⟩ s).1
                      = .returns (some pair, none))
                ∧ ∀ now accessToken,
                    (b.Refresh now ⟨accessToken, resp2.RefreshToken⟩ s).1
                      = .returns (none, some (.status .Unauthenticated "not authorized")))
              ∨ (fetched.head? = some resp2.RefreshToken
                ∧ (∀ now, time.Unix now < time.Unix (time.Add now2 c.refreshTokenTime) →
                    (b.repo.UpdateRefreshToken now s'
                      { Token := (c.newToken now ⟨user.ID⟩ c.refreshTokenTime).1,
                        UpdatedAt := some now, UserID := user.ID }).1 = none →
                    ∃ pair, (b.Refresh now ⟨resp2.AccessToken, resp2.RefreshToken⟩ s).1
                      = .returns (some pair, none))
                ∧ ∀ now accessToken,
                    (b.Refresh now ⟨accessToken, resp1.RefreshToken⟩ s).1
                      = .returns (none, some (.status .Unauthenticated "not authorized")))) := by
  obtain ⟨hval, user', s1, tokens, e, hget, hp, hct, _, _⟩ := Login_success a now1 req db db1 resp1 h1
  rw [hrepo] at hget
  obtain ⟨_, hreach, hu'⟩ := repo.GetUserByUsername_some r db s1 req.Username user' hget
  have huser : user' = user := by
    rw [hu] at hu'
    exact (Option.some.inj hu').symm
  subst huser
  have hsize : 62 ≤ c.privateKey.size := by
    rw [hjwt] at hct
    simp only [jwt.jwtClient.asJWTClient, Outcome.returns.injEq] at hct
    exact jwt.CreateToken_some c now1 ⟨user'.ID⟩ tokens e hct
  -- the first Login appended one record
  have hnone : db.auth_tokens.any (fun x => x.user_id = user'.ID) = false := by
    simp only [repo.Database.sessions, List.filter_eq_nil_iff] at h0
    simpa using h0
  have hL1 := Login_known_user a r c hrepo hjwt now1 req db user' hval hreach hu hp hsize
  rw [h1] at hL1
  simp only [hnone, Bool.false_eq_true, and_false, if_false, Prod.mk.injEq, Outcome.returns.injEq,
    Option.some.injEq, and_true] at hL1
  obtain ⟨hresp1, hdb1⟩ := hL1
  have hR1 : resp1.RefreshToken = (c.newToken now1 ⟨user'.ID⟩ c.refreshTokenTime).1 := by
    rw [hresp1]
  have hA1 : resp1.AccessToken = (c.newToken now1 ⟨user'.ID⟩ c.accessTokenTime).1 := by
    rw [hresp1]
  have hreach1 : db1.reachable = true := by rw [hdb1]; exact hreach
  have hu1 : db1.users.find? (fun u => u.Username = req.Username) = some user' := by
    rw [hdb1]; exact hu
  have hschema1 : db1.schema = db.schema := by rw [hdb1]
  have hsess1 : (db1.sessions user'.ID).map (fun x => x.refresh_token) = [resp1.RefreshToken] := by
    rw [hdb1, hR1]
    simp only [repo.Database.sessions] at h0 ⊢
    simp [List.filter_append, h0]
  have hany1 : db1.auth_tokens.any (fun x => x.user_id = user'.ID) = true := by
    rw [hdb1]
    simp
  have hL2 := Login_known_user a r c hrepo hjwt now2 req db1 user' hval hreach1 hu1 hp hsize
  refine ⟨hsess1, ?_, ?_⟩
  · intro huniq
    rw [hschema1, huniq, hany1] at hL2
    simp only [and_self, if_true] at hL2
    rw [hL2]
    refine ⟨rfl, ?_⟩
    simpa [repo.Database.sessions] using hsess1
  · intro huniq
    rw [hschema1, huniq] at hL2
    simp only [Bool.false_eq_true, false_and, if_false] at hL2
    have hsess2 := repo.sessions_after_insert db1.auth_tokens
      { id := db1.auth_tokens_id_seq, user_id := user'.ID,
        access_token := some (c.newToken now2 ⟨user'.ID⟩ c.accessTokenTime).1,
        refresh_token := (c.newToken now2 ⟨user'.ID⟩ c.refreshTokenTime).1,
        created_at := now2, updated_at := now2,
        access_expires_at := some (time.Add now2 time.Hour),
        refresh_expires_at := some (time.Add now2 (30 * 24 * time.Hour)) }
      user'.ID [resp1.RefreshToken] hsess1 rfl
    simp only [List.cons_append, List.nil_append] at hsess2
    refine ⟨_, _, hL2, ?_, ?_, ?_⟩
    · have hlen := congrArg List.length hsess2
      simp only [List.length_map] at hlen
      simpa [repo.Database.sessions] using hlen
    · simp only [repo.Database.sessions]
      rw [hsess2]
    · intro τ b s s' fetched hbjwt hfetch hperm hne
      simp only [repo.Database.sessions] at hperm
      rw [hsess2] at hperm
      have hlen : fetched.length = 2 := by
        have := hperm.length_eq
        simpa using this
      cases fetched with
      | nil => simp at hlen
      | cons first rest =>
      have hmem : first ∈ [resp1.RefreshToken, (c.newToken now2 ⟨user'.ID⟩ c.refreshTokenTime).1] :=
        hperm.subset (List.mem_cons_self first rest)
      simp only [List.mem_cons, List.mem_singleton, List.not_mem_nil, or_false] at hmem
      rcases hmem with hfirst | hfirst
      · left
        subst hfirst
        refine ⟨rfl, ?_, ?_⟩
        · intro now hvalid hupd
          rw [hR1] at hfetch
          rw [hA1, hR1]
          exact ⟨_, Refresh_first_fetched_accepted b c hbjwt hk hsize user'.ID now1 now1 now s s'
            rest hfetch hvalid hupd⟩
        · intro now accessToken
          exact Refresh_not_first_fetched_rejected b c hbjwt hk hsize user'.ID now2 now
            accessToken _ s s' rest hfetch hne
      · right
        subst hfirst
        refine ⟨rfl, ?_, ?_⟩
        · intro now hvalid hupd
          exact ⟨_, Refresh_first_fetched_accepted b c hbjwt hk hsize user'.ID now2 now2 now s s'
            rest hfetch hvalid hupd⟩
        · intro now accessToken
          rw [hR1]
          refine Refresh_not_first_fetched_rejected b c hbjwt hk hsize user'.ID now1 now
            accessToken _ s s' rest hfetch ?_
          rw [← hR1]
          exact fun h => hne h.symm

/-- Witness of C4: alice's two Logins at `t0` and five seconds later, on a store
without a record of her and without the uniqueness constraint. -/
theorem Login_twice_witness :
    server.Login t0 loginReq db0 = (.returns (some ⟨access0, refresh0⟩, none), db1)
    ∧ db0.users.find? (fun u => u.Username = loginReq.Username) = some alice
    ∧ db0.sessions alice.ID = []
    ∧ db0.schema.auth_tokens_user_id_unique = false
    ∧ (db1.sessions alice.ID).map (fun x => x.refresh_token) = [refresh0]
    ∧ ∃ resp2 db2,
        server.Login (t0 + 5 * time.Second) loginReq db1 = (.returns (some resp2, none), db2)
        ∧ (db2.sessions alice.ID).length = 2 := by
  have h := Login_twice server {} client rfl rfl (by decide) t0 (t0 + 5 * time.Second) loginReq
    db0 db1 ⟨access0, refresh0⟩ alice (by decide) (by decide) (by decide)
  obtain ⟨resp2, db2, hL, hlen, _, _⟩ := h.2.2 (by decide)
  exact ⟨by decide, by decide, by decide, by decide, h.1, resp2, db2, hL, hlen⟩

/-- After alice's two Logins the outcome of `Refresh` follows the order of the fetch:
with the rows in table order the token of the first Login is accepted and the token
of the second Login rejected, with the newest row first it is the other way round. -/
theorem Refresh_after_two_Logins_follows_fetch_order :
    (server.Refresh (t0 + 6 * time.Second) ⟨access0, refresh0⟩ db1Twice).1
      = .returns (some ⟨tokenFor 1700000906, tokenFor 1700003606⟩, none)
    ∧ (server.Refresh (t0 + 6 * time.Second) ⟨tokenFor 1700000905, tokenFor 1700003605⟩
        db1Twice).1
      = .returns (none, some (.status .Unauthenticated "not authorized"))
    ∧ (newestFirstServer.Refresh (t0 + 6 * time.Second)
        ⟨tokenFor 1700000905, tokenFor 1700003605⟩ db1Twice).1
      = .returns (some ⟨tokenFor 1700000906, tokenFor 1700003606⟩, none)
    ∧ (newestFirstServer.Refresh (t0 + 6 * time.Second) ⟨access0, refresh0⟩ db1Twice).1
      = .returns (none, some (.status .Unauthenticated "not authorized")) := by
  decide

/-- C13 (as stated, refuted): alice logged in at `t0`; one second later `Validate`
given her refresh token as access token returns her identity, and `Refresh` given
her refresh token in both fields returns a new pair. -/
theorem refresh_token_passes_as_access_token :
    server.Login t0 loginReq db0 = (.returns (some ⟨access0, refresh0⟩, none), db1)
    ∧ server.Validate (t0 + time.Second) ⟨refresh0⟩ db1
      = (.returns (some ⟨"123e4567-e89b-12d3-a456-426614174000"⟩, none), db1)
    ∧ server.Refresh (t0 + time.Second) ⟨refresh0, refresh0⟩ db1
      = (.returns (some ⟨tokenFor 1700000901, tokenFor 1700003601⟩, none), db1Rotated) := by
  decide

/-- C13 (amended): on the SQL repository with the signing client, the refresh token
of a pair issued by `CreateToken` for `I` is accepted where an access token is
expected while it is unexpired: when the store can be read and holds a session
record of `I`, `Validate` given it as access token returns `I`, and when it is the
token of the first session record of `I`, `Refresh` given it in both fields returns
a new pair and overwrites the stored token. -/
theorem refresh_token_accepted_as_access_token (a : authServer repo.Database)
    (r : repo.repository) (c : jwt.jwtClient) (hrepo : a.repo = r.asRepository)
    (hjwt : a.jwt = c.asJWTClient) (hk : c.publicKey.id = c.privateKey.id)
    (hsize : 62 ≤ c.privateKey.size) (I : uuid.UUID) (t now : time.Time) (db : repo.Database)
    (hreach : db.reachable = true)
    (hvalid : time.Unix now < time.Unix (time.Add t c.refreshTokenTime)) :
    (∃ issued, c.CreateToken t ⟨I⟩ = (some issued, none)
      ∧ issued.RefreshToken = (c.newToken t ⟨I⟩ c.refreshTokenTime).1)
    ∧ (db.sessions I ≠ [] →
        a.Validate now ⟨(c.newToken t ⟨I⟩ c.refreshTokenTime).1⟩ db
          = (.returns (some ⟨I.String⟩, none), db))
    ∧ (∀ rest, (db.sessions I).map (fun x => x.refresh_token)
          = (c.newToken t ⟨I⟩ c.refreshTokenTime).1 :: rest →
        a.Refresh now ⟨(c.newToken t ⟨I⟩ c.refreshTokenTime).1,
            (c.newToken t ⟨I⟩ c.refreshTokenTime).1⟩ db
          = (.returns (some ⟨(c.newToken now ⟨I⟩ c.accessTokenTime).1,
                (c.newToken now ⟨I⟩ c.refreshTokenTime).1⟩, none),
              { db with auth_tokens := db.auth_tokens.map (fun x =>
                  if x.user_id = I then
                    { x with refresh_token := (c.newToken now ⟨I⟩ c.refreshTokenTime).1,
                             updated_at := now }
                  else x) })) := by
  have hv := jwt.ValidateToken_newToken c hsize hk t ⟨I⟩ c.refreshTokenTime now
  rw [if_pos hvalid] at hv
  have hr := jwt.GetDataFromToken_newToken c hsize hk t ⟨I⟩ c.refreshTokenTime now
  have hg := repo.GetRefreshToken_reachable r db I hreach
  refine ⟨⟨_, jwt.CreateToken_eq c hsize t ⟨I⟩, rfl⟩, ?_, ?_⟩
  · intro _
    simp [authServer.Validate, hjwt, hrepo, jwt.jwtClient.asJWTClient, hv, hr, hg]
  · intro rest hsess
    rw [hsess] at hg
    simp only [authServer.Refresh, hjwt, hrepo, jwt.jwtClient.asJWTClient, hv, hr, hg,
      jwt.CreateToken_eq c hsize]
    rw [repo.UpdateRefreshToken_reachable r now db _ hreach]
    simp

/-- Witness of C13: alice's refresh token of `t0`, one second later. -/
theorem refresh_token_accepted_as_access_token_witness :
    db1.reachable = true
    ∧ db1.sessions aliceID ≠ []
    ∧ time.Unix (t0 + time.Second) < time.Unix (time.Add t0 client.refreshTokenTime)
    ∧ server.Validate (t0 + time.Second) ⟨(client.newToken t0 ⟨aliceID⟩
          client.refreshTokenTime).1⟩ db1
        = (.returns (some ⟨aliceID.String⟩, none), db1) :=
  ⟨by decide, by decide, by decide,
    (refresh_token_accepted_as_access_token server {} client rfl rfl (by decide) (by decide)
      aliceID t0 (t0 + time.Second) db1 (by decide) (by decide)).2.1 (by decide)⟩

/-- C14 (as stated, refuted): for an unknown username `Login` fails with `NotFound`
and the message "user not found", for alice with a wrong password it fails with
`Unauthenticated` and the message "invalid username or password"; the two errors
differ. -/
theorem Login_reveals_unknown_username :
    server.Login t0 ⟨"mallory", "Abcd123!"⟩ db0
      = (.returns (none, some (.status .NotFound "user not found")), db0)
    ∧ server.Login t0 ⟨"alice", "wrong"⟩ db0
      = (.returns (none, some (.status .Unauthenticated "invalid username or password")), db0)
    ∧ (server.Login t0 ⟨"mallory", "Abcd123!"⟩ db0).1 ≠ (server.Login t0 ⟨"alice", "wrong"⟩ db0).1 := by
  decide

/-- C14 (amended): for a request that passes validation, `Login` fails with
`NotFound` and the message "user not found" when the lookup of the username reports
an error, and with `Unauthenticated` and the message "invalid username or password"
when the user exists and the password does not verify; the two errors differ, in
code and in message. -/
theorem Login_failure_codes {σ : Type} (a : authServer σ) (now : time.Time)
    (req : LoginRequest) (s : σ) (hval : a.validateLogin req = none) :
    (∀ u e s', a.repo.GetUserByUsername s req.Username = ((u, some e), s') →
        a.Login now req s = (.returns (none, some (.status .NotFound "user not found")), s'))
    ∧ (∀ user e s', a.repo.GetUserByUsername s req.Username = ((some user, none), s') →
        a.CheckPassword user.HashedPassword req.Password = some e →
        a.Login now req s
          = (.returns (none, some (.status .Unauthenticated "invalid username or password")),
              s'))
    ∧ Error.status .NotFound "user not found"
        ≠ Error.status .Unauthenticated "invalid username or password" := by
  refine ⟨?_, ?_, by decide⟩
  · intro u e s' hg
    simp [authServer.Login, hval, hg, fail, statusError]
  · intro user e s' hg hp
    simp [authServer.Login, hval, hg, hp, fail, statusError]

/-- Witness of C14: alice with a wrong password. -/
theorem Login_failure_codes_witness :
    server.validateLogin ⟨"alice", "wrong"⟩ = none
    ∧ server.Login t0 ⟨"alice", "wrong"⟩ db0
      = (.returns (none, some (.status .Unauthenticated "invalid username or password")), db0) :=
  ⟨by decide,
    (Login_failure_codes server t0 ⟨"alice", "wrong"⟩ db0 (by decide)).2.1 alice "mismatch" db0
      (by decide) (by decide)⟩

/-- C15: when a `Register` request passes the structural validation and
`IsValidPassword` rejects its password, `Register` fails with `InvalidArgument`,
carrying the reason of the policy, or "invalid password" when there is none; the store
is untouched and the call recorder of the repository notes no call, so `CreateUser`
is not called. -/
theorem Register_rejected_password {σ : Type} (a : authServer σ) (now : time.Time)
    (req : RegisterRequest) (s : σ) (log : List repo.Call) (reason : Option String)
    (hval : a.validateRegister req = none)
    (hpw : a.IsValidPassword req.Password = (false, reason)) :
    a.Register now req s
      = (.returns (none, some (.status .InvalidArgument (reason.getD "invalid password"))), s)
    ∧ a.recorded.Register now req (s, log)
      = (.returns (none, some (.status .InvalidArgument (reason.getD "invalid password"))),
          (s, log)) := by
  constructor <;>
    cases reason <;>
    simp [authServer.Register, authServer.recorded, hval, hpw, fail, statusError]

/-- Witness of C15: the registration of alice with the password "short". -/
theorem Register_rejected_password_witness :
    policyServer.validateRegister ⟨"alice", "short", "a@x.com"⟩ = none
    ∧ policyServer.IsValidPassword "short" = (false, some PasswordValidateErr)
    ∧ policyServer.recorded.Register t0 ⟨"alice", "short", "a@x.com"⟩ (db0, [])
      = (.returns (none, some (.status .InvalidArgument PasswordValidateErr)), (db0, [])) :=
  ⟨by decide, by decide,
    (Register_rejected_password policyServer t0 ⟨"alice", "short", "a@x.com"⟩ db0 []
      (some PasswordValidateErr) (by decide) (by decide)).2⟩

/-- C16: when `ValidateToken` accepts the access token, `GetDataFromToken` returns
the identity `I` and the fetch returns a list of tokens with a nil error, `Validate`
returns the text of `I`, whatever the tokens in the list are. On every request
`Validate` calls no repository method or only the fetch `GetRefreshToken`, which is
not a writing method. -/
theorem Validate_returns_identity {σ : Type} (a : authServer σ) (now : time.Time)
    (req : ValidateRequest) (s : σ) (log : List repo.Call) :
    (∀ I tokens s', a.jwt.ValidateToken now ⟨req.AccessToken⟩ = .returns (true, none) →
        a.jwt.GetDataFromToken now ⟨req.AccessToken⟩ = .returns (some ⟨I⟩, none) →
        a.repo.GetRefreshToken s ⟨I⟩ = ((tokens, none), s') →
        a.Validate now req s = (.returns (some ⟨I.String⟩, none), s'))
    ∧ ((a.recorded.Validate now req (s, log)).2.2 = log
      ∨ ∃ p, (a.recorded.Validate now req (s, log)).2.2 = log ++ [.GetRefreshToken p]
          ∧ repo.Call.mutates (.GetRefreshToken p) = false) := by
  constructor
  · intro I tokens s' hv ha hg
    exact Validate_ignores_fetched_tokens a now req s s' I tokens hv ha hg
  · rcases hv : a.jwt.ValidateToken now ⟨req.AccessToken⟩ with ⟨check, err⟩ | reason
    swap
    · simp [authServer.Validate, authServer.recorded, hv]
    by_cases hc : err ≠ none ∨ check = false
    · simp [authServer.Validate, authServer.recorded, hv, hc]
    rcases ha : a.jwt.GetDataFromToken now ⟨req.AccessToken⟩ with ⟨d, e⟩ | reason
    swap
    · simp [authServer.Validate, authServer.recorded, hv, hc, ha]
    cases e with
    | some e => simp [authServer.Validate, authServer.recorded, hv, hc, ha]
    | none =>
    cases d with
    | none => simp [authServer.Validate, authServer.recorded, hv, hc, ha]
    | some accessData =>
    right
    refine ⟨⟨accessData.UserId⟩, ?_, rfl⟩
    rcases hg : a.repo.GetRefreshToken s ⟨accessData.UserId⟩ with ⟨⟨tokens, e⟩, s'⟩
    cases e with
    | none =>
      simp [authServer.Validate, authServer.recorded, repo.Repository.recorded, hv, hc, ha, hg]
    | some err =>
      by_cases herr : err = .ErrNoRows <;>
        simp [authServer.Validate, authServer.recorded, repo.Repository.recorded, hv, hc, ha,
          hg, herr]

/-- Witness of C16: alice's access token, with a session record that holds another
token than the one issued with it. -/
theorem Validate_returns_identity_witness :
    server.jwt.ValidateToken (t0 + time.Second) ⟨access0⟩ = .returns (true, none)
    ∧ server.repo.GetRefreshToken db1Rotated ⟨aliceID⟩ = (([tokenFor 1700003601], none), db1Rotated)
    ∧ server.Validate (t0 + time.Second) ⟨access0⟩ db1Rotated
      = (.returns (some ⟨aliceID.String⟩, none), db1Rotated) :=
  ⟨by decide, by decide,
    (Validate_returns_identity server (t0 + time.Second) ⟨access0⟩ db1Rotated []).1 aliceID
      [tokenFor 1700003601] db1Rotated (by decide) (by decide) (by decide)⟩

/-- When `CreateToken` returns no pair, `Login` of a known user with a matching
password panics on the nil pointer, after the lookup and before any write. -/
theorem Login_panics_without_tokens {σ : Type} (a : authServer σ) (now : time.Time)
    (req : LoginRequest) (s s' : σ) (user : repo.User) (e : Option String)
    (hval : a.validateLogin req = none)
    (hg : a.repo.GetUserByUsername s req.Username = ((some user, none), s'))
    (hp : a.CheckPassword user.HashedPassword req.Password = none)
    (hct : a.jwt.CreateToken now ⟨user.ID⟩ = .returns (none, e)) :
    a.Login now req s = (.panics nilDereference, s') := by
  simp [authServer.Login, hval, hg, hp, hct]

/-- C20 (code defect): the client `weakClient` cannot sign, so `CreateToken` returns
an error and no pair; `Login` of alice with her password then panics on the nil
pointer instead of returning `Internal`, while `NewJwt` on the same server returns
`Internal`. -/
theorem Login_panics_when_CreateToken_fails :
    weakClient.CreateToken t0 ⟨aliceID⟩
      = (none, some ("failed to create access token: failed to create signed string from token: "
          ++ "crypto/rsa: message too long for RSA key size"))
    ∧ weakKeyServer.Login t0 loginReq db0 = (.panics nilDereference, db0)
    ∧ weakKeyServer.NewJwt t0 ⟨"123e4567-e89b-12d3-a456-426614174000"⟩ db0
      = (.returns (none, some (.status .Internal
          "try it a little later or check the data you entered")), db0) := by
  decide

/-- A call of `Refresh` is its first part followed by its second part. -/
theorem Refresh_eq_steps {σ : Type} (a : authServer σ) (now : time.Time) (req : RefreshRequest)
    (s : σ) :
    a.Refresh now req s
      = a.refreshFinish now (a.refreshCheck now req s).1 (a.refreshCheck now req s).2 := by
  rcases hv : a.jwt.ValidateToken now ⟨req.RefreshToken⟩ with ⟨check, err⟩ | r
  swap
  · simp [authServer.Refresh, authServer.refreshCheck, authServer.refreshFinish, hv]
  by_cases hc : err ≠ none ∨ check = false
  · simp [authServer.Refresh, authServer.refreshCheck, authServer.refreshFinish, hv, hc]
  rcases ha : a.jwt.GetDataFromToken now ⟨req.AccessToken⟩ with ⟨da, ea⟩ | r
  swap
  · simp [authServer.Refresh, authServer.refreshCheck, authServer.refreshFinish, hv, hc, ha]
  cases ea with
  | some e =>
    simp [authServer.Refresh, authServer.refreshCheck, authServer.refreshFinish, hv, hc, ha]
  | none =>
  rcases hr : a.jwt.GetDataFromToken now ⟨req.RefreshToken⟩ with ⟨dr, er⟩ | r
  swap
  · simp [authServer.Refresh, authServer.refreshCheck, authServer.refreshFinish, hv, hc, ha, hr]
  cases er with
  | some e =>
    simp [authServer.Refresh, authServer.refreshCheck, authServer.refreshFinish, hv, hc, ha, hr]
  | none =>
  cases da with
  | none =>
    simp [authServer.Refresh, authServer.refreshCheck, authServer.refreshFinish, hv, hc, ha, hr]
  | some x =>
  cases dr with
  | none =>
    simp [authServer.Refresh, authServer.refreshCheck, authServer.refreshFinish, hv, hc, ha, hr]
  | some y =>
  by_cases hxy : x.UserId ≠ y.UserId
  · simp [authServer.Refresh, authServer.refreshCheck, authServer.refreshFinish, hv, hc, ha, hr,
      hxy]
  rcases hg : a.repo.GetRefreshToken s ⟨y.UserId⟩ with ⟨⟨toks, e⟩, s'⟩
  cases e with
  | some err =>
    by_cases herr : err = .ErrNoRows <;>
      simp [authServer.Refresh, authServer.refreshCheck, authServer.refreshFinish, hv, hc, ha,
        hr, hxy, hg, herr]
  | none =>
  cases toks with
  | nil =>
    simp [authServer.Refresh, authServer.refreshCheck, authServer.refreshFinish, hv, hc, ha, hr,
      hxy, hg]
  | cons t rest =>
  by_cases ht : t ≠ req.RefreshToken
  · simp [authServer.Refresh, authServer.refreshCheck, authServer.refreshFinish, hv, hc, ha, hr,
      hxy, hg, ht]
  rcases hct : a.jwt.CreateToken now ⟨y.UserId⟩ with ⟨tokens, e⟩ | r
  swap
  · simp [authServer.Refresh, authServer.refreshCheck, authServer.refreshFinish,
      authServer.refreshRotate, hv, hc, ha, hr, hxy, hg, ht, hct]
  cases e with
  | some e =>
    simp [authServer.Refresh, authServer.refreshCheck, authServer.refreshFinish,
      authServer.refreshRotate, hv, hc, ha, hr, hxy, hg, ht, hct]
  | none =>
  cases tokens with
  | none =>
    simp [authServer.Refresh, authServer.refreshCheck, authServer.refreshFinish,
      authServer.refreshRotate, hv, hc, ha, hr, hxy, hg, ht, hct]
  | some tokens =>
  rcases hu : a.repo.UpdateRefreshToken now s'
    { Token := tokens.RefreshToken, UpdatedAt := some now, UserID := y.UserId } with ⟨e, s''⟩
  cases e <;>
    simp [authServer.Refresh, authServer.refreshCheck, authServer.refreshFinish,
      authServer.refreshRotate, hv, hc, ha, hr, hxy, hg, ht, hct, hu]

/-- On the SQL repository with the signing client, the first part of `Refresh`
passes a pair of tokens issued for `I` when the refresh token is unexpired and is the
token of the first session record of `I`; it leaves the store as it is. -/
theorem refreshCheck_first_record (a : authServer repo.Database) (r : repo.repository)
    (c : jwt.jwtClient) (hrepo : a.repo = r.asRepository) (hjwt : a.jwt = c.asJWTClient)
    (hk : c.publicKey.id = c.privateKey.id) (hsize : 62 ≤ c.privateKey.size)
    (I : uuid.UUID) (t now : time.Time) (db : repo.Database) (rest : List TokenString)
    (hreach : db.reachable = true)
    (hsess : (db.sessions I).map (fun x => x.refresh_token)
      = (c.newToken t ⟨I⟩ c.refreshTokenTime).1 :: rest)
    (hvalid : time.Unix now < time.Unix (time.Add t c.refreshTokenTime)) :
    a.refreshCheck now ⟨(c.newToken t ⟨I⟩ c.accessTokenTime).1,
        (c.newToken t ⟨I⟩ c.refreshTokenTime).1⟩ db = (.inr I, db) := by
  have hv := jwt.ValidateToken_newToken c hsize hk t ⟨I⟩ c.refreshTokenTime now
  rw [if_pos hvalid] at hv
  have ha := jwt.GetDataFromToken_newToken c hsize hk t ⟨I⟩ c.accessTokenTime now
  have hr := jwt.GetDataFromToken_newToken c hsize hk t ⟨I⟩ c.refreshTokenTime now
  have hg := repo.GetRefreshToken_reachable r db I hreach
  rw [hsess] at hg
  simp [authServer.refreshCheck, hjwt, hrepo, jwt.jwtClient.asJWTClient, hv, ha, hr, hg]

/-- On the SQL repository with the signing client and a reachable store, the second
part of `Refresh` returns a new pair and overwrites the token of every session
record of the identity. -/
theorem refreshRotate_reachable (a : authServer repo.Database) (r : repo.repository)
    (c : jwt.jwtClient) (hrepo : a.repo = r.asRepository) (hjwt : a.jwt = c.asJWTClient)
    (hsize : 62 ≤ c.privateKey.size) (I : uuid.UUID) (now : time.Time) (db : repo.Database)
    (hreach : db.reachable = true) :
    a.refreshRotate now I db
      = (.returns (some ⟨(c.newToken now ⟨I⟩ c.accessTokenTime).1,
            (c.newToken now ⟨I⟩ c.refreshTokenTime).1⟩, none),
          { db with auth_tokens := db.auth_tokens.map (fun x =>
              if x.user_id = I then
                { x with refresh_token := (c.newToken now ⟨I⟩ c.refreshTokenTime).1,
                         updated_at := now }
              else x) }) := by
  simp only [authServer.refreshRotate, hjwt, hrepo, jwt.jwtClient.asJWTClient,
    jwt.CreateToken_eq c hsize]
  rw [repo.UpdateRefreshToken_reachable r now db _ hreach]

/-- The error that a failing call of `Refresh` returns is one of three statuses:
`Unauthenticated`, `NotFound` or `Internal`. -/
theorem Refresh_error_codes {σ : Type} (a : authServer σ) (now : time.Time)
    (req : RefreshRequest) (s : σ) (resp : Option RefreshResponse) (e : Error)
    (h : (a.Refresh now req s).1 = .returns (resp, some e)) :
    e = .status .Unauthenticated "not authorized"
    ∨ e = .status .NotFound "refresh token not found"
    ∨ e = .status .Internal "try it a little later or check the data you entered" := by
  rcases hv : a.jwt.ValidateToken now ⟨req.RefreshToken⟩ with ⟨check, err⟩ | r
  swap
  · simp [authServer.Refresh, hv] at h
  by_cases hc : err ≠ none ∨ check = false
  · simp [authServer.Refresh, hv, hc, fail, statusError, ErrValidateJwt] at h
    simp [← h.2]
  rcases ha : a.jwt.GetDataFromToken now ⟨req.AccessToken⟩ with ⟨da, ea⟩ | r
  swap
  · simp [authServer.Refresh, hv, hc, ha] at h
  cases ea with
  | some e' =>
    simp [authServer.Refresh, hv, hc, ha, fail, statusError, ErrValidateJwt] at h
    simp [← h.2]
  | none =>
  rcases hr : a.jwt.GetDataFromToken now ⟨req.RefreshToken⟩ with ⟨dr, er⟩ | r
  swap
  · simp [authServer.Refresh, hv, hc, ha, hr] at h
  cases er with
  | some e' =>
    simp [authServer.Refresh, hv, hc, ha, hr, fail, statusError, ErrValidateJwt] at h
    simp [← h.2]
  | none =>
  cases da with
  | none => simp [authServer.Refresh, hv, hc, ha, hr] at h
  | some x =>
  cases dr with
  | none => simp [authServer.Refresh, hv, hc, ha, hr] at h
  | some y =>
  by_cases hxy : x.UserId ≠ y.UserId
  · simp [authServer.Refresh, hv, hc, ha, hr, hxy, fail, statusError, ErrValidateJwt] at h
    simp [← h.2]
  rcases hg : a.repo.GetRefreshToken s ⟨y.UserId⟩ with ⟨⟨toks, eg⟩, s'⟩
  cases eg with
  | some err =>
    by_cases herr : err = .ErrNoRows
    · simp [authServer.Refresh, hv, hc, ha, hr, hxy, hg, herr, fail, statusError,
        ErrTokenNotFound] at h
      simp [← h.2]
    · simp [authServer.Refresh, hv, hc, ha, hr, hxy, hg, herr, fail, statusError,
        ErrUnknown] at h
      simp [← h.2]
  | none =>
  cases toks with
  | nil =>
    simp [authServer.Refresh, hv, hc, ha, hr, hxy, hg, fail, statusError, ErrTokenNotFound] at h
    simp [← h.2]
  | cons t rest =>
  by_cases ht : t ≠ req.RefreshToken
  · simp [authServer.Refresh, hv, hc, ha, hr, hxy, hg, ht, fail, statusError,
      ErrValidateJwt] at h
    simp [← h.2]
  rcases hct : a.jwt.CreateToken now ⟨y.UserId⟩ with ⟨tokens, ec⟩ | r
  swap
  · simp [authServer.Refresh, hv, hc, ha, hr, hxy, hg, ht, hct] at h
  cases ec with
  | some e' =>
    simp [authServer.Refresh, hv, hc, ha, hr, hxy, hg, ht, hct, fail, statusError,
      ErrUnknown] at h
    simp [← h.2]
  | none =>
  cases tokens with
  | none => simp [authServer.Refresh, hv, hc, ha, hr, hxy, hg, ht, hct] at h
  | some tokens =>
  rcases hu : a.repo.UpdateRefreshToken now s'
    { Token := tokens.RefreshToken, UpdatedAt := some now, UserID := y.UserId } with ⟨eu, s''⟩
  cases eu with
  | none => simp [authServer.Refresh, hv, hc, ha, hr, hxy, hg, ht, hct, hu] at h
  | some e' =>
    simp [authServer.Refresh, hv, hc, ha, hr, hxy, hg, ht, hct, hu, fail, statusError,
      ErrUnknown] at h
    simp [← h.2]

/-- C17 (as stated, refuted): alice holds the stored refresh token `refresh0`; two
calls of `Refresh` present it, and both fetch and compare before either overwrites.
Both calls return a token pair, and the store holds the token of the second. -/
theorem RefreshInterleaved_both_return_pairs :
    server.RefreshInterleaved (t0 + time.Second) ⟨access0, refresh0⟩
        (t0 + 2 * time.Second) ⟨access0, refresh0⟩ db1
      = ((.returns (some ⟨tokenFor 1700000901, tokenFor 1700003601⟩, none),
          .returns (some ⟨tokenFor 1700000902, tokenFor 1700003602⟩, none)),
         { db1 with auth_tokens :=
            [{ sessionRow 1 t0 access0 refresh0 with
                refresh_token := tokenFor 1700003602,
                updated_at := t0 + 2 * time.Second }] }) := by
  decide

/-- C17 (amended): a call of `Refresh` is a first part (verification, fetch and
comparison) followed by a second part (issue and overwrite), with no lock or
transaction around them, and the error of a failing call is `Unauthenticated`,
`NotFound` or `Internal`. On the SQL repository with the signing client, two calls
at `now1` and `now2` present the pair issued at `t` for `I`, whose refresh token is
unexpired and is the token of the first session record of `I`. When both calls run
their first part before either runs its second part, both calls return a token pair
and the session records of `I` end with the refresh token of the call that overwrote
last; the refresh tokens returned to the two calls are the same string exactly when
`now1` and `now2` plus the refresh lifetime fall into the same Unix second. When the
second call runs after the first call has finished, the first call returns a token
pair, and the second call fails with `Unauthenticated` provided `now1` and `t` plus
the refresh lifetime fall into different Unix seconds. -/
theorem RefreshInterleaved_both_succeed (a : authServer repo.Database) (r : repo.repository)
    (c : jwt.jwtClient) (hrepo : a.repo = r.asRepository) (hjwt : a.jwt = c.asJWTClient)
    (hk : c.publicKey.id = c.privateKey.id) (hsize : 62 ≤ c.privateKey.size)
    (I : uuid.UUID) (t now1 now2 : time.Time) (db : repo.Database) (rest : List TokenString)
    (hreach : db.reachable = true)
    (hsess : (db.sessions I).map (fun x => x.refresh_token)
      = (c.newToken t ⟨I⟩ c.refreshTokenTime).1 :: rest)
    (hvalid1 : time.Unix now1 < time.Unix (time.Add t c.refreshTokenTime))
    (hvalid2 : time.Unix now2 < time.Unix (time.Add t c.refreshTokenTime)) :
    (∀ now req s, a.Refresh now req s
        = a.refreshFinish now (a.refreshCheck now req s).1 (a.refreshCheck now req s).2)
    ∧ (∀ now req s resp e, (a.Refresh now req s).1 = .returns (resp, some e) →
        e = .status .Unauthenticated "not authorized"
        ∨ e = .status .NotFound "refresh token not found"
        ∨ e = .status .Internal "try it a little later or check the data you entered")
    ∧ a.RefreshInterleaved
        now1 ⟨(c.newToken t ⟨I⟩ c.accessTokenTime).1, (c.newToken t ⟨I⟩ c.refreshTokenTime).1⟩
        now2 ⟨(c.newToken t ⟨I⟩ c.accessTokenTime).1, (c.newToken t ⟨I⟩ c.refreshTokenTime).1⟩
        db
      = ((.returns (some ⟨(c.newToken now1 ⟨I⟩ c.accessTokenTime).1,
              (c.newToken now1 ⟨I⟩ c.refreshTokenTime).1⟩, none),
          .returns (some ⟨(c.newToken now2 ⟨I⟩ c.accessTokenTime).1,
              (c.newToken now2 ⟨I⟩ c.refreshTokenTime).1⟩, none)),
         { db with auth_tokens := db.auth_tokens.map (fun x =>
              if x.user_id = I then
                { x with refresh_token := (c.newToken now2 ⟨I⟩ c.refreshTokenTime).1,
                         updated_at := now2 }
              else x) })
    ∧ ((c.newToken now1 ⟨I⟩ c.refreshTokenTime).1 = (c.newToken now2 ⟨I⟩ c.refreshTokenTime).1
        ↔ time.Unix (time.Add now1 c.refreshTokenTime)
            = time.Unix (time.Add now2 c.refreshTokenTime))
    ∧ (a.Refresh now1 ⟨(c.newToken t ⟨I⟩ c.accessTokenTime).1,
          (c.newToken t ⟨I⟩ c.refreshTokenTime).1⟩ db).1
        = .returns (some ⟨(c.newToken now1 ⟨I⟩ c.accessTokenTime).1,
            (c.newToken now1 ⟨I⟩ c.refreshTokenTime).1⟩, none)
    ∧ (time.Unix (time.Add now1 c.refreshTokenTime) ≠ time.Unix (time.Add t c.refreshTokenTime) →
        (a.Refresh now2 ⟨(c.newToken t ⟨I⟩ c.accessTokenTime).1,
            (c.newToken t ⟨I⟩ c.refreshTokenTime).1⟩
          (a.Refresh now1 ⟨(c.newToken t ⟨I⟩ c.accessTokenTime).1,
            (c.newToken t ⟨I⟩ c.refreshTokenTime).1⟩ db).2).1
          = .returns (none, some (.status .Unauthenticated "not authorized"))) := by
  have hfirst := Refresh_first_record_accepted a r c hrepo hjwt hk hsize I t t now1 db rest
    hreach hsess hvalid1
  refine ⟨fun now req s => Refresh_eq_steps a now req s,
    fun now req s resp e h => Refresh_error_codes a now req s resp e h, ?_, ?_, ?_, ?_⟩
  · have h1 := refreshCheck_first_record a r c hrepo hjwt hk hsize I t now1 db rest hreach hsess
      hvalid1
    have h2 := refreshCheck_first_record a r c hrepo hjwt hk hsize I t now2 db rest hreach hsess
      hvalid2
    have h3 := refreshRotate_reachable a r c hrepo hjwt hsize I now1 db hreach
    have h4 := refreshRotate_reachable a r c hrepo hjwt hsize I now2
      { db with auth_tokens := db.auth_tokens.map (fun x =>
          if x.user_id = I then
            { x with refresh_token := (c.newToken now1 ⟨I⟩ c.refreshTokenTime).1,
                     updated_at := now1 }
          else x) } hreach
    simp only [authServer.RefreshInterleaved, h1, h2, authServer.refreshFinish, h3, h4,
      List.map_map]
    refine Prod.ext rfl ?_
    simp only
    congr 1
    apply List.map_congr_left
    intro x _
    by_cases hx : x.user_id = I <;> simp [hx]
  · simp [jwt.newToken_eq c hsize, jwt.newTokenClaims]
  · rw [hfirst]
  · intro hne
    rw [hfirst]
    have hsess' : (repo.Database.sessions { db with auth_tokens := db.auth_tokens.map (fun x =>
          if x.user_id = I then
            { x with refresh_token := (c.newToken now1 ⟨I⟩ c.refreshTokenTime).1,
                     updated_at := now1 }
          else x) } I).map (fun x => x.refresh_token)
        = (c.newToken now1 ⟨I⟩ c.refreshTokenTime).1
            :: rest.map (fun _ => (c.newToken now1 ⟨I⟩ c.refreshTokenTime).1) := by
      simp only [repo.Database.sessions] at hsess ⊢
      rw [repo.sessions_after_update]
      have hlen := congrArg (List.map (fun _ => (c.newToken now1 ⟨I⟩ c.refreshTokenTime).1)) hsess
      rw [List.map_map] at hlen
      exact hlen
    have hreach' : repo.Database.reachable { db with auth_tokens := db.auth_tokens.map (fun x =>
          if x.user_id = I then
            { x with refresh_token := (c.newToken now1 ⟨I⟩ c.refreshTokenTime).1,
                     updated_at := now1 }
          else x) } = true := hreach
    have hneq : (c.newToken t ⟨I⟩ c.refreshTokenTime).1
        ≠ (c.newToken now1 ⟨I⟩ c.refreshTokenTime).1 := by
      simp only [jwt.newToken_eq c hsize, jwt.newTokenClaims]
      intro heq
      apply hne
      simp at heq
      exact heq.symm
    rw [Refresh_other_record_rejected a r c hrepo hjwt hk hsize I t now2 _ _ _ _ hreach' hsess'
      hneq]

/-- Witness of C17: the two calls on alice's session of `t0`. -/
theorem RefreshInterleaved_both_succeed_witness :
    db1.reachable = true
    ∧ (db1.sessions aliceID).map (fun x => x.refresh_token)
        = (client.newToken t0 ⟨aliceID⟩ client.refreshTokenTime).1 :: []
    ∧ ∃ pair1 pair2 db,
        server.RefreshInterleaved
          (t0 + time.Second)
          ⟨(client.newToken t0 ⟨aliceID⟩ client.accessTokenTime).1,
            (client.newToken t0 ⟨aliceID⟩ client.refreshTokenTime).1⟩
          (t0 + 2 * time.Second)
          ⟨(client.newToken t0 ⟨aliceID⟩ client.accessTokenTime).1,
            (client.newToken t0 ⟨aliceID⟩ client.refreshTokenTime).1⟩ db1
        = ((.returns (some pair1, none), .returns (some pair2, none)), db) :=
  ⟨by decide, by decide, _, _, _,
    (RefreshInterleaved_both_succeed server {} client rfl rfl (by decide) (by decide) aliceID t0
      (t0 + time.Second) (t0 + 2 * time.Second) db1 [] (by decide) (by decide) (by decide)
      (by decide)).2.2.1⟩

/-- When the validation of the request reports an error, `Register` returns a nil
response and a nil error, because `status.Error` with the code `OK` is nil; the
store is untouched and the call recorder notes no call. -/
theorem Register_validation_error {σ : Type} (a : authServer σ) (now : time.Time)
    (req : RegisterRequest) (s : σ) (log : List repo.Call) (err : String)
    (hval : a.validateRegister req = some err) :
    a.Register now req s = (.returns (none, none), s)
    ∧ a.recorded.Register now req (s, log) = (.returns (none, none), (s, log)) := by
  constructor <;>
    simp [authServer.Register, authServer.recorded, hval, fail, statusError]

/-- When the validation of the request reports an error, `Login` returns
`InvalidArgument` with the text of that error. -/
theorem Login_validation_error {σ : Type} (a : authServer σ) (now : time.Time)
    (req : LoginRequest) (s : σ) (err : String) (hval : a.validateLogin req = some err) :
    a.Login now req s = (.returns (none, some (.status .InvalidArgument err)), s) := by
  simp [authServer.Login, hval, fail, statusError]

/-- C21 (code defect): the validator rejects a `Register` request with an empty
username; `Register` returns a nil response together with a nil error, without a call
of the repository, while `Login` returns `InvalidArgument` for a request that the
validator rejects for the same reason. -/
theorem Register_returns_nil_error_on_rejected_request :
    validatingServer.validateRegister ⟨"", "Abcd123!", "a@x.com"⟩
      = some "Field is required: RegisterRequest.Username"
    ∧ validatingServer.Register t0 ⟨"", "Abcd123!", "a@x.com"⟩ db0 = (.returns (none, none), db0)
    ∧ validatingServer.recorded.Register t0 ⟨"", "Abcd123!", "a@x.com"⟩ (db0, [])
      = (.returns (none, none), (db0, []))
    ∧ validatingServer.Login t0 ⟨"", "Abcd123!"⟩ db0
      = (.returns (none, some (.status .InvalidArgument
          "Field is required: LoginRequest.Username")), db0) := by
  decide

end service
